import Mathlib

/-!
# ng-idle (angular-idle.js v0.3.5): a shallow embedding

The development follows `src/angular-idle.js`.

* Time values are integers (milliseconds since the epoch); seconds in the
  options are integers.  Floating point numbers are not modelled.
* The browser facilities the module calls (`Date`, `JSON`, `$interval`,
  `localStorage`, `$rootScope.$broadcast`) are modelled next to the code that
  uses them.  Behaviour that ECMAScript leaves to the implementation, or that
  lies outside the values this module handles, is a field of `Platform`;
  every theorem holds for every platform.
-/

namespace NgIdle

/-! ## Dates: ECMAScript day and year arithmetic -/

/-- Milliseconds per day. -/
def msPerDay : Int := 86400000

/-- ECMAScript `Day(t)`. -/
def Day (t : Int) : Int := t / msPerDay

/-- ECMAScript `TimeWithinDay(t)`. -/
def TimeWithinDay (t : Int) : Int := t % msPerDay

/-- ECMAScript `DayFromYear(y)`: the day number of 1 January of year `y`. -/
def DayFromYear (y : Int) : Int :=
  365 * (y - 1970) + (y - 1969) / 4 - (y - 1901) / 100 + (y - 1601) / 400

/-- ECMAScript `DaysInYear(y)`. -/
def DaysInYear (y : Int) : Int :=
  if y % 4 ≠ 0 then 365
  else if y % 100 ≠ 0 then 366
  else if y % 400 ≠ 0 then 365
  else 366

/-- ECMAScript `InLeapYear`, as the number 0 or 1. -/
def InLeapYear (y : Int) : Int := if DaysInYear y = 366 then 1 else 0

/-- ECMAScript `YearFromTime`, on day numbers: the largest `y` with
`DayFromYear y ≤ d`.  It is computed from the mean year length (146097 days
in 400 years) and corrected by at most one year. -/
def YearFromDay (d : Int) : Int :=
  let g := 1970 + (400 * d) / 146097
  if DayFromYear (g + 1) ≤ d then g + 1
  else if d < DayFromYear g then g - 1
  else g

/-- Day within the year at which month `m` (0-based) starts. -/
def monthStart (m : Nat) (leap : Int) : Int :=
  match m with
  | 0 => 0
  | 1 => 31
  | 2 => 59 + leap
  | 3 => 90 + leap
  | 4 => 120 + leap
  | 5 => 151 + leap
  | 6 => 181 + leap
  | 7 => 212 + leap
  | 8 => 243 + leap
  | 9 => 273 + leap
  | 10 => 304 + leap
  | 11 => 334 + leap
  | _ => 365 + leap

/-- ECMAScript `MonthFromTime`, from the day within the year. -/
def MonthFromDay (dayInYear : Int) (leap : Int) : Nat :=
  if dayInYear < 31 then 0
  else if dayInYear < 59 + leap then 1
  else if dayInYear < 90 + leap then 2
  else if dayInYear < 120 + leap then 3
  else if dayInYear < 151 + leap then 4
  else if dayInYear < 181 + leap then 5
  else if dayInYear < 212 + leap then 6
  else if dayInYear < 243 + leap then 7
  else if dayInYear < 273 + leap then 8
  else if dayInYear < 304 + leap then 9
  else if dayInYear < 334 + leap then 10
  else 11

/-- The calendar and clock fields of a time value, as `toISOString` prints
them (`month` and `date` are 1-based). -/
structure DateFields where
  year : Int
  month : Int
  date : Int
  hours : Int
  minutes : Int
  seconds : Int
  ms : Int
deriving DecidableEq, Repr

/-- Fields of the time value `t` (UTC). -/
def DateFields.ofTime (t : Int) : DateFields :=
  let d := Day t
  let y := YearFromDay d
  let leap := InLeapYear y
  let dayInYear := d - DayFromYear y
  let m := MonthFromDay dayInYear leap
  let tod := TimeWithinDay t
  { year := y
    month := (m : Int) + 1
    date := dayInYear - monthStart m leap + 1
    hours := tod / 3600000
    minutes := tod / 60000 % 60
    seconds := tod / 1000 % 60
    ms := tod % 1000 }

/-- ECMAScript `MakeDate(MakeDay(year, month - 1, date), MakeTime(...))` for
fields that are in range. -/
def DateFields.toTime (f : DateFields) : Int :=
  (DayFromYear f.year + monthStart (f.month - 1).toNat (InLeapYear f.year) + f.date - 1) * msPerDay
    + (f.hours * 3600000 + f.minutes * 60000 + f.seconds * 1000 + f.ms)

/-- Number of days of month `m` (1-based) in year `y`. -/
def daysInMonth (y : Int) (m : Int) : Int :=
  monthStart m.toNat (InLeapYear y) - monthStart (m - 1).toNat (InLeapYear y)

/-- The fields denote a calendar date and a time of day. -/
def DateFields.legal (f : DateFields) : Bool :=
  decide (1 ≤ f.month) && decide (f.month ≤ 12) && decide (1 ≤ f.date) &&
  decide (f.date ≤ daysInMonth f.year f.month) && decide (0 ≤ f.hours) && decide (f.hours ≤ 23) &&
  decide (0 ≤ f.minutes) && decide (f.minutes ≤ 59) && decide (0 ≤ f.seconds) &&
  decide (f.seconds ≤ 59) && decide (0 ≤ f.ms) && decide (f.ms ≤ 999)

/-! ## Strings and the ISO date format -/

/-- The double quote character. -/
def dq : Char := Char.ofNat 34

/-- The backslash character. -/
def bs : Char := Char.ofNat 92

/-- A decimal digit, as the regular expression class `\d` of JavaScript. -/
def isDigit (c : Char) : Bool := decide (48 ≤ c.toNat) && decide (c.toNat ≤ 57)

/-- Value of a decimal digit. -/
def digitValue (c : Char) : Nat := c.toNat - 48

/-- Value of a string of decimal digits. -/
def digitsValue (cs : List Char) : Nat := cs.foldl (fun acc c => 10 * acc + digitValue c) 0

/-- The number `n` written with exactly `width` decimal digits. -/
def padDigits : Nat → Nat → List Char
  | 0, _ => []
  | width + 1, n => padDigits width (n / 10) ++ [Nat.digitChar (n % 10)]

/-- ECMAScript `Date.prototype.toISOString` for the time value `t`:
`YYYY-MM-DDTHH:mm:ss.sssZ`, the year written with a sign and six digits when
it is not between 0 and 9999. -/
def toISOString (t : Int) : List Char :=
  let f := DateFields.ofTime t
  let year :=
    if 0 ≤ f.year ∧ f.year ≤ 9999 then padDigits 4 f.year.toNat
    else (if f.year < 0 then '-' else '+') :: padDigits 6 f.year.natAbs
  year ++ ['-'] ++ padDigits 2 f.month.toNat ++ ['-'] ++ padDigits 2 f.date.toNat ++ ['T'] ++
    padDigits 2 f.hours.toNat ++ [':'] ++ padDigits 2 f.minutes.toNat ++ [':'] ++
    padDigits 2 f.seconds.toNat ++ ['.'] ++ padDigits 3 f.ms.toNat ++ ['Z']

/-- A JavaScript `Date` object: its time value, `none` for an Invalid Date. -/
structure JSDate where
  time : Option Int
deriving DecidableEq, Repr

/-- The expression `new Date(v)` for a number `v`: ECMAScript `TimeClip`. -/
def JSDate.ofNumber (v : Int) : JSDate :=
  if -8640000000000000 ≤ v ∧ v ≤ 8640000000000000 then ⟨some v⟩ else ⟨none⟩

/-- A value as `JSON.parse` with the reviver of `tryParseJson` returns it. A
number keeps its literal, since floating point values are not modelled. -/
inductive JSValue where
  | null
  | bool (b : Bool)
  | num (literal : List Char)
  | str (s : List Char)
  | date (d : JSDate)
  | arr (items : List JSValue)
  | obj (members : List (List Char × JSValue))

/-- What ECMAScript leaves to the implementation, and the coercions of values
that this module never writes itself. -/
structure Platform where
  /-- The result of `Date.parse` on a string that is not a legal date in the simplified ISO
  format with a four-digit year (`none` is `NaN`). -/
  dateParse : List Char → Option Int
  /-- The value of `ToBoolean` for the number a JSON numeric literal denotes. -/
  numberTruthy : List Char → Bool
  /-- The comparison `value <= date` for a value that is neither a `Date` nor
  a boolean, the date having the given time value. -/
  lessEq : JSValue → Int → Bool

/-- The regular expression of the reviver in `tryParseJson`,
`/^(\d{4})-(\d{2})-(\d{2})T(\d{2}):(\d{2}):(\d{2}(?:\.\d*)?)Z$/`, tested
against `value`. -/
def isoPattern (value : List Char) : Bool :=
  match value with
  | y1 :: y2 :: y3 :: y4 :: c1 :: m1 :: m2 :: c2 :: d1 :: d2 :: c3 :: h1 :: h2 :: c4 ::
      n1 :: n2 :: c5 :: s1 :: s2 :: rest =>
    [y1, y2, y3, y4, m1, m2, d1, d2, h1, h2, n1, n2, s1, s2].all isDigit &&
    (c1 == '-' && c2 == '-' && c3 == 'T' && c4 == ':' && c5 == ':') &&
    (match rest with
      | [] => false
      | [z] => z == 'Z'
      | p :: more => p == '.' && more.getLast? == some 'Z' && more.dropLast.all isDigit)
  | _ => false

/-- The fields of `YYYY-MM-DDTHH:mm:ss` followed by the milliseconds. -/
def isoFields (y m d h n s f : List Char) : DateFields :=
  { year := digitsValue y
    month := digitsValue m
    date := digitsValue d
    hours := digitsValue h
    minutes := digitsValue n
    seconds := digitsValue s
    ms := digitsValue f }

/-- ECMAScript `Date.parse` (`none` is `NaN`).  A string in the simplified ISO
format `YYYY-MM-DDTHH:mm:ss.sssZ` or `YYYY-MM-DDTHH:mm:ssZ` with legal fields
denotes the time value of its fields; every other string is left to the
platform. -/
def Date.parse (P : Platform) (s : List Char) : Option Int :=
  match s with
  | [y1, y2, y3, y4, c1, m1, m2, c2, d1, d2, c3, h1, h2, c4, n1, n2, c5, s1, s2, c6,
      f1, f2, f3, z] =>
    let f := isoFields [y1, y2, y3, y4] [m1, m2] [d1, d2] [h1, h2] [n1, n2] [s1, s2] [f1, f2, f3]
    if [y1, y2, y3, y4, m1, m2, d1, d2, h1, h2, n1, n2, s1, s2, f1, f2, f3].all isDigit &&
        (c1 == '-' && c2 == '-' && c3 == 'T' && c4 == ':' && c5 == ':' && c6 == '.' && z == 'Z') &&
        f.legal
    then some f.toTime else P.dateParse s
  | [y1, y2, y3, y4, c1, m1, m2, c2, d1, d2, c3, h1, h2, c4, n1, n2, c5, s1, s2, z] =>
    let f := isoFields [y1, y2, y3, y4] [m1, m2] [d1, d2] [h1, h2] [n1, n2] [s1, s2] []
    if [y1, y2, y3, y4, m1, m2, d1, d2, h1, h2, n1, n2, s1, s2].all isDigit &&
        (c1 == '-' && c2 == '-' && c3 == 'T' && c4 == ':' && c5 == ':' && z == 'Z') &&
        f.legal
    then some f.toTime else P.dateParse s
  | _ => P.dateParse s

/-- The expression `new Date(value)` for a string `value`. -/
def JSDate.ofString (P : Platform) (value : List Char) : JSDate :=
  match Date.parse P value with
  | some t => JSDate.ofNumber t
  | none => ⟨none⟩

/-! ## JSON -/

/-- ECMAScript `JSON.stringify` of a `Date`: `toJSON` gives `null` for an
Invalid Date and the ISO string otherwise, which is quoted (none of its
characters needs an escape). -/
def JSON.stringify (value : JSDate) : List Char :=
  match value.time with
  | none => ['n', 'u', 'l', 'l']
  | some t => dq :: (toISOString t ++ [dq])

/-- JSON white space. -/
def isWS (c : Char) : Bool := c == ' ' || c == '\t' || c == '\n' || c == '\r'

/-- Skip JSON white space. -/
def skipWS : List Char → List Char
  | [] => []
  | c :: cs => if isWS c then skipWS cs else c :: cs

/-- Value of a hexadecimal digit. -/
def hexValue (c : Char) : Option Nat :=
  if isDigit c then some (c.toNat - 48)
  else if 97 ≤ c.toNat ∧ c.toNat ≤ 102 then some (c.toNat - 87)
  else if 65 ≤ c.toNat ∧ c.toNat ≤ 70 then some (c.toNat - 55)
  else none

/-- The characters of a JSON string literal after its opening quote, and the
text after the closing quote.  A `\u` escape gives the character with that
code (surrogate pairs are not modelled). -/
def parseChars : List Char → Option (List Char × List Char)
  | [] => none
  | c :: cs =>
    if c = dq then some ([], cs)
    else if c = bs then
      match cs with
      | [] => none
      | e :: rest =>
        if e = 'u' then
          match rest with
          | h1 :: h2 :: h3 :: h4 :: rest4 =>
            match hexValue h1, hexValue h2, hexValue h3, hexValue h4 with
            | some a, some b, some c, some d =>
              (parseChars rest4).map
                (fun p => (Char.ofNat (4096 * a + 256 * b + 16 * c + d) :: p.1, p.2))
            | _, _, _, _ => none
          | _ => none
        else
          let unescaped : Option Char :=
            if e = dq then some dq
            else if e = bs then some bs
            else if e = '/' then some '/'
            else if e = 'b' then some (Char.ofNat 8)
            else if e = 'f' then some (Char.ofNat 12)
            else if e = 'n' then some '\n'
            else if e = 'r' then some '\r'
            else if e = 't' then some '\t'
            else none
          match unescaped with
          | some u => (parseChars rest).map (fun p => (u :: p.1, p.2))
          | none => none
    else if c.toNat < 32 then none
    else (parseChars cs).map (fun p => (c :: p.1, p.2))

/-- Drop the literal `lit` from the front of `cs`. -/
def dropLiteral : List Char → List Char → Option (List Char)
  | [], cs => some cs
  | _ :: _, [] => none
  | l :: ls, c :: cs => if l = c then dropLiteral ls cs else none

/-- A JSON number at the front of `cs`: its literal and the text after it. -/
def parseNumber (cs : List Char) : Option (List Char × List Char) :=
  let signed : List Char × List Char :=
    match cs with
    | c :: r => if c = '-' then ([c], r) else ([], cs)
    | [] => ([], [])
  let int := signed.2.span isDigit
  if int.1 = [] ∨ (1 < int.1.length ∧ int.1.head? = some '0') then none
  else
    let frac : Option (List Char × List Char) :=
      match int.2 with
      | c :: r =>
        if c = '.' then
          let ds := r.span isDigit
          if ds.1 = [] then none else some (c :: ds.1, ds.2)
        else some ([], int.2)
      | [] => some ([], [])
    match frac with
    | none => none
    | some fr =>
      let exp : Option (List Char × List Char) :=
        match fr.2 with
        | c :: r =>
          if c = 'e' ∨ c = 'E' then
            let sg : List Char × List Char :=
              match r with
              | s :: r2 => if s = '+' ∨ s = '-' then ([s], r2) else ([], r)
              | [] => ([], [])
            let ds := sg.2.span isDigit
            if ds.1 = [] then none else some (c :: (sg.1 ++ ds.1), ds.2)
          else some ([], fr.2)
        | [] => some ([], [])
      match exp with
      | none => none
      | some ex => some (signed.1 ++ int.1 ++ fr.1 ++ ex.1, ex.2)

/-- The reviver that `tryParseJson` passes to `JSON.parse`: a string matching
the ISO pattern becomes `new Date(value)`.  The pattern is tested against the
string form of the value, which matches for no value other than a string. -/
def reviver (P : Platform) (value : JSValue) : JSValue :=
  match value with
  | .str s => if isoPattern s then .date (JSDate.ofString P s) else value
  | _ => value

mutual
/-- A JSON value at the front of the text, revived, and the text after it. -/
def parseValue (P : Platform) : Nat → List Char → Option (JSValue × List Char)
  | 0, _ => none
  | fuel + 1, cs =>
    match skipWS cs with
    | [] => none
    | c :: r =>
      if c = dq then (parseChars r).map (fun p => (reviver P (.str p.1), p.2))
      else if c = '[' then
        match skipWS r with
        | [] => none
        | c2 :: r2 =>
          if c2 = ']' then some (reviver P (.arr []), r2)
          else (parseElements P fuel (c2 :: r2)).map (fun p => (reviver P (.arr p.1), p.2))
      else if c = '{' then
        match skipWS r with
        | [] => none
        | c2 :: r2 =>
          if c2 = '}' then some (reviver P (.obj []), r2)
          else (parseMembers P fuel (c2 :: r2)).map (fun p => (reviver P (.obj p.1), p.2))
      else if c = 'n' then (dropLiteral ['u', 'l', 'l'] r).map (fun r2 => (reviver P .null, r2))
      else if c = 't' then
        (dropLiteral ['r', 'u', 'e'] r).map (fun r2 => (reviver P (.bool true), r2))
      else if c = 'f' then
        (dropLiteral ['a', 'l', 's', 'e'] r).map (fun r2 => (reviver P (.bool false), r2))
      else (parseNumber (c :: r)).map (fun p => (reviver P (.num p.1), p.2))
/-- The elements of an array up to its closing bracket. -/
def parseElements (P : Platform) : Nat → List Char → Option (List JSValue × List Char)
  | 0, _ => none
  | fuel + 1, cs =>
    match parseValue P fuel cs with
    | none => none
    | some (v, r) =>
      match skipWS r with
      | [] => none
      | c :: r2 =>
        if c = ',' then (parseElements P fuel r2).map (fun p => (v :: p.1, p.2))
        else if c = ']' then some ([v], r2)
        else none
/-- The members of an object up to its closing brace. -/
def parseMembers (P : Platform) : Nat → List Char →
    Option (List (List Char × JSValue) × List Char)
  | 0, _ => none
  | fuel + 1, cs =>
    match skipWS cs with
    | [] => none
    | q :: r =>
      if q = dq then
        match parseChars r with
        | none => none
        | some (key, r1) =>
          match skipWS r1 with
          | [] => none
          | colon :: r2 =>
            if colon = ':' then
              match parseValue P fuel r2 with
              | none => none
              | some (v, r3) =>
                match skipWS r3 with
                | [] => none
                | c :: r4 =>
                  if c = ',' then (parseMembers P fuel r4).map (fun p => ((key, v) :: p.1, p.2))
                  else if c = '}' then some ([(key, v)], r4)
                  else none
            else none
      else none
end

/-- ECMAScript `JSON.parse(text, reviver)` with the reviver of `tryParseJson`;
`none` when it throws a `SyntaxError`. -/
def JSON.parse (P : Platform) (text : List Char) : Option JSValue :=
  match parseValue P (2 * text.length + 2) text with
  | none => none
  | some (v, rest) => if skipWS rest = [] then some v else none

/-! ## The `LocalStorage` factory -/

/-- The browser's `localStorage`: `getItem` gives `none` (`null`) for a key
that is not there. -/
abbrev Storage := String → Option (List Char)

/-- The function `tryParseJson(value)`: the parsed and revived value, or
`value` itself when `JSON.parse` throws.  `JSON.parse` converts a `null`
argument to the text `null`. -/
def tryParseJson (P : Platform) (value : Option (List Char)) : JSValue :=
  match JSON.parse P (value.getD ['n', 'u', 'l', 'l']) with
  | some v => v
  | none =>
    match value with
    | some raw => .str raw
    | none => .null

/-- The method `LocalStorage.set(key, value)` for a `Date` value. -/
def LocalStorage.set (storage : Storage) (key : String) (value : JSDate) : Storage :=
  Function.update storage ("ngIdle." ++ key) (some (JSON.stringify value))

/-- The method `LocalStorage.get(key)`. -/
def LocalStorage.get (P : Platform) (storage : Storage) (key : String) : JSValue :=
  tryParseJson P (storage ("ngIdle." ++ key))

/-- The method `LocalStorage.remove(key)`. -/
def LocalStorage.remove (storage : Storage) (key : String) : Storage :=
  Function.update storage ("ngIdle." ++ key) none

/-- A platform for evaluating examples: unrecognised date strings are
invalid, numbers are truthy and values other than dates compare false. -/
def Platform.simple : Platform :=
  { dateParse := fun _ => none
    numberTruthy := fun _ => true
    lessEq := fun _ _ => false }

/-! ## The world: options, service state, timers, storage, clock, events -/

/-- Events broadcast on `$rootScope`. -/
inductive Event where
  | IdleStart
  | IdleEnd
  | IdleWarn (countdown : Int)
  | IdleTimeout
  | Keepalive
  | KeepaliveResponse (data : String) (status : Int)
deriving DecidableEq, Repr

/-- The functions this module registers with `$interval`. -/
inductive Callback where
  | toggleState
  | countdown
  | ping
deriving DecidableEq, Repr

/-- An armed `$interval` timer: `count` is the number of runs asked for (0 for
no limit), `iteration` the number of runs so far, `due` the time of the next
run. -/
structure Interval where
  id : Nat
  fn : Callback
  delay : Int
  count : Int
  iteration : Int
  due : Int
deriving DecidableEq, Repr

/-- An HTTP request configuration of the `Keepalive` provider. -/
structure HttpConfig where
  url : String
  method : String
  cache : Bool
deriving DecidableEq, Repr

/-- The `options` of the `Keepalive` provider. -/
structure KeepaliveOptions where
  http : Option HttpConfig := none
  interval : Int := 10 * 60
deriving DecidableEq, Repr

/-- The `options` of the `Idle` provider. -/
structure Options where
  idle : Int := 20 * 60
  timeout : Int := 30
  autoResume : Bool := true
  interrupt : String :=
    "mousemove keydown DOMMouseScroll mousewheel mousedown touchstart touchmove scroll"
  keepalive : Bool := true
deriving DecidableEq, Repr

/-- The `state` of the `Keepalive` service: the handle of its timer. -/
structure KeepaliveState where
  ping : Option Nat := none
deriving DecidableEq, Repr

/-- The `state` of the `Idle` service.  A handle is the id of the timer that
`$interval` returned, `none` for `null`; `countdown` is `none` for `null`. -/
structure IdleState where
  idle : Option Nat := none
  timeout : Option Nat := none
  idling : Bool := false
  running : Bool := false
  countdown : Option Int := none
deriving DecidableEq, Repr

/-- Everything the two services read and write. -/
structure World where
  options : Options
  keepaliveOptions : KeepaliveOptions
  state : IdleState
  keepalive : KeepaliveState
  /-- The armed timers of `$interval`. -/
  intervals : List Interval
  /-- The id the next timer gets. -/
  nextId : Nat
  storage : Storage
  /-- The clock that `new Date()` reads, in milliseconds. -/
  now : Int
  /-- The events broadcast so far, each with the time of its broadcast. -/
  events : List (Int × Event)
  /-- The requests passed to `$http` so far. -/
  requests : List HttpConfig
  /-- The requests passed to `$http` whose response has not arrived yet; `ping()`
  has registered `handleResponse` as the success and error callback of each. -/
  pending : List HttpConfig

/-- The world when the services have just been created. -/
def World.init (options : Options) (keepaliveOptions : KeepaliveOptions) (storage : Storage)
    (now : Int) : World :=
  { options := options
    keepaliveOptions := keepaliveOptions
    state := {}
    keepalive := {}
    intervals := []
    nextId := 0
    storage := storage
    now := now
    events := []
    requests := []
    pending := [] }

/-- The call `$rootScope.$broadcast(event)`. -/
def broadcast (event : Event) (w : World) : World :=
  { w with events := w.events ++ [(w.now, event)] }

/-- The call `$interval(fn, delay, count)`: arms a timer under a fresh id and
returns its handle. -/
def interval (fn : Callback) (delay : Int) (count : Int) (w : World) : Nat × World :=
  (w.nextId,
    { w with
      intervals := w.intervals ++
        [{ id := w.nextId, fn := fn, delay := delay, count := count, iteration := 0,
           due := w.now + delay }]
      nextId := w.nextId + 1 })

/-- The timers left when the one with the given handle is removed; the handle
`null` removes none. -/
def cancelIn (handle : Option Nat) (timers : List Interval) : List Interval :=
  timers.filter (fun t => handle ≠ some t.id)

/-- The call `$interval.cancel(handle)`: removes the timer if it is armed. -/
def interval.cancel (handle : Option Nat) (w : World) : World :=
  { w with intervals := cancelIn handle w.intervals }

/-! ## The `Keepalive` service -/

/-- The function `handleResponse(data, status)` of the `Keepalive` service. -/
def Keepalive.handleResponse (data : String) (status : Int) (w : World) : World :=
  broadcast (.KeepaliveResponse data status) w

/-- The function `ping()` of the `Keepalive` service: with an `http` option
the request is passed to `$http` and `handleResponse` is registered for its
response, which arrives later (`respond`). -/
def Keepalive.ping (w : World) : World :=
  let w := broadcast .Keepalive w
  { w with
    requests :=
      match w.keepaliveOptions.http with
      | some request => w.requests ++ [request]
      | none => w.requests
    pending :=
      match w.keepaliveOptions.http with
      | some request => w.pending ++ [request]
      | none => w.pending }

/-- The method `Keepalive.start()`. -/
def Keepalive.start (w : World) : World :=
  let w := interval.cancel w.keepalive.ping w
  let armed := interval .ping (w.keepaliveOptions.interval * 1000) 0 w
  { armed.2 with keepalive := { ping := some armed.1 } }

/-- The method `Keepalive.stop()`. -/
def Keepalive.stop (w : World) : World :=
  interval.cancel w.keepalive.ping w

/-! ## The `Idle` provider and service -/

/-- An argument of the timeout setter of the documented type `Number|Boolean`,
the number an integer. -/
inductive TimeoutArg where
  | num (seconds : Int)
  | bool (b : Bool)
deriving DecidableEq, Repr

/-- A JavaScript value passed to a setter of the provider.  A finite number
is given by its value, a rational (`-0` is not told from `0`); an object by
the primitive value that `ToPrimitive` converts it to. -/
inductive Arg where
  | undefined
  | null
  | bool (b : Bool)
  | num (value : ℚ)
  | inf (negative : Bool)
  | nan
  | str (s : List Char)
  | obj (primitive : Arg)
deriving DecidableEq

/-- The `options` of the `Idle` provider with the values that the setters
assign: `idle` and `timeout` hold any JavaScript value. -/
structure ProviderOptions where
  idle : Arg := .num (20 * 60)
  timeout : Arg := .num 30
  autoResume : Bool := true
  interrupt : String :=
    "mousemove keydown DOMMouseScroll mousewheel mousedown touchstart touchmove scroll"
  keepalive : Bool := true
deriving DecidableEq

/-- The test `angular.isNumber(value)`: the type of the value is `number`. -/
def Arg.isNumber : Arg → Bool
  | .num _ => true
  | .inf _ => true
  | .nan => true
  | _ => false

/-- The comparison `seconds >= 0` on a value of type `number` (the code
evaluates it on no other value). -/
def Arg.geZero : Arg → Bool
  | .num value => decide (0 ≤ value)
  | .inf negative => !negative
  | _ => false

/-- The comparison `seconds <= 0`: the value is converted to a number and
compared, and a comparison with `NaN` is false.  `undefined` converts to
`NaN`, `null` to 0, `true` to 1, `false` to 0, an object as its primitive
value does; the number of a string is left to the platform, as the
comparison of a string with a date of time value 0. -/
def Arg.leZero (P : Platform) : Arg → Bool
  | .undefined => false
  | .null => true
  | .bool b => !b
  | .num value => decide (value ≤ 0)
  | .inf negative => negative
  | .nan => false
  | .str s => P.lessEq (.str s) 0
  | .obj primitive => Arg.leZero P primitive

/-- The provider method `timeout(seconds)`, also called `setTimeout`, on any
value. -/
def IdleProvider.timeout (seconds : Arg) (options : ProviderOptions) :
    Except String ProviderOptions :=
  if seconds = .bool false then .ok { options with timeout := .num 0 }
  else if seconds.isNumber && seconds.geZero then .ok { options with timeout := seconds }
  else .error "Timeout must be zero or false to disable the feature, or a positive integer (in seconds) to enable it."

/-- The provider method `idle(seconds)`, also called `setIdle`, on any
value. -/
def IdleProvider.idle (P : Platform) (seconds : Arg) (options : ProviderOptions) :
    Except String ProviderOptions :=
  if seconds.leZero P then .error "Idle must be a value in seconds, greater than 0."
  else .ok { options with idle := seconds }

/-- The provider method `timeout(seconds)`, also called `setTimeout`, on the
options of the state machine, for an integer number or a boolean: there it is
`IdleProvider.timeout` (`setTimeout_agrees`). -/
def IdleProvider.setTimeout (seconds : TimeoutArg) (options : Options) : Except String Options :=
  match seconds with
  | .bool false => .ok { options with timeout := 0 }
  | .num n =>
    if 0 ≤ n then .ok { options with timeout := n }
    else .error "Timeout must be zero or false to disable the feature, or a positive integer (in seconds) to enable it."
  | .bool true =>
    .error "Timeout must be zero or false to disable the feature, or a positive integer (in seconds) to enable it."

/-- The provider method `idle(seconds)`, also called `setIdle`, on the options
of the state machine, for an integer number: there it is `IdleProvider.idle`
(`setIdle_agrees`). -/
def IdleProvider.setIdle (seconds : Int) (options : Options) : Except String Options :=
  if seconds ≤ 0 then .error "Idle must be a value in seconds, greater than 0."
  else .ok { options with idle := seconds }

/-- The options of the state machine, whose `idle` and `timeout` are integer
numbers, as options of the provider. -/
def Options.toProvider (o : Options) : ProviderOptions :=
  { idle := .num o.idle
    timeout := .num o.timeout
    autoResume := o.autoResume
    interrupt := o.interrupt
    keepalive := o.keepalive }

/-- The argument of the timeout setter as a JavaScript value. -/
def TimeoutArg.toArg : TimeoutArg → Arg
  | .num seconds => .num seconds
  | .bool b => .bool b

/-- A call of one of the two validating setters of the provider, with any
value. -/
inductive SetterCall where
  | idle (seconds : Arg)
  | timeout (seconds : Arg)
deriving DecidableEq

/-- The result of the setter that the call names. -/
def SetterCall.result (P : Platform) (c : SetterCall) (o : ProviderOptions) :
    Except String ProviderOptions :=
  match c with
  | .idle seconds => IdleProvider.idle P seconds o
  | .timeout seconds => IdleProvider.timeout seconds o

/-- The `options` after the call: a setter that throws has assigned nothing. -/
def SetterCall.apply (P : Platform) (c : SetterCall) (o : ProviderOptions) : ProviderOptions :=
  match c.result P o with
  | .ok o2 => o2
  | .error _ => o

/-- The `options` after a sequence of setter calls, the first one first. -/
def configureWith (P : Platform) (calls : List SetterCall) (o : ProviderOptions) :
    ProviderOptions :=
  calls.foldl (fun o c => c.apply P o) o

/-- The function `startKeepalive()`. -/
def Idle.startKeepalive (w : World) : World :=
  if !w.options.keepalive then w
  else
    let w := if w.state.running then Keepalive.ping w else w
    Keepalive.start w

/-- The function `stopKeepalive()`. -/
def Idle.stopKeepalive (w : World) : World :=
  if !w.options.keepalive then w else Keepalive.stop w

/-- The function `timeout()`. -/
def Idle.timeout (w : World) : World :=
  let w := Idle.stopKeepalive w
  let w := interval.cancel w.state.idle w
  let w := interval.cancel w.state.timeout w
  let w := { w with state := { w.state with idling := true, running := false, countdown := some 0 } }
  broadcast .IdleTimeout w

/-- The function `countdown()`.  A `null` countdown compares as 0. -/
def Idle.countdown (w : World) : World :=
  match w.state.countdown with
  | none => Idle.timeout w
  | some c =>
    if c ≤ 0 then Idle.timeout w
    else
      let w := broadcast (.IdleWarn c) w
      { w with state := { w.state with countdown := some (c - 1) } }

/-- The function `toggleState()`. -/
def Idle.toggleState (w : World) : World :=
  let w := { w with state := { w.state with idling := !w.state.idling } }
  let w := broadcast (if w.state.idling then .IdleStart else .IdleEnd) w
  let w :=
    if w.state.idling then
      let w := Idle.stopKeepalive w
      if w.options.timeout ≠ 0 then
        let w := { w with state := { w.state with countdown := some w.options.timeout } }
        let w := Idle.countdown w
        let armed := interval .countdown 1000 w.options.timeout w
        { armed.2 with state := { armed.2.state with timeout := some armed.1 } }
      else w
    else Idle.startKeepalive w
  interval.cancel w.state.idle w

/-- The function `getExpiry()`. -/
def Idle.getExpiry (P : Platform) (w : World) : JSValue :=
  LocalStorage.get P w.storage "expiry"

/-- The function `setExpiry(date)`; `none` is `null`. -/
def Idle.setExpiry (date : Option JSDate) (w : World) : World :=
  match date with
  | none => { w with storage := LocalStorage.remove w.storage "expiry" }
  | some d => { w with storage := LocalStorage.set w.storage "expiry" d }

/-- ECMAScript `ToBoolean`. -/
def JSValue.truthy (P : Platform) : JSValue → Bool
  | .null => false
  | .bool b => b
  | .num literal => P.numberTruthy literal
  | .str s => !s.isEmpty
  | .date _ => true
  | .arr _ => true
  | .obj _ => true

/-- The comparison `value <= date` where `date` has the time value `now`. -/
def JSValue.lessEq (P : Platform) (value : JSValue) (now : Int) : Bool :=
  match value with
  | .date d =>
    match d.time with
    | some t => decide (t ≤ now)
    | none => false
  | .bool b => decide ((if b then 1 else 0) ≤ now)
  | v => P.lessEq v now

/-- The method `isExpired()`, as a boolean: `expiry && expiry <= this._getNow()`. -/
def Idle.isExpired (P : Platform) (w : World) : Bool :=
  let expiry := Idle.getExpiry P w
  expiry.truthy P && expiry.lessEq P w.now

/-- The method `watch()`. -/
def Idle.watch (w : World) : World :=
  let w := interval.cancel w.state.idle w
  let w := interval.cancel w.state.timeout w
  let timeout := if w.options.timeout = 0 then 0 else w.options.timeout
  let w := Idle.setExpiry (some (JSDate.ofNumber (w.now + (w.options.idle + timeout) * 1000))) w
  let w :=
    if w.state.idling then Idle.toggleState w
    else if !w.state.running then Idle.startKeepalive w
    else w
  let w := { w with state := { w.state with running := true } }
  let armed := interval .toggleState (w.options.idle * 1000) 0 w
  { armed.2 with state := { armed.2.state with idle := some armed.1 } }

/-- The method `unwatch()`. -/
def Idle.unwatch (w : World) : World :=
  let w := interval.cancel w.state.idle w
  let w := interval.cancel w.state.timeout w
  let w := { w with state := { w.state with idling := false, running := false } }
  Idle.setExpiry none w

/-- The method `interrupt()`. -/
def Idle.interrupt (P : Platform) (w : World) : World :=
  if !w.state.running then w
  else if w.options.timeout ≠ 0 ∧ Idle.isExpired P w = true then Idle.timeout w
  else if w.options.autoResume then Idle.watch w
  else w

/-- The world after a call that may throw, and the error it threw. -/
structure Outcome where
  world : World
  thrown : Option String

/-- The function `changeOption(self, fn, value)`. -/
def Idle.changeOption {α : Type} (fn : α → Options → Except String Options) (value : α)
    (w : World) : Outcome :=
  let reset := w.state.running
  let w := Idle.unwatch w
  match fn value w.options with
  | .error e => { world := w, thrown := some e }
  | .ok options =>
    let w := { w with options := options }
    { world := if reset then Idle.watch w else w, thrown := none }

/-- The service method `setIdle(seconds)`. -/
def Idle.setIdle (seconds : Int) (w : World) : Outcome :=
  Idle.changeOption IdleProvider.setIdle seconds w

/-- The service method `setTimeout(seconds)`. -/
def Idle.setTimeout (seconds : TimeoutArg) (w : World) : Outcome :=
  Idle.changeOption IdleProvider.setTimeout seconds w

/-! ## Timers firing and traces -/

/-- The timer with the given id runs once: the clock is at its due time or
later, the run is counted, a timer that has made its `count` runs is removed,
and the callback is called. A timer that is not armed does nothing. -/
def fire (id : Nat) (w : World) : World :=
  match w.intervals.find? (fun t => t.id = id) with
  | none => w
  | some t =>
    let time := max w.now t.due
    let iteration := t.iteration + 1
    let intervals :=
      if 0 < t.count ∧ t.count ≤ iteration then cancelIn (some id) w.intervals
      else w.intervals.map
        (fun x => if x.id = id then { x with iteration := iteration, due := time + x.delay } else x)
    let w := { w with now := time, intervals := intervals }
    match t.fn with
    | .toggleState => Idle.toggleState w
    | .countdown => Idle.countdown w
    | .ping => Keepalive.ping w

/-- The idle timer fires. -/
def idleFire (w : World) : World :=
  match w.state.idle with
  | some h => fire h w
  | none => w

/-- The countdown timer ticks. -/
def countdownTick (w : World) : World :=
  match w.state.timeout with
  | some h => fire h w
  | none => w

/-- The keepalive timer ticks. -/
def keepaliveTick (w : World) : World :=
  match w.keepalive.ping with
  | some h => fire h w
  | none => w

/-- Time passes until `t` with no timer running. -/
def advance (t : Int) (w : World) : World :=
  { w with now := max w.now t }

/-- The response to the oldest request that waits for one arrives, with the
given data and status, as a success or as an error: `$http` calls
`handleResponse(data, status)`.  With no request waiting nothing happens. -/
def respond (data : String) (status : Int) (w : World) : World :=
  match w.pending with
  | [] => w
  | _ :: rest => Keepalive.handleResponse data status { w with pending := rest }

/-- What can happen to the service. -/
inductive Op where
  | watch
  | unwatch
  | interrupt
  | setIdle (seconds : Int)
  | setTimeout (seconds : TimeoutArg)
  | idleFire
  | countdownTick
  | keepaliveTick
  | advance (t : Int)
  | respond (data : String) (status : Int)
deriving DecidableEq, Repr

/-- One operation. -/
def step (P : Platform) (op : Op) (w : World) : World :=
  match op with
  | .watch => Idle.watch w
  | .unwatch => Idle.unwatch w
  | .interrupt => Idle.interrupt P w
  | .setIdle seconds => (Idle.setIdle seconds w).world
  | .setTimeout seconds => (Idle.setTimeout seconds w).world
  | .idleFire => idleFire w
  | .countdownTick => countdownTick w
  | .keepaliveTick => keepaliveTick w
  | .advance t => advance t w
  | .respond data status => respond data status w

/-- A sequence of operations, the first one first. -/
def run (P : Platform) (ops : List Op) (w : World) : World :=
  ops.foldl (fun w op => step P op w) w

/-- The operation is a configuration setter. -/
def Op.isSetter : Op → Bool
  | .setIdle _ => true
  | .setTimeout _ => true
  | _ => false

/-- The world can be reached from a newly created one. -/
def Reachable (P : Platform) (w : World) : Prop :=
  ∃ options keepaliveOptions storage now ops,
    w = run P ops (World.init options keepaliveOptions storage now)

/-! ## Auxiliary definitions for the proofs -/

/-- The timers left when `stopKeepalive()` has run. -/
def stoppedTimers (w : World) : List Interval :=
  if w.options.keepalive then cancelIn w.keepalive.ping w.intervals else w.intervals

/-- The timer that `Keepalive.start()` arms. -/
def pingTimer (w : World) : Interval :=
  { id := w.nextId, fn := .ping, delay := w.keepaliveOptions.interval * 1000, count := 0,
    iteration := 0, due := w.now + w.keepaliveOptions.interval * 1000 }

/-- The timer that `toggleState()` arms when idling starts. -/
def countdownTimer (w : World) : Interval :=
  { id := w.nextId, fn := .countdown, delay := 1000, count := w.options.timeout,
    iteration := 0, due := w.now + 1000 }

/-- The timer that `watch()` arms under the id `id`. -/
def idleTimer (w : World) (id : Nat) : Interval :=
  { id := id, fn := .toggleState, delay := w.options.idle * 1000, count := 0,
    iteration := 0, due := w.now + w.options.idle * 1000 }

/-- A timer is consistent with the handles of the services: its id has been
handed out, and it is the idle timer of a service that is not idling, the
countdown timer of a service that is idling, or the keepalive timer. -/
def Interval.ok (nextId : Nat) (s : IdleState) (k : KeepaliveState) (t : Interval) : Prop :=
  t.id < nextId ∧
  ((t.fn = .toggleState ∧ s.idle = some t.id ∧ s.idling = false) ∨
   (t.fn = .countdown ∧ s.timeout = some t.id ∧ s.idling = true) ∨
   (t.fn = .ping ∧ k.ping = some t.id))

/-- The timers of the world are consistent with the handles the services
hold: every handle has been handed out and every armed timer is the one its
service refers to.  Every reachable world is so (`Reachable.wf`). -/
def World.WF (w : World) : Prop :=
  (∀ h, w.state.idle = some h → h < w.nextId) ∧
  (∀ h, w.state.timeout = some h → h < w.nextId) ∧
  (∀ h, w.keepalive.ping = some h → h < w.nextId) ∧
  ∀ t ∈ w.intervals, t.ok w.nextId w.state w.keepalive

/-- The world in which the callback of the timer `t` runs when `t` fires. -/
def firedWorld (w : World) (t : Interval) : World :=
  { w with
    now := max w.now t.due
    intervals :=
      if 0 < t.count ∧ t.count ≤ t.iteration + 1 then cancelIn (some t.id) w.intervals
      else w.intervals.map
        (fun x =>
          if x.id = t.id then
            { x with iteration := t.iteration + 1, due := max w.now t.due + x.delay }
          else x) }

/-- No timer running the callback `f` is armed. -/
def NoTimer (f : Callback) (w : World) : Prop := ∀ t ∈ w.intervals, t.fn ≠ f

/-- The world inside `watch()` when the timers are cancelled and the expiry
is written. -/
def watchCleared (w : World) : World :=
  { w with
    intervals := cancelIn w.state.timeout (cancelIn w.state.idle w.intervals)
    storage := LocalStorage.set w.storage "expiry"
      (JSDate.ofNumber (w.now + (w.options.idle + w.options.timeout) * 1000)) }

/-- The world inside `watch()` when the timers are cancelled, the expiry is
written and the idle state is cleared, before `state.running = true`. -/
def watchReset (w : World) : World :=
  let w := interval.cancel w.state.idle w
  let w := interval.cancel w.state.timeout w
  let timeout := if w.options.timeout = 0 then 0 else w.options.timeout
  let w := Idle.setExpiry (some (JSDate.ofNumber (w.now + (w.options.idle + timeout) * 1000))) w
  if w.state.idling then Idle.toggleState w
  else if !w.state.running then Idle.startKeepalive w
  else w

/-- The countdown timer `c`, armed at time `T` for `n` runs, after `k` runs. -/
def tickingTimer (c : Nat) (n : Int) (T : Int) (k : Nat) : Interval :=
  { id := c, fn := .countdown, delay := 1000, count := n, iteration := k,
    due := T + 1000 * (k + 1) }

/-- The service is in the warning phase at the `k`-th tick after the idle
timer fired at time `T`: the countdown timer `c`, armed for `n` runs, has made
`k` of them and the countdown stands at `n - 1 - k`. -/
structure Ticking (c : Nat) (n : Int) (T : Int) (k : Nat) (w : World) : Prop where
  handle : w.state.timeout = some c
  countdown : w.state.countdown = some (n - 1 - k)
  now : w.now = T + 1000 * k
  timer : w.intervals.find? (fun t => t.id = c) = some (tickingTimer c n T k)

/-- The example of the specification: idle after 5 seconds, timeout after 3
more, created at time 0 with an empty store. -/
def exampleWorld : World :=
  World.init { idle := 5, timeout := 3 } {} (fun _ => none) 0

/-- The example with the timeout disabled: idle after 5 seconds, timeout 0. -/
def zeroTimeoutWorld : World :=
  World.init { idle := 5, timeout := 0 } {} (fun _ => none) 0

/-- A newly created service that finds in the store an expiry written for
time 1000, at time 5000. -/
def staleStoppedWorld : World :=
  World.init {} {} (LocalStorage.set (fun _ => none) "expiry" (JSDate.ofNumber 1000)) 5000

/-- While the service runs, the expiry is in the store. -/
def ExpiryKept (w : World) : Prop :=
  w.state.running = true → w.storage ("ngIdle." ++ "expiry") ≠ none

/-- A countdown that is not 0 was set under a positive `timeout` option. -/
def CountdownSet (w : World) : Prop :=
  0 ≤ w.options.timeout ∧
  ∀ c, w.state.countdown = some c → c ≠ 0 → 0 < w.options.timeout

/-- The ISO string with the given year (below 10000), month, day, hours,
minutes, seconds and milliseconds. -/
def isoChars (y m d h n s f : Nat) : List Char :=
  padDigits 4 y ++ ['-'] ++ padDigits 2 m ++ ['-'] ++ padDigits 2 d ++ ['T'] ++
    padDigits 2 h ++ [':'] ++ padDigits 2 n ++ [':'] ++ padDigits 2 s ++ ['.'] ++
    padDigits 3 f ++ ['Z']

/-- A character that a JSON string literal holds as itself. -/
def plainChar (c : Char) : Prop := c ≠ dq ∧ c ≠ bs ∧ ¬ c.toNat < 32

/-! ## Definitions for the later claims -/

/-- The configuration is valid: `idle` is positive and `timeout` is not
negative. -/
def Options.valid (o : Options) : Prop := 0 < o.idle ∧ 0 ≤ o.timeout

/-- A call of one of the two validating setters of the provider. -/
inductive ProviderCall where
  | idle (seconds : Int)
  | timeout (seconds : TimeoutArg)
deriving DecidableEq, Repr

/-- The result of the setter that the call names. -/
def ProviderCall.result (c : ProviderCall) (o : Options) : Except String Options :=
  match c with
  | .idle seconds => IdleProvider.setIdle seconds o
  | .timeout seconds => IdleProvider.setTimeout seconds o

/-- The `options` after the call: a setter that throws has assigned nothing. -/
def ProviderCall.apply (c : ProviderCall) (o : Options) : Options :=
  match c.result o with
  | .ok o2 => o2
  | .error _ => o

/-- The `options` after a sequence of setter calls, the first one first. -/
def configure (calls : List ProviderCall) (o : Options) : Options :=
  calls.foldl (fun o c => c.apply o) o

/-- The example with autoResume disabled. -/
def manualResumeWorld : World :=
  World.init { idle := 5, timeout := 3, autoResume := false } {} (fun _ => none) 0

/-- The world is a fresh Running state: running and not idling, exactly one
idle timer armed, for `idle` seconds from now, no countdown timer, and the
expiry written for now + (`idle` + `timeout`) seconds. -/
def FreshRunning (w : World) : Prop :=
  w.state.running = true ∧ w.state.idling = false ∧
  (∃ h, w.state.idle = some h ∧
    w.intervals.filter (fun t => t.fn = .toggleState) = [idleTimer w h]) ∧
  NoTimer .countdown w ∧
  w.storage ("ngIdle." ++ "expiry") =
    some (JSON.stringify (JSDate.ofNumber (w.now + (w.options.idle + w.options.timeout) * 1000)))

/-- The world is stopped: not running, not idling, no idle timer and no
countdown timer armed, no expiry in the store. -/
def StoppedClean (w : World) : Prop :=
  w.state.running = false ∧ w.state.idling = false ∧
  NoTimer .toggleState w ∧ NoTimer .countdown w ∧
  w.storage ("ngIdle." ++ "expiry") = none

/-- A platform that compares a string of decimal digits with a date by its
decimal value, as `ToNumber` gives it; other values compare false. -/
def Platform.decimal : Platform :=
  { dateParse := fun _ => none
    numberTruthy := fun _ => true
    lessEq := fun v now =>
      match v with
      | .str s => !s.isEmpty && s.all isDigit && decide ((digitsValue s : Int) ≤ now)
      | _ => false }

/-- A running service, at time 4000, whose stored expiry has been overwritten
with the text `0010`, which is not JSON. -/
def corruptWorld : World :=
  { run Platform.decimal [.watch, .advance 4000] exampleWorld with
    storage := Function.update (fun _ => none) "ngIdle.expiry" (some ['0', '0', '1', '0']) }

/-! ## Numbers: double precision arithmetic on integers -/

/-- The number of binary digits of `n`, counted with at most `fuel` halvings. -/
def bitLengthAux : Nat → Nat → Nat
  | 0, _ => 0
  | fuel + 1, n => if n = 0 then 0 else bitLengthAux fuel (n / 2) + 1

/-- The number of binary digits of `n`: 0 for 0, and k when 2^(k-1) ≤ n < 2^k. -/
def bitLength (n : Nat) : Nat := bitLengthAux n n

/-- The integer nearest to the quotient `a / b`, the even one of two that are
equally near: the rounding of IEEE 754 arithmetic. -/
def roundHalfEven (a b : Nat) : Nat :=
  if 2 * (a % b) < b then a / b
  else if b < 2 * (a % b) then a / b + 1
  else if a / b % 2 = 0 then a / b else a / b + 1

/-- The nearest number with at most 53 binary digits followed by zeros: the
double nearest to the non-negative integer `n`, when that double is finite. -/
def roundNat (n : Nat) : Nat :=
  roundHalfEven n (2 ^ (bitLength n - 53)) * 2 ^ (bitLength n - 53)

/-- The number 2^1024: a result that rounds to it or beyond is an infinity. -/
def doubleLimit : Nat :=
  179769313486231570814527423731704356798070567525844996598917476803157260780028538760589558632766878171540458953514382464234321326889464182768467546703537516986049910576551282076245490090389328944075868508455133942304583236903222948165808559332123348274797826204144723168738177180919299881250404026184124858368

/-- The double that an arithmetic operation with the exact integer result `n`
returns: the double nearest to `n`, `none` for an infinity. -/
def roundDouble (n : Int) : Option Int :=
  if doubleLimit ≤ roundNat n.natAbs then none
  else some (if n < 0 then - (roundNat n.natAbs : Int) else roundNat n.natAbs)

/-- The expression `Math.floor(a / b)` for doubles with the non-negative
integer values `a` and `b`, `b` positive: the quotient is rounded to the
nearest double, a mantissa of 53 binary digits at the binary exponent of the
quotient (not below -1074), and `Math.floor` takes the integer part of that
double. -/
def floorQuotient (a b : Nat) : Nat :=
  if a = 0 then 0
  else
    let exponent : Int :=
      if b ≤ a then (bitLength (a / b) : Int) - 1 else - (bitLength ((b - 1) / a) : Int)
    let e : Int := max (exponent - 52) (-1074)
    let mantissa := roundHalfEven (a * 2 ^ (-e).toNat) (b * 2 ^ e.toNat)
    mantissa * 2 ^ e.toNat / 2 ^ (-e).toNat

/-! ## The `Title` factory -/

/-- The shortest decimal digits that denote the double with the integer value
`v` of `len` decimal digits: the least number `k` of digits, from `k` on, and
the integer `s` of `k` digits for which `s * 10^(n - k)` rounds to `v`, the
nearer (or else the even) one of two; the result is `s` and `n`. -/
def shortestDigits (v : Nat) (len : Nat) : Nat → Nat → Option (Nat × Nat)
  | 0, _ => none
  | fuel + 1, k =>
    let unit := 10 ^ (len - k)
    let low := v / unit
    let high := low + 1
    let okLow := decide (roundNat (low * unit) = v)
    let okHigh := decide (roundNat (high * unit) = v)
    let pick : Option Nat :=
      if okLow && okHigh then
        (if v - low * unit < high * unit - v then some low
         else if high * unit - v < v - low * unit then some high
         else if low % 2 = 0 then some low else some high)
      else if okLow then some low
      else if okHigh then some high
      else none
    match pick with
    | some s => if s = 10 ^ k then some (1, len + 1) else some (s, len)
    | none => shortestDigits v len fuel (k + 1)

/-- The string form `String(nr)` of a double with the integer value `nr`:
its decimal digits below 10^21, and from there on the shortest digits that
denote it, a point after the first, and the decimal exponent. -/
def numberToString (nr : Int) : List Char :=
  let sign : List Char := if nr < 0 then ['-'] else []
  if nr.natAbs < 10 ^ 21 then sign ++ Nat.toDigits 10 nr.natAbs
  else
    match shortestDigits nr.natAbs (Nat.toDigits 10 nr.natAbs).length 17 1 with
    | none => sign ++ Nat.toDigits 10 nr.natAbs
    | some (s, n) =>
      let mantissa : List Char :=
        match Nat.toDigits 10 s with
        | d :: e :: rest => d :: '.' :: e :: rest
        | ds => ds
      sign ++ mantissa ++ ['e', '+'] ++ Nat.toDigits 10 (n - 1)

/-- The expression `Array(n).join(str)`: `n - 1` copies of `str`; `none` is
the `RangeError` that `Array(n)` throws for a negative length. -/
def arrayJoin (n : Int) (str : List Char) : Option (List Char) :=
  if n < 0 then none else some (List.replicate (n.toNat - 1) str).flatten

/-- The function `padLeft(nr, n, str)` for a double `nr` with an integer
value; the padding `str || '0'` is `'0'` when `str` is left out (`none`) or is
the empty string. -/
def padLeft (nr : Int) (n : Int) (str : Option (List Char)) : Option (List Char) :=
  let pad : List Char :=
    match str with
    | none => ['0']
    | some [] => ['0']
    | some s => s
  (arrayJoin (n - (numberToString nr).length + 1) pad).map (fun p => p ++ numberToString nr)

/-- The object `remaining` that `Title.setAsIdle(countdown)` interpolates. -/
structure Remaining where
  totalSeconds : Nat
  minutes : Nat
  seconds : List Char
deriving DecidableEq, Repr

/-- The object `remaining` built in `Title.setAsIdle(countdown)` for a
countdown that is a double with a non-negative integer value, computed in
double precision as the code computes it: `Math.floor(countdown/60)`, the
product `minutes * 60`, the difference `countdown - minutes * 60`, each
rounded to the nearest double.  The result is `none` when `padLeft` throws:
a product that is an infinity makes the difference `-Infinity`, whose string
has 9 characters, so `padLeft` throws on it as well (the difference of two
finite doubles of the same sign is finite). -/
def Title.remaining (countdown : Nat) : Option Remaining :=
  let minutes := floorQuotient countdown 60
  match roundDouble ((minutes : Int) * 60) with
  | none => none
  | some product =>
    match roundDouble ((countdown : Int) - product) with
    | none => none
    | some seconds =>
      (padLeft seconds 2 none).map
        (fun s => { totalSeconds := countdown, minutes := minutes, seconds := s })

/-! ## Calls of the `Keepalive` service -/

/-- A call of a method of the `Keepalive` service. -/
inductive KeepaliveOp where
  | start
  | stop
  | ping
deriving DecidableEq, Repr

/-- One call. -/
def Keepalive.step (op : KeepaliveOp) (w : World) : World :=
  match op with
  | .start => Keepalive.start w
  | .stop => Keepalive.stop w
  | .ping => Keepalive.ping w

/-- A sequence of calls, the first one first. -/
def Keepalive.run (ops : List KeepaliveOp) (w : World) : World :=
  ops.foldl (fun w op => Keepalive.step op w) w

/-- The keepalive timers that are armed. -/
def pingTimers (w : World) : List Interval := w.intervals.filter (fun t => t.fn = .ping)

/-- The ids of the timers are distinct. -/
def DistinctIds (timers : List Interval) : Prop :=
  timers.Pairwise (fun a b => a.id ≠ b.id)

/-- A keepalive timer is armed only if the `keepalive` option is set. -/
def PingEnabled (w : World) : Prop :=
  ∀ t ∈ w.intervals, t.fn = .ping → w.options.keepalive = true

/-- The timers are consistent with the handles, their ids are distinct, and
a keepalive timer is armed only under the `keepalive` option.  Every reachable
world is so (`Reachable.tidy`). -/
def World.Tidy (w : World) : Prop :=
  w.WF ∧ DistinctIds w.intervals ∧ PingEnabled w

/-- The `timeout` option is not negative, and an idle or countdown timer is
armed only while the service is running. -/
def RunningTimers (w : World) : Prop :=
  0 ≤ w.options.timeout ∧ ∀ t ∈ w.intervals, t.fn ≠ .ping → w.state.running = true

/-- The operation is the arrival of a response. -/
def Op.isResponse : Op → Bool
  | .respond _ _ => true
  | _ => false

/-- The event is a KeepaliveResponse. -/
def Event.isResponse : Event → Bool
  | .KeepaliveResponse _ _ => true
  | _ => false

/-- The example with a keepalive request configured: idle after 5 seconds,
timeout after 3 more, the keepalive pings `/api/ping`. -/
def pingWorld : World :=
  World.init { idle := 5, timeout := 3 }
    { http := some { url := "/api/ping", method := "GET", cache := false } } (fun _ => none) 0

/-! # Theorems -/

/-! ## Closed forms of the service functions -/

theorem mem_cancelIn {h : Option Nat} {ts : List Interval} {t : Interval} :
    t ∈ cancelIn h ts ↔ t ∈ ts ∧ h ≠ some t.id := by
  simp [cancelIn]

theorem stopKeepalive_eq (w : World) :
    Idle.stopKeepalive w = { w with intervals := stoppedTimers w } := by
  unfold Idle.stopKeepalive Keepalive.stop interval.cancel stoppedTimers
  cases hk : w.options.keepalive <;> simp

theorem timeout_eq (w : World) : Idle.timeout w =
    { w with
      intervals := cancelIn w.state.timeout (cancelIn w.state.idle (stoppedTimers w))
      state := { w.state with idling := true, running := false, countdown := some 0 }
      events := w.events ++ [(w.now, .IdleTimeout)] } := by
  unfold Idle.timeout
  rw [stopKeepalive_eq]
  rfl

theorem startKeepalive_off (w : World) (hk : w.options.keepalive = false) :
    Idle.startKeepalive w = w := by
  simp [Idle.startKeepalive, hk]

theorem startKeepalive_on (w : World) (hk : w.options.keepalive = true) :
    Idle.startKeepalive w =
    { w with
      events := if w.state.running then w.events ++ [(w.now, .Keepalive)] else w.events
      requests :=
        if w.state.running then
          match w.keepaliveOptions.http with
          | some request => w.requests ++ [request]
          | none => w.requests
        else w.requests
      pending :=
        if w.state.running then
          match w.keepaliveOptions.http with
          | some request => w.pending ++ [request]
          | none => w.pending
        else w.pending
      intervals := cancelIn w.keepalive.ping w.intervals ++ [pingTimer w]
      nextId := w.nextId + 1
      keepalive := { ping := some w.nextId } } := by
  unfold Idle.startKeepalive Keepalive.start Keepalive.ping interval interval.cancel broadcast
    pingTimer
  cases hr : w.state.running <;> simp [hk]

theorem startKeepalive_state (w : World) : (Idle.startKeepalive w).state = w.state := by
  cases hk : w.options.keepalive
  · rw [startKeepalive_off w hk]
  · rw [startKeepalive_on w hk]

theorem countdown_warn (w : World) (c : Int) (hc : w.state.countdown = some c) (hpos : 0 < c) :
    Idle.countdown w =
    { w with
      events := w.events ++ [(w.now, .IdleWarn c)]
      state := { w.state with countdown := some (c - 1) } } := by
  unfold Idle.countdown broadcast
  simp [hc, not_le.mpr hpos]

theorem countdown_expired (w : World) (h : ∀ c, w.state.countdown = some c → c ≤ 0) :
    Idle.countdown w = Idle.timeout w := by
  unfold Idle.countdown
  cases hc : w.state.countdown with
  | none => rfl
  | some c => simp [h c hc]

theorem toggleState_end (w : World) (hi : w.state.idling = true) :
    Idle.toggleState w =
    interval.cancel w.state.idle (Idle.startKeepalive
      { w with
        state := { w.state with idling := false }
        events := w.events ++ [(w.now, .IdleEnd)] }) := by
  unfold Idle.toggleState broadcast
  simp [hi, startKeepalive_state]

theorem toggleState_start_zero (w : World) (hi : w.state.idling = false)
    (ht : w.options.timeout = 0) :
    Idle.toggleState w =
    { w with
      state := { w.state with idling := true }
      events := w.events ++ [(w.now, .IdleStart)]
      intervals := cancelIn w.state.idle (stoppedTimers w) } := by
  unfold Idle.toggleState
  simp [hi, ht, stopKeepalive_eq, broadcast, interval.cancel, stoppedTimers]

theorem toggleState_start (w : World) (hi : w.state.idling = false)
    (ht : 0 < w.options.timeout) :
    Idle.toggleState w =
    { w with
      state :=
        { w.state with
          idling := true
          timeout := some w.nextId
          countdown := some (w.options.timeout - 1) }
      events := w.events ++ [(w.now, .IdleStart), (w.now, .IdleWarn w.options.timeout)]
      intervals := cancelIn w.state.idle (stoppedTimers w ++ [countdownTimer w])
      nextId := w.nextId + 1 } := by
  unfold Idle.toggleState
  simp only [hi, stopKeepalive_eq, broadcast, Bool.not_false, if_true, ne_eq, ht.ne',
    not_false_eq_true]
  rw [countdown_warn _ w.options.timeout rfl ht]
  simp [interval, interval.cancel, stoppedTimers, countdownTimer]

theorem toggleState_start_neg (w : World) (hi : w.state.idling = false)
    (ht : w.options.timeout < 0) :
    Idle.toggleState w =
    { w with
      state :=
        { w.state with
          idling := true
          running := false
          timeout := some w.nextId
          countdown := some 0 }
      events := w.events ++ [(w.now, .IdleStart), (w.now, .IdleTimeout)]
      intervals := cancelIn w.state.idle
        (cancelIn w.state.timeout (cancelIn w.state.idle
          (stoppedTimers { w with intervals := stoppedTimers w })) ++ [countdownTimer w])
      nextId := w.nextId + 1 } := by
  unfold Idle.toggleState
  simp only [hi, stopKeepalive_eq, broadcast, Bool.not_false, if_true, ne_eq, ht.ne,
    not_false_eq_true]
  rw [countdown_expired _ (by intro c hc; simp only [Option.some.injEq] at hc; omega), timeout_eq]
  simp [interval, interval.cancel, stoppedTimers, countdownTimer]

/-! ### Fields that the service functions leave alone -/

theorem startKeepalive_frame (w : World) :
    (Idle.startKeepalive w).options = w.options ∧
    (Idle.startKeepalive w).keepaliveOptions = w.keepaliveOptions ∧
    (Idle.startKeepalive w).storage = w.storage ∧
    (Idle.startKeepalive w).now = w.now := by
  cases hk : w.options.keepalive
  · rw [startKeepalive_off w hk]; exact ⟨rfl, rfl, rfl, rfl⟩
  · rw [startKeepalive_on w hk]; exact ⟨rfl, rfl, rfl, rfl⟩

theorem timeout_frame (w : World) :
    (Idle.timeout w).options = w.options ∧
    (Idle.timeout w).keepaliveOptions = w.keepaliveOptions ∧
    (Idle.timeout w).storage = w.storage ∧
    (Idle.timeout w).now = w.now := by
  rw [timeout_eq]; exact ⟨rfl, rfl, rfl, rfl⟩

theorem countdown_frame (w : World) :
    (Idle.countdown w).options = w.options ∧
    (Idle.countdown w).keepaliveOptions = w.keepaliveOptions ∧
    (Idle.countdown w).storage = w.storage ∧
    (Idle.countdown w).now = w.now := by
  unfold Idle.countdown
  split
  · exact timeout_frame w
  · split
    · exact timeout_frame w
    · exact ⟨rfl, rfl, rfl, rfl⟩

theorem toggleState_frame (w : World) :
    (Idle.toggleState w).options = w.options ∧
    (Idle.toggleState w).keepaliveOptions = w.keepaliveOptions ∧
    (Idle.toggleState w).storage = w.storage ∧
    (Idle.toggleState w).now = w.now := by
  cases hi : w.state.idling
  · rcases lt_trichotomy w.options.timeout 0 with ht | ht | ht
    · rw [toggleState_start_neg w hi ht]; exact ⟨rfl, rfl, rfl, rfl⟩
    · rw [toggleState_start_zero w hi ht]; exact ⟨rfl, rfl, rfl, rfl⟩
    · rw [toggleState_start w hi ht]; exact ⟨rfl, rfl, rfl, rfl⟩
  · rw [toggleState_end w hi]
    exact startKeepalive_frame _

/-! ### Membership in the timer list -/

theorem mem_stoppedTimers {w : World} {t : Interval} :
    t ∈ stoppedTimers w ↔
      t ∈ w.intervals ∧ (w.options.keepalive = true → w.keepalive.ping ≠ some t.id) := by
  unfold stoppedTimers
  cases hk : w.options.keepalive <;> simp [mem_cancelIn]

/-! ### The timers stay consistent -/

theorem Interval.ok_of {n n' : Nat} {s s' : IdleState} {k k' : KeepaliveState} {t : Interval}
    (a : t.ok n s k) (hlt : n ≤ n')
    (h1 : t.fn = .toggleState → s.idle = some t.id → s.idling = false →
      s'.idle = some t.id ∧ s'.idling = false)
    (h2 : t.fn = .countdown → s.timeout = some t.id → s.idling = true →
      s'.timeout = some t.id ∧ s'.idling = true)
    (h3 : t.fn = .ping → k.ping = some t.id → k'.ping = some t.id) : t.ok n' s' k' := by
  obtain ⟨alt, ⟨f, r, i⟩ | ⟨f, r, i⟩ | ⟨f, r⟩⟩ := a
  · exact ⟨by omega, Or.inl ⟨f, h1 f r i⟩⟩
  · exact ⟨by omega, Or.inr (Or.inl ⟨f, h2 f r i⟩)⟩
  · exact ⟨by omega, Or.inr (Or.inr ⟨f, h3 f r⟩)⟩

theorem WF_cancel {w : World} (h : Option Nat) (hw : w.WF) : (interval.cancel h w).WF := by
  obtain ⟨h2, h3, h4, h1⟩ := hw
  exact ⟨h2, h3, h4, fun t ht => h1 t (mem_cancelIn.mp ht).1⟩

theorem WF_timeout {w : World} (hw : w.WF) : (Idle.timeout w).WF := by
  obtain ⟨h2, h3, h4, h1⟩ := hw
  rw [timeout_eq]
  refine ⟨h2, h3, h4, ?_⟩
  intro t ht
  simp only [mem_cancelIn, mem_stoppedTimers] at ht
  have a := h1 t ht.1.1.1
  refine Interval.ok_of a (by simp only; omega) ?_ ?_ ?_ <;> intro hf hr <;> simp_all

theorem WF_countdown {w : World} (hw : w.WF) : (Idle.countdown w).WF := by
  unfold Idle.countdown
  split
  · exact WF_timeout hw
  · split
    · exact WF_timeout hw
    · exact hw

theorem WF_startKeepalive {w : World} (hw : w.WF) : (Idle.startKeepalive w).WF := by
  cases hk : w.options.keepalive
  · rw [startKeepalive_off w hk]; exact hw
  · obtain ⟨h2, h3, h4, h1⟩ := hw
    rw [startKeepalive_on w hk]
    refine ⟨?_, ?_, ?_, ?_⟩
    · intro h hh
      have := h2 h hh
      simp only; omega
    · intro h hh
      have := h3 h hh
      simp only; omega
    · intro h hh
      simp only [Option.some.injEq] at hh
      simp only; omega
    · intro t ht
      simp only [mem_cancelIn, List.mem_append, List.mem_singleton] at ht
      rcases ht with hm | rfl
      · have a := h1 t hm.1
        have b := hm.2
        refine Interval.ok_of a (by simp only; omega) ?_ ?_ ?_ <;> intro hf hr <;> simp_all
      · simp [Interval.ok, pingTimer]

theorem WF_toggleState_start {w : World} (hw : w.WF) (hi : w.state.idling = false) :
    (Idle.toggleState w).WF := by
  obtain ⟨h2, h3, h4, h1⟩ := hw
  rcases lt_trichotomy w.options.timeout 0 with ht | ht | ht
  · rw [toggleState_start_neg w hi ht]
    refine ⟨?_, ?_, ?_, ?_⟩
    · intro h hh
      have := h2 h hh
      simp only; omega
    · intro h hh
      simp only [Option.some.injEq] at hh
      simp only; omega
    · intro h hh
      have := h4 h hh
      simp only; omega
    · intro t ht
      simp only [mem_cancelIn, List.mem_append, mem_stoppedTimers, List.mem_singleton] at ht
      obtain ⟨hm | rfl, hne⟩ := ht
      · have a := h1 t hm.1.1.1.1
        refine Interval.ok_of a (by simp only; omega) ?_ ?_ ?_ <;> intro hf hr <;> simp_all
      · have := h2 w.nextId
        simp_all [Interval.ok, countdownTimer]
  · rw [toggleState_start_zero w hi ht]
    refine ⟨h2, h3, h4, ?_⟩
    intro t ht
    simp only [mem_cancelIn, mem_stoppedTimers] at ht
    have a := h1 t ht.1.1
    refine Interval.ok_of a (by simp only; omega) ?_ ?_ ?_ <;> intro hf hr <;> simp_all
  · rw [toggleState_start w hi ht]
    refine ⟨?_, ?_, ?_, ?_⟩
    · intro h hh
      have := h2 h hh
      simp only; omega
    · intro h hh
      simp only [Option.some.injEq] at hh
      simp only; omega
    · intro h hh
      have := h4 h hh
      simp only; omega
    · intro t ht
      simp only [mem_cancelIn, List.mem_append, mem_stoppedTimers, List.mem_singleton] at ht
      obtain ⟨hm | rfl, hne⟩ := ht
      · have a := h1 t hm.1
        have b := hm.2
        refine Interval.ok_of a (by simp only; omega) ?_ ?_ ?_ <;> intro hf hr <;> simp_all
      · have := h2 w.nextId
        simp_all [Interval.ok, countdownTimer]

theorem WF_toggleState_end {w : World} (hw : w.WF) (hi : w.state.idling = true)
    (hc : NoTimer .countdown w) : (Idle.toggleState w).WF := by
  rw [toggleState_end w hi]
  apply WF_cancel
  apply WF_startKeepalive
  obtain ⟨h2, h3, h4, h1⟩ := hw
  refine ⟨h2, h3, h4, ?_⟩
  intro t ht
  have a := h1 t ht
  have b := hc t ht
  refine Interval.ok_of a (by simp only; omega) ?_ ?_ ?_ <;> intro hf hr <;> simp_all

theorem NoTimer_cancel {f : Callback} {w : World} (h : Option Nat) (hn : NoTimer f w) :
    NoTimer f (interval.cancel h w) :=
  fun t ht => hn t (mem_cancelIn.mp ht).1

theorem NoTimer_startKeepalive {f : Callback} {w : World} (hf : f ≠ .ping) (hn : NoTimer f w) :
    NoTimer f (Idle.startKeepalive w) := by
  cases hk : w.options.keepalive
  · rw [startKeepalive_off w hk]; exact hn
  · rw [startKeepalive_on w hk]
    intro t ht
    simp only [mem_cancelIn, List.mem_append, List.mem_singleton] at ht
    rcases ht with hm | rfl
    · exact hn t hm.1
    · simpa [pingTimer] using hf.symm

theorem NoTimer_toggleState_end {f : Callback} {w : World} (hf : f ≠ .ping)
    (hi : w.state.idling = true) (hn : NoTimer f w) : NoTimer f (Idle.toggleState w) := by
  rw [toggleState_end w hi]
  exact NoTimer_cancel _ (NoTimer_startKeepalive hf hn)

theorem NoTimer_idle_of_cancel {w : World} (hw : w.WF) :
    NoTimer .toggleState (interval.cancel w.state.idle w) := by
  intro t ht hf
  obtain ⟨hm, hne⟩ := mem_cancelIn.mp ht
  obtain ⟨-, ⟨-, r, -⟩ | ⟨f, -, -⟩ | ⟨f, -⟩⟩ := hw.2.2.2 t hm
  · exact hne r
  · rw [hf] at f; cases f
  · rw [hf] at f; cases f

theorem NoTimer_countdown_of_cancel {w : World} (hw : w.WF) :
    NoTimer .countdown (interval.cancel w.state.timeout w) := by
  intro t ht hf
  obtain ⟨hm, hne⟩ := mem_cancelIn.mp ht
  obtain ⟨-, ⟨f, -, -⟩ | ⟨-, r, -⟩ | ⟨f, -⟩⟩ := hw.2.2.2 t hm
  · rw [hf] at f; cases f
  · exact hne r
  · rw [hf] at f; cases f

/-! ### The method `watch()` -/

theorem watch_eq (w : World) :
    Idle.watch w =
    { watchReset w with
      state := { (watchReset w).state with running := true, idle := some (watchReset w).nextId }
      intervals := (watchReset w).intervals ++ [idleTimer (watchReset w) (watchReset w).nextId]
      nextId := (watchReset w).nextId + 1 } := rfl

theorem watchReset_eq (w : World) :
    watchReset w =
      if w.state.idling then Idle.toggleState (watchCleared w)
      else if !w.state.running then Idle.startKeepalive (watchCleared w)
      else watchCleared w := by
  have e : (if w.options.timeout = 0 then 0 else w.options.timeout) = w.options.timeout := by
    split_ifs with h
    · exact h.symm
    · rfl
  unfold watchReset watchCleared
  simp only [interval.cancel, Idle.setExpiry, e]

theorem watchCleared_spec {w : World} (hw : w.WF) :
    (watchCleared w).WF ∧ NoTimer .toggleState (watchCleared w) ∧
    NoTimer .countdown (watchCleared w) :=
  ⟨WF_cancel _ (WF_cancel _ hw), NoTimer_cancel _ (NoTimer_idle_of_cancel hw),
    NoTimer_countdown_of_cancel (WF_cancel w.state.idle hw)⟩

theorem watchReset_frame (w : World) :
    (watchReset w).options = w.options ∧
    (watchReset w).keepaliveOptions = w.keepaliveOptions ∧
    (watchReset w).storage = LocalStorage.set w.storage "expiry"
      (JSDate.ofNumber (w.now + (w.options.idle + w.options.timeout) * 1000)) ∧
    (watchReset w).now = w.now := by
  rw [watchReset_eq]
  split_ifs
  · exact toggleState_frame _
  · exact startKeepalive_frame _
  · exact ⟨rfl, rfl, rfl, rfl⟩

theorem startKeepalive_nextId (w : World) : w.nextId ≤ (Idle.startKeepalive w).nextId := by
  cases hk : w.options.keepalive
  · rw [startKeepalive_off w hk]
  · rw [startKeepalive_on w hk]; simp

theorem watchReset_spec {w : World} (hw : w.WF) :
    (watchReset w).WF ∧ NoTimer .toggleState (watchReset w) ∧ NoTimer .countdown (watchReset w) ∧
    (watchReset w).state.idling = false ∧ (watchReset w).state.running = w.state.running ∧
    (watchReset w).state.countdown = w.state.countdown ∧
    (watchReset w).state.timeout = w.state.timeout ∧ w.nextId ≤ (watchReset w).nextId := by
  obtain ⟨h1, h2, h3⟩ := watchCleared_spec hw
  rw [watchReset_eq]
  split_ifs with hi hr
  · have hi' : (watchCleared w).state.idling = true := hi
    refine ⟨WF_toggleState_end h1 hi' h3, NoTimer_toggleState_end (by decide) hi' h2,
      NoTimer_toggleState_end (by decide) hi' h3, ?_, ?_, ?_, ?_, ?_⟩
    all_goals rw [toggleState_end _ hi']
    all_goals simp only [interval.cancel, startKeepalive_state]
    · rfl
    · rfl
    · rfl
    · refine le_trans ?_ (startKeepalive_nextId _)
      exact le_refl _
  · refine ⟨WF_startKeepalive h1, NoTimer_startKeepalive (by decide) h2,
      NoTimer_startKeepalive (by decide) h3, ?_, ?_, ?_, ?_, ?_⟩
    · rw [startKeepalive_state]; simpa [watchCleared] using hi
    · rw [startKeepalive_state]; rfl
    · rw [startKeepalive_state]; rfl
    · rw [startKeepalive_state]; rfl
    · exact startKeepalive_nextId (watchCleared w)
  · exact ⟨h1, h2, h3, by simpa using hi, rfl, rfl, rfl, le_refl _⟩

theorem WF_watch {w : World} (hw : w.WF) : (Idle.watch w).WF := by
  obtain ⟨⟨h2, h3, h4, h1⟩, hn, -, hi, -, -, -, -⟩ := watchReset_spec hw
  rw [watch_eq]
  refine ⟨?_, ?_, ?_, ?_⟩
  · intro h hh
    simp only [Option.some.injEq] at hh
    simp only; omega
  · intro h hh
    have := h3 h hh
    simp only; omega
  · intro h hh
    have := h4 h hh
    simp only; omega
  · intro t ht
    simp only [List.mem_append, List.mem_singleton] at ht
    rcases ht with hm | rfl
    · have a := h1 t hm
      have b := hn t hm
      refine Interval.ok_of a (by simp only; omega) ?_ ?_ ?_ <;> intro hf hr <;> simp_all
    · simp [Interval.ok, idleTimer, hi]

theorem unwatch_eq (w : World) :
    Idle.unwatch w =
    { w with
      intervals := cancelIn w.state.timeout (cancelIn w.state.idle w.intervals)
      state := { w.state with idling := false, running := false }
      storage := LocalStorage.remove w.storage "expiry" } := rfl

theorem WF_unwatch {w : World} (hw : w.WF) : (Idle.unwatch w).WF := by
  have hn := NoTimer_cancel w.state.timeout (NoTimer_idle_of_cancel hw)
  have hc := NoTimer_countdown_of_cancel (WF_cancel w.state.idle hw)
  obtain ⟨h2, h3, h4, h1⟩ := hw
  rw [unwatch_eq]
  refine ⟨h2, h3, h4, ?_⟩
  intro t ht
  have a := h1 t (mem_cancelIn.mp (mem_cancelIn.mp ht).1).1
  have b := hn t ht
  have c := hc t ht
  refine Interval.ok_of a (by simp only; omega) ?_ ?_ ?_ <;> intro hf hr <;> simp_all

theorem WF_interrupt (P : Platform) {w : World} (hw : w.WF) : (Idle.interrupt P w).WF := by
  unfold Idle.interrupt
  split_ifs
  · exact hw
  · exact WF_timeout hw
  · exact WF_watch hw
  · exact hw

theorem WF_options {w : World} (hw : w.WF) (o : Options) : ({ w with options := o } : World).WF :=
  hw

theorem WF_changeOption {α : Type} (fn : α → Options → Except String Options) (value : α)
    {w : World} (hw : w.WF) : (Idle.changeOption fn value w).world.WF := by
  unfold Idle.changeOption
  simp only
  split
  · exact WF_unwatch hw
  · split_ifs
    · exact WF_watch (WF_options (WF_unwatch hw) _)
    · exact WF_options (WF_unwatch hw) _

/-! ### Timers firing -/

theorem fire_none (id : Nat) (w : World) (h : w.intervals.find? (fun t => t.id = id) = none) :
    fire id w = w := by
  simp [fire, h]

theorem fire_some (id : Nat) (w : World) (t : Interval)
    (h : w.intervals.find? (fun t => t.id = id) = some t) :
    fire id w =
      match t.fn with
      | .toggleState => Idle.toggleState (firedWorld w t)
      | .countdown => Idle.countdown (firedWorld w t)
      | .ping => Keepalive.ping (firedWorld w t) := by
  have hid : t.id = id := by simpa using List.find?_some h
  subst hid
  simp only [fire, h, firedWorld]

theorem WF_firedWorld {w : World} (hw : w.WF) (t : Interval) : (firedWorld w t).WF := by
  obtain ⟨h2, h3, h4, h1⟩ := hw
  refine ⟨h2, h3, h4, ?_⟩
  intro x hx
  simp only [firedWorld] at hx
  split_ifs at hx
  · exact h1 x (mem_cancelIn.mp hx).1
  · obtain ⟨y, hy, rfl⟩ := List.mem_map.mp hx
    have a := h1 y hy
    split_ifs
    · exact a
    · exact a

theorem mem_firedWorld {w : World} {t x : Interval} (hx : x ∈ (firedWorld w t).intervals) :
    ∃ y ∈ w.intervals, y.id = x.id ∧ y.fn = x.fn := by
  simp only [firedWorld] at hx
  split_ifs at hx
  · exact ⟨x, (mem_cancelIn.mp hx).1, rfl, rfl⟩
  · obtain ⟨y, hy, rfl⟩ := List.mem_map.mp hx
    refine ⟨y, hy, ?_⟩
    split_ifs <;> exact ⟨rfl, rfl⟩

theorem WF_fire {w : World} (hw : w.WF) (id : Nat) : (fire id w).WF := by
  cases h : w.intervals.find? (fun t => t.id = id) with
  | none => rw [fire_none id w h]; exact hw
  | some t =>
    rw [fire_some id w t h]
    have hm : t ∈ w.intervals := List.mem_of_find?_eq_some h
    have hf := WF_firedWorld hw t
    cases hfn : t.fn with
    | toggleState =>
      obtain ⟨-, ⟨-, -, i⟩ | ⟨f, -, -⟩ | ⟨f, -⟩⟩ := hw.2.2.2 t hm
      · exact WF_toggleState_start hf i
      · rw [hfn] at f; cases f
      · rw [hfn] at f; cases f
    | countdown => exact WF_countdown hf
    | ping => exact hf

theorem WF_step (P : Platform) (op : Op) {w : World} (hw : w.WF) : (step P op w).WF := by
  cases op with
  | watch => exact WF_watch hw
  | unwatch => exact WF_unwatch hw
  | interrupt => exact WF_interrupt P hw
  | setIdle s => exact WF_changeOption _ _ hw
  | setTimeout s => exact WF_changeOption _ _ hw
  | idleFire =>
    simp only [step, idleFire]
    split
    · exact WF_fire hw _
    · exact hw
  | countdownTick =>
    simp only [step, countdownTick]
    split
    · exact WF_fire hw _
    · exact hw
  | keepaliveTick =>
    simp only [step, keepaliveTick]
    split
    · exact WF_fire hw _
    · exact hw
  | advance t => exact hw
  | respond data status =>
    show (respond data status w).WF
    unfold respond
    split
    · exact hw
    · exact hw

theorem WF_run (P : Platform) (ops : List Op) {w : World} (hw : w.WF) : (run P ops w).WF := by
  induction ops generalizing w with
  | nil => exact hw
  | cons op ops ih => exact ih (WF_step P op hw)

theorem WF_init (options : Options) (keepaliveOptions : KeepaliveOptions) (storage : Storage)
    (now : Int) : (World.init options keepaliveOptions storage now).WF := by
  refine ⟨?_, ?_, ?_, ?_⟩ <;> intro h hh <;> simp [World.init] at hh

theorem Reachable.wf {P : Platform} {w : World} (h : Reachable P w) : w.WF := by
  obtain ⟨o, k, s, n, ops, rfl⟩ := h
  exact WF_run P ops (WF_init o k s n)

/-! ### Finding the timer that fires -/

theorem find_append_fresh (l : List Interval) (t : Interval) (c : Nat)
    (hl : ∀ x ∈ l, x.id ≠ c) (ht : t.id = c) :
    (l ++ [t]).find? (fun x => x.id = c) = some t := by
  have h : l.find? (fun x => decide (x.id = c)) = none := by
    rw [List.find?_eq_none]
    intro x hx
    simpa using hl x hx
  rw [List.find?_append, h]
  simp [ht]

theorem find_map_update (l : List Interval) (c : Nat) (g : Interval → Interval)
    (hg : ∀ x, (g x).id = x.id) :
    (l.map (fun x => if x.id = c then g x else x)).find? (fun x => x.id = c) =
      (l.find? (fun x => x.id = c)).map g := by
  induction l with
  | nil => rfl
  | cons a l ih =>
    by_cases h : a.id = c
    · simp [List.find?_cons, h, hg]
    · simp [List.find?_cons, h, ih]

theorem cancelIn_append_fresh (h : Option Nat) (l : List Interval) (t : Interval)
    (ht : h ≠ some t.id) : cancelIn h (l ++ [t]) = cancelIn h l ++ [t] := by
  simp [cancelIn, List.filter_append, List.filter_cons, ht]

/-! ### C1: from `watch()` to the timeout -/

theorem idleFire_watch {w : World} (hw : w.WF) :
    idleFire (Idle.watch w) =
      Idle.toggleState (firedWorld (Idle.watch w) (idleTimer (watchReset w) (watchReset w).nextId)) := by
  obtain ⟨⟨-, -, -, h1⟩, -⟩ := watchReset_spec hw
  have hf : (Idle.watch w).intervals.find? (fun t => t.id = (watchReset w).nextId) =
      some (idleTimer (watchReset w) (watchReset w).nextId) := by
    rw [watch_eq]
    apply find_append_fresh
    · intro x hx
      exact Nat.ne_of_lt (h1 x hx).1
    · rfl
  have hs : (Idle.watch w).state.idle = some (watchReset w).nextId := by rw [watch_eq]
  unfold idleFire
  rw [hs]
  simp only
  rw [fire_some _ _ _ hf]
  rfl

theorem watch_frame (w : World) :
    (Idle.watch w).options = w.options ∧ (Idle.watch w).now = w.now ∧
    (Idle.watch w).events = (watchReset w).events ∧
    (Idle.watch w).storage = LocalStorage.set w.storage "expiry"
      (JSDate.ofNumber (w.now + (w.options.idle + w.options.timeout) * 1000)) := by
  obtain ⟨ho, -, hs, hn⟩ := watchReset_frame w
  rw [watch_eq]
  exact ⟨ho, hn, rfl, hs⟩

theorem idleFire_watch_eq {w : World} (hw : w.WF) (hidle : 0 ≤ w.options.idle)
    (ht : 0 < w.options.timeout) :
    ∃ c : Nat,
      (idleFire (Idle.watch w)).events = (Idle.watch w).events ++
        [(w.now + w.options.idle * 1000, .IdleStart),
         (w.now + w.options.idle * 1000, .IdleWarn w.options.timeout)] ∧
      Ticking c w.options.timeout (w.now + w.options.idle * 1000) 0 (idleFire (Idle.watch w)) := by
  obtain ⟨hwr, -, -, hi, -, -, -, -⟩ := watchReset_spec hw
  obtain ⟨ho, -, -, hn⟩ := watchReset_frame w
  have hfw := WF_firedWorld (WF_watch hw) (idleTimer (watchReset w) (watchReset w).nextId)
  have hmax : max w.now (w.now + w.options.idle * 1000) = w.now + w.options.idle * 1000 := by
    apply max_eq_right; omega
  have hnow : (firedWorld (Idle.watch w) (idleTimer (watchReset w) (watchReset w).nextId)).now =
      w.now + w.options.idle * 1000 := by
    simp only [firedWorld, watch_eq, idleTimer, hn, ho, hmax]
  have hopt : (firedWorld (Idle.watch w) (idleTimer (watchReset w) (watchReset w).nextId)).options =
      w.options := by
    simp only [firedWorld, watch_eq, ho]
  have hidl : (firedWorld (Idle.watch w)
      (idleTimer (watchReset w) (watchReset w).nextId)).state.idling = false := by
    simp only [firedWorld, watch_eq, hi]
  have hev : (firedWorld (Idle.watch w) (idleTimer (watchReset w) (watchReset w).nextId)).events =
      (Idle.watch w).events := rfl
  have hid : (firedWorld (Idle.watch w) (idleTimer (watchReset w) (watchReset w).nextId)).state.idle =
      some (watchReset w).nextId := by
    simp only [firedWorld, watch_eq]
  have hnext : (firedWorld (Idle.watch w) (idleTimer (watchReset w) (watchReset w).nextId)).nextId =
      (watchReset w).nextId + 1 := by
    simp only [firedWorld, watch_eq]
  rw [idleFire_watch hw]
  generalize firedWorld (Idle.watch w) (idleTimer (watchReset w) (watchReset w).nextId) = fw at *
  rw [toggleState_start fw hidl (by rw [hopt]; exact ht)]
  refine ⟨fw.nextId, ?_, ?_⟩
  · simp only [hnow, hopt, hev]
  · refine ⟨rfl, ?_, ?_, ?_⟩
    · simp only [hopt]; simp
    · simp only [hnow]; simp
    · simp only
      rw [cancelIn_append_fresh _ _ _ (by rw [hid]; simp [countdownTimer, hnext])]
      have := find_append_fresh (cancelIn fw.state.idle (stoppedTimers fw)) (countdownTimer fw)
        fw.nextId (by
          intro x hx
          have hx' := (mem_stoppedTimers.mp (mem_cancelIn.mp hx).1).1
          exact Nat.ne_of_lt (hfw.2.2.2 x hx').1) rfl
      rw [this]
      simp [countdownTimer, tickingTimer, hnow, hopt]

theorem countdownTick_warn {c : Nat} {n T : Int} {k : Nat} {w : World}
    (h : Ticking c n T k w) (hk : (k : Int) + 1 < n) :
    (countdownTick w).events = w.events ++ [(T + 1000 * (k + 1 : Nat), .IdleWarn (n - (k + 1 : Nat)))] ∧
    Ticking c n T (k + 1) (countdownTick w) := by
  obtain ⟨hh, hc, hn, ht⟩ := h
  unfold countdownTick
  rw [hh]
  simp only
  rw [fire_some _ _ _ ht]
  simp only [tickingTimer]
  rw [← tickingTimer]
  have hmax : max (T + 1000 * (k : Int)) (T + 1000 * ((k : Int) + 1)) = T + 1000 * ((k : Int) + 1) := by
    apply max_eq_right; omega
  have hcd : (firedWorld w (tickingTimer c n T k)).state.countdown = some (n - 1 - k) := hc
  rw [countdown_warn _ _ hcd (by omega)]
  refine ⟨?_, ?_, ?_, ?_, ?_⟩
  · simp only [firedWorld, tickingTimer, hn, hmax]
    push_cast
    congr 3
    ring_nf
  · exact hh
  · simp only [Option.some.injEq]; push_cast; ring
  · simp only [firedWorld, tickingTimer, hn, hmax]; push_cast; ring
  · simp only [firedWorld, tickingTimer, hn, hmax]
    rw [if_neg (by omega)]
    refine (find_map_update w.intervals c
      (fun x => { x with iteration := (k : Int) + 1, due := T + 1000 * ((k : Int) + 1) + x.delay })
      (fun _ => rfl)).trans ?_
    rw [ht]
    simp only [tickingTimer, Option.map_some', Option.some.injEq]
    push_cast
    congr 1
    ring

theorem countdownTick_last {c : Nat} {n T : Int} {k : Nat} {w : World}
    (h : Ticking c n T k w) (hk : (k : Int) + 1 = n) :
    (countdownTick w).events = w.events ++ [(T + 1000 * n, .IdleTimeout)] ∧
    (countdownTick w).state.running = false ∧ (countdownTick w).state.idling = true ∧
    (countdownTick w).state.countdown = some 0 := by
  obtain ⟨hh, hc, hn, ht⟩ := h
  unfold countdownTick
  rw [hh]
  simp only
  rw [fire_some _ _ _ ht]
  simp only [tickingTimer]
  rw [← tickingTimer]
  have hmax : max (T + 1000 * (k : Int)) (T + 1000 * ((k : Int) + 1)) = T + 1000 * ((k : Int) + 1) := by
    apply max_eq_right; omega
  rw [countdown_expired _ (by
    intro x hx
    have : some x = some (n - 1 - (k : Int)) := hx.symm.trans hc
    simp only [Option.some.injEq] at this
    omega), timeout_eq]
  refine ⟨?_, rfl, rfl, rfl⟩
  simp only [firedWorld, tickingTimer, hn, hmax, ← hk]

theorem ticking_iterate {c : Nat} {n T : Int} {w : World} (h : Ticking c n T 0 w) (k : Nat)
    (hk : (k : Int) < n) : Ticking c n T k (countdownTick^[k] w) := by
  induction k with
  | zero => exact h
  | succ k ih =>
    rw [Function.iterate_succ_apply']
    exact (countdownTick_warn (ih (by push_cast at hk; omega)) (by push_cast at hk; omega)).2

/-- C1: for every idleSeconds > 0 and every integer timeoutSeconds n ≥ 1, after
`watch()` at time t the idle-timer fire (at t + idleSeconds) broadcasts exactly
IdleStart and IdleWarn(n); the k-th countdown tick, for 1 ≤ k < n, broadcasts
exactly IdleWarn(n - k), one second after the previous one; the n-th tick
broadcasts exactly IdleTimeout and leaves running = false, idling = true. -/
theorem watch_idle_countdown_timeout (w : World) (hw : w.WF) (n : Nat)
    (hidle : 0 < w.options.idle) (hn : 1 ≤ n) (ht : w.options.timeout = n) :
    (idleFire (Idle.watch w)).events = (Idle.watch w).events ++
      [(w.now + w.options.idle * 1000, .IdleStart),
       (w.now + w.options.idle * 1000, .IdleWarn n)] ∧
    (∀ k : Nat, 1 ≤ k → k < n →
      (countdownTick^[k] (idleFire (Idle.watch w))).events =
        (countdownTick^[k - 1] (idleFire (Idle.watch w))).events ++
          [(w.now + w.options.idle * 1000 + 1000 * k, .IdleWarn (n - k))]) ∧
    (countdownTick^[n] (idleFire (Idle.watch w))).events =
      (countdownTick^[n - 1] (idleFire (Idle.watch w))).events ++
        [(w.now + w.options.idle * 1000 + 1000 * n, .IdleTimeout)] ∧
    (countdownTick^[n] (idleFire (Idle.watch w))).state.running = false ∧
    (countdownTick^[n] (idleFire (Idle.watch w))).state.idling = true := by
  obtain ⟨c, hev, htick⟩ := idleFire_watch_eq hw (le_of_lt hidle) (by rw [ht]; exact_mod_cast hn)
  rw [ht] at hev htick
  refine ⟨hev, ?_, ?_⟩
  · intro k hk1 hkn
    obtain ⟨j, rfl⟩ : ∃ j, k = j + 1 := ⟨k - 1, by omega⟩
    have hj := ticking_iterate htick j (by exact_mod_cast (by omega : j < n))
    have := (countdownTick_warn hj (by exact_mod_cast hkn)).1
    rw [Function.iterate_succ_apply']
    simpa using this
  · obtain ⟨j, rfl⟩ : ∃ j, n = j + 1 := ⟨n - 1, by omega⟩
    have hj := ticking_iterate htick j (by push_cast; omega)
    have := countdownTick_last hj (by push_cast; ring)
    rw [Function.iterate_succ_apply']
    simpa using ⟨this.1, this.2.1, this.2.2.1⟩

/-- C1, witness: idle = 5 and timeout = 3 from time 0. -/
theorem watch_idle_countdown_timeout_witness :
    exampleWorld.WF ∧ 0 < exampleWorld.options.idle ∧ 1 ≤ 3 ∧
    exampleWorld.options.timeout = (3 : Nat) ∧
    (countdownTick^[3] (idleFire (Idle.watch exampleWorld))).events =
      [(5000, .IdleStart), (5000, .IdleWarn 3), (6000, .IdleWarn 2), (7000, .IdleWarn 1),
       (8000, .IdleTimeout)] ∧
    (countdownTick^[3] (idleFire (Idle.watch exampleWorld))).state.running = false :=
  ⟨WF_init _ _ _ _, by decide, by decide, rfl, by decide,
    (watch_idle_countdown_timeout exampleWorld (WF_init _ _ _ _) 3 (by decide) (by decide)
      rfl).2.2.2.1⟩

/-! ### What `watch()` leaves behind -/

theorem watch_spec {w : World} (hw : w.WF) :
    (Idle.watch w).state.running = true ∧ (Idle.watch w).state.idling = false ∧
    (Idle.watch w).state.countdown = w.state.countdown ∧
    (Idle.watch w).state.idle = some (watchReset w).nextId ∧
    (Idle.watch w).intervals.filter (fun t => t.fn = .toggleState) =
      [idleTimer w (watchReset w).nextId] ∧
    NoTimer .countdown (Idle.watch w) := by
  obtain ⟨-, hn, hc, hi, -, hcd, -, -⟩ := watchReset_spec hw
  obtain ⟨ho, -, -, hnow⟩ := watchReset_frame w
  rw [watch_eq]
  refine ⟨rfl, hi, hcd, rfl, ?_, ?_⟩
  · simp only [List.filter_append]
    have : (watchReset w).intervals.filter (fun t => decide (t.fn = .toggleState)) = [] := by
      rw [List.filter_eq_nil_iff]
      intro t ht
      simpa using hn t ht
    rw [this]
    simp [idleTimer, ho, hnow]
  · intro t ht
    simp only [List.mem_append, List.mem_singleton] at ht
    rcases ht with hm | rfl
    · exact hc t hm
    · simp [idleTimer]

theorem startKeepalive_events (w : World) :
    (Idle.startKeepalive w).events = w.events ++
      (if w.options.keepalive ∧ w.state.running then [(w.now, Event.Keepalive)] else []) := by
  cases hk : w.options.keepalive
  · rw [startKeepalive_off w hk]; simp
  · rw [startKeepalive_on w hk]
    cases hr : w.state.running <;> simp

theorem watch_events (w : World) :
    (Idle.watch w).events = w.events ++
      (if w.state.idling then
        (w.now, Event.IdleEnd) ::
          (if w.options.keepalive ∧ w.state.running then [(w.now, Event.Keepalive)] else [])
      else []) := by
  rw [(watch_frame w).2.2.1, watchReset_eq]
  cases hi : w.state.idling
  · cases hr : w.state.running
    · simp only [Bool.false_eq_true, if_false, Bool.not_false, if_true]
      rw [startKeepalive_events]
      simp [watchCleared, hr]
    · simp [watchCleared]
  · have hi' : (watchCleared w).state.idling = true := hi
    simp only [if_true, toggleState_end _ hi', interval.cancel]
    rw [startKeepalive_events]
    simp [watchCleared]

/-! ### C2: the idle timer fires with the timeout disabled -/

theorem firedWorld_watch {w : World} (hw : w.WF) (hidle : 0 ≤ w.options.idle) :
    ∃ fw : World, idleFire (Idle.watch w) = Idle.toggleState fw ∧ fw.WF ∧
      fw.now = w.now + w.options.idle * 1000 ∧ fw.options = w.options ∧
      fw.state = (Idle.watch w).state ∧ fw.events = (Idle.watch w).events ∧
      fw.storage = (Idle.watch w).storage ∧ NoTimer .countdown fw := by
  refine ⟨firedWorld (Idle.watch w) (idleTimer (watchReset w) (watchReset w).nextId),
    idleFire_watch hw, WF_firedWorld (WF_watch hw) _, ?_, (watch_frame w).1, rfl, rfl, rfl, ?_⟩
  · have hmax : max w.now (w.now + w.options.idle * 1000) = w.now + w.options.idle * 1000 := by
      apply max_eq_right; omega
    obtain ⟨ho, -, -, hn⟩ := watchReset_frame w
    simp only [firedWorld, watch_eq, idleTimer, hn, ho, hmax]
  · intro t ht
    obtain ⟨y, hy, -, hf⟩ := mem_firedWorld ht
    rw [← hf]
    exact (watch_spec hw).2.2.2.2.2 y hy

/-- C2, as amended: when timeoutSeconds = 0, for every idleSeconds > 0, the
idle-timer fire after `watch()` broadcasts IdleStart only (no IdleWarn, no
IdleTimeout), arms no countdown timer, and leaves running = true and
idling = true. -/
theorem idle_fire_timeout_disabled (w : World) (hw : w.WF) (hidle : 0 < w.options.idle)
    (ht : w.options.timeout = 0) :
    (idleFire (Idle.watch w)).events =
      (Idle.watch w).events ++ [(w.now + w.options.idle * 1000, .IdleStart)] ∧
    NoTimer .countdown (idleFire (Idle.watch w)) ∧
    (idleFire (Idle.watch w)).state.running = true ∧
    (idleFire (Idle.watch w)).state.idling = true := by
  obtain ⟨fw, he, -, hnow, hopt, hst, hev, -, hnc⟩ := firedWorld_watch hw (le_of_lt hidle)
  obtain ⟨hr, hi, -⟩ := watch_spec hw
  rw [he, toggleState_start_zero fw (by rw [hst]; exact hi) (by rw [hopt]; exact ht)]
  refine ⟨by simp only [hev, hnow], ?_, by simp only [hst, hr], rfl⟩
  intro t htm
  exact hnc t (mem_stoppedTimers.mp (mem_cancelIn.mp htm).1).1

/-- C2, counterexample: with idle = 5 and timeout = 0 the idle-timer fire
broadcasts IdleStart alone, no IdleTimeout, and the service keeps running. -/
theorem idle_fire_timeout_disabled_counterexample :
    zeroTimeoutWorld.options.timeout = 0 ∧
    (idleFire (Idle.watch zeroTimeoutWorld)).events = [(5000, .IdleStart)] ∧
    (idleFire (Idle.watch zeroTimeoutWorld)).state.running = true := by
  decide

/-- C2, witness: idle = 5 and timeout = 0 from time 0. -/
theorem idle_fire_timeout_disabled_witness :
    zeroTimeoutWorld.WF ∧ 0 < zeroTimeoutWorld.options.idle ∧
    zeroTimeoutWorld.options.timeout = 0 ∧
    (idleFire (Idle.watch zeroTimeoutWorld)).state.idling = true :=
  ⟨WF_init _ _ _ _, by decide, rfl,
    (idle_fire_timeout_disabled zeroTimeoutWorld (WF_init _ _ _ _) (by decide) rfl).2.2.2⟩

/-! ### C3: an interrupt after the expiry -/

theorem isExpired_of_date (P : Platform) (w : World) (e : Int)
    (hx : Idle.getExpiry P w = .date ⟨some e⟩) : Idle.isExpired P w = decide (e ≤ w.now) := by
  simp [Idle.isExpired, hx, JSValue.truthy, JSValue.lessEq]

/-- C3, as amended: if the service is running, timeoutSeconds is not 0 and
the persisted expiry is a date not later than the current time, `interrupt()`
puts the service in TimedOut (running = false, idling = true, countdown = 0)
and broadcasts IdleTimeout, whatever the idling flag is. -/
theorem interrupt_stale (P : Platform) (w : World) (e : Int)
    (hr : w.state.running = true) (ht : w.options.timeout ≠ 0)
    (hx : Idle.getExpiry P w = .date ⟨some e⟩) (he : e ≤ w.now) :
    (Idle.interrupt P w).state.running = false ∧
    (Idle.interrupt P w).state.idling = true ∧
    (Idle.interrupt P w).state.countdown = some 0 ∧
    (Idle.interrupt P w).events = w.events ++ [(w.now, .IdleTimeout)] := by
  have hexp : Idle.isExpired P w = true := by
    rw [isExpired_of_date P w e hx]; simpa using he
  have : Idle.interrupt P w = Idle.timeout w := by
    simp [Idle.interrupt, hr, ht, hexp]
  rw [this, timeout_eq]
  exact ⟨rfl, rfl, rfl, rfl⟩

/-- C3, witness: idle = 5, timeout = 3, `watch()` at 0 and an interrupt at
time 9000, after the expiry 8000, with no timer having fired. -/
theorem interrupt_stale_witness :
    (run Platform.simple [.watch, .advance 9000] exampleWorld).state.running = true ∧
    (run Platform.simple [.watch, .advance 9000] exampleWorld).options.timeout ≠ 0 ∧
    Idle.getExpiry Platform.simple (run Platform.simple [.watch, .advance 9000] exampleWorld) =
      .date ⟨some 8000⟩ ∧
    (8000 : Int) ≤ (run Platform.simple [.watch, .advance 9000] exampleWorld).now ∧
    (Idle.interrupt Platform.simple
      (run Platform.simple [.watch, .advance 9000] exampleWorld)).state.idling = true :=
  ⟨by decide, by decide, by rfl, by decide,
    (interrupt_stale Platform.simple (run Platform.simple [.watch, .advance 9000] exampleWorld)
      8000 (by decide) (by decide) (by rfl) (by decide)).2.1⟩

/-- C3, counterexample: a service that is not running ignores an expiry in
the past (1000 at time 5000), and a running service with timeout 0 resumes
at time 6000 although the expiry 5000 has passed; neither broadcasts
IdleTimeout nor ends up idling. -/
theorem interrupt_stale_counterexample :
    (Idle.getExpiry Platform.simple staleStoppedWorld = .date ⟨some 1000⟩ ∧
      (1000 : Int) ≤ staleStoppedWorld.now ∧
      (Idle.interrupt Platform.simple staleStoppedWorld).state.idling = false ∧
      (Idle.interrupt Platform.simple staleStoppedWorld).events = []) ∧
    (Idle.getExpiry Platform.simple (run Platform.simple [.watch, .advance 6000] zeroTimeoutWorld) =
        .date ⟨some 5000⟩ ∧
      (5000 : Int) ≤ (run Platform.simple [.watch, .advance 6000] zeroTimeoutWorld).now ∧
      (run Platform.simple [.watch, .advance 6000, .interrupt] zeroTimeoutWorld).state.idling = false ∧
      (run Platform.simple [.watch, .advance 6000, .interrupt] zeroTimeoutWorld).state.running = true ∧
      (run Platform.simple [.watch, .advance 6000, .interrupt] zeroTimeoutWorld).events = []) :=
  ⟨⟨by rfl, by decide, by decide, by decide⟩, ⟨by rfl, by decide, by rfl, by rfl, by rfl⟩⟩

/-! ### C4: an interrupt during the warning -/

theorem storage_set_same (s : Storage) (key : String) (d : JSDate) :
    LocalStorage.set s key d ("ngIdle." ++ key) = some (JSON.stringify d) := by
  simp [LocalStorage.set]

theorem storage_remove_same (s : Storage) (key : String) :
    LocalStorage.remove s key ("ngIdle." ++ key) = none := by
  simp [LocalStorage.remove]

/-- C4: for every world in Warning (running = true, idling = true) whose
persisted expiry is a date strictly after the current time, `interrupt()` with
autoResume enabled broadcasts IdleEnd (followed by the Keepalive ping when the
keepalive is enabled, and nothing else), leaves running = true and
idling = false, leaves no countdown timer armed, arms exactly one idle timer,
due a full idleSeconds after the call, and rewrites the expiry from the call
time; with autoResume disabled it changes nothing. -/
theorem interrupt_warning (P : Platform) (w : World) (hw : w.WF) (e : Int)
    (hr : w.state.running = true) (hi : w.state.idling = true)
    (hx : Idle.getExpiry P w = .date ⟨some e⟩) (he : w.now < e) :
    (w.options.autoResume = true →
      (Idle.interrupt P w).events = w.events ++
        (w.now, Event.IdleEnd) :: (if w.options.keepalive then [(w.now, Event.Keepalive)] else []) ∧
      (Idle.interrupt P w).state.running = true ∧
      (Idle.interrupt P w).state.idling = false ∧
      NoTimer .countdown (Idle.interrupt P w) ∧
      (∃ h, (Idle.interrupt P w).state.idle = some h ∧
        (Idle.interrupt P w).intervals.filter (fun t => t.fn = .toggleState) = [idleTimer w h]) ∧
      (Idle.interrupt P w).storage ("ngIdle." ++ "expiry") =
        some (JSON.stringify
          (JSDate.ofNumber (w.now + (w.options.idle + w.options.timeout) * 1000)))) ∧
    (w.options.autoResume = false → Idle.interrupt P w = w) := by
  have hexp : Idle.isExpired P w = false := by
    rw [isExpired_of_date P w e hx]; simpa using he
  constructor
  · intro ha
    have : Idle.interrupt P w = Idle.watch w := by
      simp [Idle.interrupt, hr, hexp, ha]
    rw [this]
    obtain ⟨h1, h2, -, h4, h5, h6⟩ := watch_spec hw
    refine ⟨?_, h1, h2, h6, ⟨_, h4, h5⟩, ?_⟩
    · rw [watch_events]
      simp [hi, hr]
    · rw [(watch_frame w).2.2.2, storage_set_same]
  · intro ha
    simp [Idle.interrupt, hr, hexp, ha]

/-- C4, witness: idle = 5, timeout = 3, `watch()` at 0, the idle timer fires
at 5000, one tick at 6000, then the interrupt at 6000: IdleEnd is broadcast at
6000 and the next IdleStart at 11000. -/
theorem interrupt_warning_witness :
    (run Platform.simple [.watch, .idleFire, .countdownTick] exampleWorld).WF ∧
    (run Platform.simple [.watch, .idleFire, .countdownTick] exampleWorld).state.running = true ∧
    (run Platform.simple [.watch, .idleFire, .countdownTick] exampleWorld).state.idling = true ∧
    Idle.getExpiry Platform.simple
      (run Platform.simple [.watch, .idleFire, .countdownTick] exampleWorld) = .date ⟨some 8000⟩ ∧
    (run Platform.simple [.watch, .idleFire, .countdownTick] exampleWorld).now < 8000 ∧
    (Idle.interrupt Platform.simple
      (run Platform.simple [.watch, .idleFire, .countdownTick] exampleWorld)).state.idling = false ∧
    (run Platform.simple [.watch, .idleFire, .countdownTick, .interrupt, .idleFire]
      exampleWorld).events =
      [(5000, .IdleStart), (5000, .IdleWarn 3), (6000, .IdleWarn 2), (6000, .IdleEnd),
       (6000, .Keepalive), (11000, .IdleStart), (11000, .IdleWarn 3)] :=
  ⟨WF_run _ _ (WF_init _ _ _ _), by decide, by decide, by rfl, by decide,
    ((interrupt_warning Platform.simple
      (run Platform.simple [.watch, .idleFire, .countdownTick] exampleWorld)
      (WF_run _ _ (WF_init _ _ _ _)) 8000 (by decide) (by decide) (by rfl) (by decide)).1
        (by decide)).2.2.1,
    by rfl⟩

/-! ### C5: `watch()` -/

/-- C5: for every world and every configuration with timeoutSeconds ≥ 0 (so
for every valid one), `watch()` called at time t leaves running = true and
idling = false, with exactly one idle timer armed, for idleSeconds, and no
countdown timer, and writes the expiry t + (idleSeconds + timeoutSeconds)
seconds, which is not earlier than t + idleSeconds; a second `watch()` at a
later time t2 gives the same fresh Running state with the expiry computed
from t2. -/
theorem watch_fresh (w : World) (hw : w.WF) (ht : 0 ≤ w.options.timeout) :
    (Idle.watch w).state.running = true ∧
    (Idle.watch w).state.idling = false ∧
    (∃ h, (Idle.watch w).state.idle = some h ∧
      (Idle.watch w).intervals.filter (fun t => t.fn = .toggleState) = [idleTimer w h]) ∧
    NoTimer .countdown (Idle.watch w) ∧
    (Idle.watch w).storage ("ngIdle." ++ "expiry") =
      some (JSON.stringify
        (JSDate.ofNumber (w.now + (w.options.idle + w.options.timeout) * 1000))) ∧
    w.now + w.options.idle * 1000 ≤ w.now + (w.options.idle + w.options.timeout) * 1000 ∧
    ∀ t2 : Int, w.now ≤ t2 →
      (Idle.watch (advance t2 (Idle.watch w))).state.running = true ∧
      (Idle.watch (advance t2 (Idle.watch w))).state.idling = false ∧
      (∃ h, (Idle.watch (advance t2 (Idle.watch w))).state.idle = some h ∧
        (Idle.watch (advance t2 (Idle.watch w))).intervals.filter
          (fun t => t.fn = .toggleState) = [idleTimer (advance t2 w) h]) ∧
      NoTimer .countdown (Idle.watch (advance t2 (Idle.watch w))) ∧
      (Idle.watch (advance t2 (Idle.watch w))).storage ("ngIdle." ++ "expiry") =
        some (JSON.stringify
          (JSDate.ofNumber (t2 + (w.options.idle + w.options.timeout) * 1000))) := by
  obtain ⟨h1, h2, -, h4, h5, h6⟩ := watch_spec hw
  refine ⟨h1, h2, ⟨_, h4, h5⟩, h6, ?_, by nlinarith, ?_⟩
  · rw [(watch_frame w).2.2.2, storage_set_same]
  · intro t2 ht2
    have hw2 : (advance t2 (Idle.watch w)).WF := WF_watch hw
    obtain ⟨g1, g2, -, g4, g5, g6⟩ := watch_spec hw2
    have hopt : (advance t2 (Idle.watch w)).options = w.options := (watch_frame w).1
    have hnow : (advance t2 (Idle.watch w)).now = t2 := by
      simp only [advance, (watch_frame w).2.1]
      exact max_eq_right ht2
    have hnow' : (advance t2 w).now = t2 := max_eq_right ht2
    refine ⟨g1, g2, ⟨_, g4, ?_⟩, g6, ?_⟩
    · rw [g5]
      simp only [idleTimer, hopt, hnow, hnow']
      rfl
    · rw [(watch_frame _).2.2.2, storage_set_same, hopt, hnow]

/-- C5, witness: idle = 5, timeout = 3 at time 0 writes the expiry of time
8000. -/
theorem watch_fresh_witness :
    exampleWorld.WF ∧ 0 ≤ exampleWorld.options.timeout ∧
    (Idle.watch exampleWorld).state.running = true ∧
    (Idle.watch exampleWorld).storage "ngIdle.expiry" =
      some (dq :: ("1970-01-01T00:00:08.000Z".toList ++ [dq])) :=
  ⟨WF_init _ _ _ _, by decide,
    (watch_fresh exampleWorld (WF_init _ _ _ _) (by decide)).1, by decide⟩

/-! ### C10: `unwatch()` -/

/-- C10: for every world, `unwatch()` leaves running = false and
idling = false, leaves no idle timer and no countdown timer armed, removes the
persisted expiry and broadcasts no event. -/
theorem unwatch_stops (w : World) (hw : w.WF) :
    (Idle.unwatch w).state.running = false ∧
    (Idle.unwatch w).state.idling = false ∧
    NoTimer .toggleState (Idle.unwatch w) ∧
    NoTimer .countdown (Idle.unwatch w) ∧
    (Idle.unwatch w).storage ("ngIdle." ++ "expiry") = none ∧
    (Idle.unwatch w).events = w.events := by
  refine ⟨rfl, rfl, NoTimer_cancel w.state.timeout (NoTimer_idle_of_cancel hw),
    NoTimer_countdown_of_cancel (WF_cancel w.state.idle hw), ?_, rfl⟩
  exact storage_remove_same w.storage "expiry"

/-- C10, witness: `unwatch()` during the warning of the example. -/
theorem unwatch_stops_witness :
    (run Platform.simple [.watch, .idleFire] exampleWorld).WF ∧
    (Idle.unwatch (run Platform.simple [.watch, .idleFire] exampleWorld)).intervals = [] ∧
    (Idle.unwatch (run Platform.simple [.watch, .idleFire] exampleWorld)).state.idling = false :=
  ⟨WF_run _ _ (WF_init _ _ _ _), by decide,
    (unwatch_stops (run Platform.simple [.watch, .idleFire] exampleWorld)
      (WF_run _ _ (WF_init _ _ _ _))).2.1⟩

/-! ### C6: the expiry and the running flag -/

theorem toggleState_running (w : World) (h : (Idle.toggleState w).state.running = true) :
    w.state.running = true := by
  cases hi : w.state.idling
  · rcases lt_trichotomy w.options.timeout 0 with ht | ht | ht
    · rw [toggleState_start_neg w hi ht] at h; cases h
    · rw [toggleState_start_zero w hi ht] at h; exact h
    · rw [toggleState_start w hi ht] at h; exact h
  · rw [toggleState_end w hi] at h
    simp only [interval.cancel, startKeepalive_state] at h
    exact h

theorem countdown_running (w : World) (h : (Idle.countdown w).state.running = true) :
    w.state.running = true := by
  unfold Idle.countdown at h
  split at h
  · rw [timeout_eq] at h; cases h
  · split at h
    · rw [timeout_eq] at h; cases h
    · exact h

theorem ExpiryKept_fire {w : World} (h : ExpiryKept w) (id : Nat) : ExpiryKept (fire id w) := by
  cases hf : w.intervals.find? (fun t => t.id = id) with
  | none => rw [fire_none id w hf]; exact h
  | some t =>
    rw [fire_some id w t hf]
    cases t.fn with
    | toggleState =>
      intro hr
      have hs : (Idle.toggleState (firedWorld w t)).storage = w.storage :=
        (toggleState_frame _).2.2.1
      have hr' : (Idle.toggleState (firedWorld w t)).state.running = true := hr
      show (Idle.toggleState (firedWorld w t)).storage _ ≠ none
      rw [hs]
      exact h (toggleState_running (firedWorld w t) hr')
    | countdown =>
      intro hr
      have hs : (Idle.countdown (firedWorld w t)).storage = w.storage :=
        (countdown_frame _).2.2.1
      have hr' : (Idle.countdown (firedWorld w t)).state.running = true := hr
      show (Idle.countdown (firedWorld w t)).storage _ ≠ none
      rw [hs]
      exact h (countdown_running (firedWorld w t) hr')
    | ping => exact h

theorem ExpiryKept_watch (w : World) : ExpiryKept (Idle.watch w) := by
  intro _
  rw [(watch_frame w).2.2.2, storage_set_same]
  simp

theorem ExpiryKept_changeOption {α : Type} (fn : α → Options → Except String Options)
    (value : α) (w : World) : ExpiryKept (Idle.changeOption fn value w).world := by
  unfold Idle.changeOption
  simp only
  split
  · intro hr; cases hr
  · split_ifs
    · exact ExpiryKept_watch _
    · intro hr; cases hr

theorem ExpiryKept_step (P : Platform) (op : Op) {w : World} (h : ExpiryKept w) :
    ExpiryKept (step P op w) := by
  cases op with
  | watch => exact ExpiryKept_watch w
  | unwatch => intro hr; cases hr
  | interrupt =>
    simp only [step, Idle.interrupt]
    split_ifs
    · exact h
    · intro hr; rw [timeout_eq] at hr; cases hr
    · exact ExpiryKept_watch w
    · exact h
  | setIdle s => exact ExpiryKept_changeOption _ _ w
  | setTimeout s => exact ExpiryKept_changeOption _ _ w
  | idleFire =>
    simp only [step, idleFire]
    split
    · exact ExpiryKept_fire h _
    · exact h
  | countdownTick =>
    simp only [step, countdownTick]
    split
    · exact ExpiryKept_fire h _
    · exact h
  | keepaliveTick =>
    simp only [step, keepaliveTick]
    split
    · exact ExpiryKept_fire h _
    · exact h
  | advance t => exact h
  | respond data status =>
    show ExpiryKept (respond data status w)
    unfold respond
    split
    · exact h
    · exact h

theorem ExpiryKept_run (P : Platform) (ops : List Op) {w : World} (h : ExpiryKept w) :
    ExpiryKept (run P ops w) := by
  induction ops generalizing w with
  | nil => exact h
  | cons op ops ih => exact ih (ExpiryKept_step P op h)

/-- C6, as amended: in every world reachable from a newly created service by
`watch()`, `unwatch()`, `interrupt()`, `setIdle()`, `setTimeout()`, idle-timer
fires and countdown ticks (and keepalive ticks and the passing of time), if
running is true then the persisted expiry is present.  (The converse is not
claimed: the timeout path leaves the expiry in the store.) -/
theorem running_expiry_present (P : Platform) (w : World) (h : Reachable P w)
    (hr : w.state.running = true) : w.storage ("ngIdle." ++ "expiry") ≠ none := by
  obtain ⟨o, k, s, n, ops, rfl⟩ := h
  exact ExpiryKept_run P ops (fun hr0 => by cases hr0) hr

/-- C6, witness: the example after `watch()`. -/
theorem running_expiry_present_witness :
    Reachable Platform.simple (run Platform.simple [.watch] exampleWorld) ∧
    (run Platform.simple [.watch] exampleWorld).state.running = true ∧
    (run Platform.simple [.watch] exampleWorld).storage ("ngIdle." ++ "expiry") ≠ none :=
  ⟨⟨_, _, _, _, [.watch], rfl⟩, by decide,
    running_expiry_present Platform.simple (run Platform.simple [.watch] exampleWorld)
      ⟨_, _, _, _, [.watch], rfl⟩ (by decide)⟩

/-- C6, counterexample: in the example, after `watch()`, the idle-timer fire
and the three countdown ticks the service has timed out: running is false
and the expiry is still in the store. -/
theorem running_expiry_present_counterexample :
    (run Platform.simple [.watch, .idleFire, .countdownTick, .countdownTick, .countdownTick]
      exampleWorld).state.running = false ∧
    (run Platform.simple [.watch, .idleFire, .countdownTick, .countdownTick, .countdownTick]
      exampleWorld).storage "ngIdle.expiry" =
      some (dq :: ("1970-01-01T00:00:08.000Z".toList ++ [dq])) := by
  decide

/-! ### C7: the countdown value -/

theorem watch_countdown (w : World) :
    (Idle.watch w).state.countdown = w.state.countdown := by
  rw [watch_eq]
  show (watchReset w).state.countdown = w.state.countdown
  rw [watchReset_eq]
  split_ifs with hi hr
  · have hi' : (watchCleared w).state.idling = true := hi
    rw [toggleState_end _ hi']
    simp only [interval.cancel, startKeepalive_state]
    rfl
  · rw [startKeepalive_state]; rfl
  · rfl

theorem CountdownSet_timeout {w : World} (h : CountdownSet w) : CountdownSet (Idle.timeout w) := by
  rw [timeout_eq]
  refine ⟨h.1, ?_⟩
  intro c hc hne
  simp only [Option.some.injEq] at hc
  exact absurd hc.symm hne

theorem CountdownSet_countdown {w : World} (h : CountdownSet w) :
    CountdownSet (Idle.countdown w) := by
  unfold Idle.countdown
  split
  · exact CountdownSet_timeout h
  · rename_i c hc
    split
    · exact CountdownSet_timeout h
    · rename_i hpos
      refine ⟨h.1, ?_⟩
      intro c' _ _
      exact h.2 c hc (by omega)

theorem CountdownSet_toggleState {w : World} (h : CountdownSet w) :
    CountdownSet (Idle.toggleState w) := by
  cases hi : w.state.idling
  · rcases lt_trichotomy w.options.timeout 0 with ht | ht | ht
    · exact absurd h.1 (not_le.mpr ht)
    · rw [toggleState_start_zero w hi ht]; exact h
    · rw [toggleState_start w hi ht]; exact ⟨h.1, fun _ _ _ => ht⟩
  · rw [toggleState_end w hi]
    have ho := (startKeepalive_frame
      { w with
        state := { w.state with idling := false }
        events := w.events ++ [(w.now, .IdleEnd)] }).1
    refine ⟨?_, ?_⟩
    · show 0 ≤ (Idle.startKeepalive _).options.timeout
      rw [ho]; exact h.1
    · intro c hc hne
      simp only [interval.cancel, startKeepalive_state] at hc
      show 0 < (Idle.startKeepalive _).options.timeout
      rw [ho]; exact h.2 c hc hne

theorem CountdownSet_watch {w : World} (h : CountdownSet w) : CountdownSet (Idle.watch w) := by
  unfold CountdownSet
  rw [watch_countdown, (watch_frame w).1]
  exact h

theorem CountdownSet_fire {w : World} (h : CountdownSet w) (id : Nat) :
    CountdownSet (fire id w) := by
  cases hf : w.intervals.find? (fun t => t.id = id) with
  | none => rw [fire_none id w hf]; exact h
  | some t =>
    rw [fire_some id w t hf]
    have hfw : CountdownSet (firedWorld w t) := h
    cases t.fn with
    | toggleState => exact CountdownSet_toggleState hfw
    | countdown => exact CountdownSet_countdown hfw
    | ping => exact h

theorem CountdownSet_step (P : Platform) (op : Op) (hop : op.isSetter = false) {w : World}
    (h : CountdownSet w) : CountdownSet (step P op w) := by
  cases op with
  | watch => exact CountdownSet_watch h
  | unwatch => exact h
  | interrupt =>
    simp only [step, Idle.interrupt]
    split_ifs
    · exact h
    · exact CountdownSet_timeout h
    · exact CountdownSet_watch h
    · exact h
  | setIdle s => cases hop
  | setTimeout s => cases hop
  | idleFire =>
    simp only [step, idleFire]
    split
    · exact CountdownSet_fire h _
    · exact h
  | countdownTick =>
    simp only [step, countdownTick]
    split
    · exact CountdownSet_fire h _
    · exact h
  | keepaliveTick =>
    simp only [step, keepaliveTick]
    split
    · exact CountdownSet_fire h _
    · exact h
  | advance t => exact h
  | respond data status =>
    show CountdownSet (respond data status w)
    unfold respond
    split
    · exact h
    · exact h

theorem CountdownSet_run (P : Platform) (ops : List Op) (hops : ∀ op ∈ ops, op.isSetter = false)
    {w : World} (h : CountdownSet w) : CountdownSet (run P ops w) := by
  induction ops generalizing w with
  | nil => exact h
  | cons op ops ih =>
    exact ih (fun o ho => hops o (List.mem_cons_of_mem _ ho))
      (CountdownSet_step P op (hops op (List.mem_cons_self _ _)) h)

/-- C7, as amended: in every world reached from a newly created service with
timeoutSeconds ≥ 0 by `watch()`, `unwatch()`, `interrupt()`, idle-timer fires
and countdown ticks (and keepalive ticks and the passing of time),
`state.countdown` is non-zero only if timeoutSeconds > 0; and `watch()` leaves
`state.countdown` as it was (it does not clear it, so the countdown can be
non-zero while idling is false). -/
theorem countdown_nonzero (P : Platform) (options : Options)
    (keepaliveOptions : KeepaliveOptions) (storage : Storage) (now : Int) (ops : List Op)
    (hv : 0 ≤ options.timeout) (hops : ∀ op ∈ ops, op.isSetter = false) :
    (∀ c, (run P ops (World.init options keepaliveOptions storage now)).state.countdown = some c →
      c ≠ 0 → 0 < (run P ops (World.init options keepaliveOptions storage now)).options.timeout) ∧
    (Idle.watch (run P ops (World.init options keepaliveOptions storage now))).state.countdown =
      (run P ops (World.init options keepaliveOptions storage now)).state.countdown := by
  refine ⟨(CountdownSet_run P ops hops ⟨hv, ?_⟩).2, watch_countdown _⟩
  intro c hc
  cases hc

/-- C7, witness: the example after `watch()`, the idle-timer fire and one
tick, where the countdown is 1. -/
theorem countdown_nonzero_witness :
    (0 : Int) ≤ ({ idle := 5, timeout := 3 } : Options).timeout ∧
    (∀ op ∈ [Op.watch, Op.idleFire, Op.countdownTick], op.isSetter = false) ∧
    (run Platform.simple [.watch, .idleFire, .countdownTick] exampleWorld).state.countdown =
      some 1 ∧
    (Idle.watch
      (run Platform.simple [.watch, .idleFire, .countdownTick] exampleWorld)).state.countdown =
      (run Platform.simple [.watch, .idleFire, .countdownTick] exampleWorld).state.countdown :=
  ⟨by decide, by decide, by decide,
    (countdown_nonzero Platform.simple { idle := 5, timeout := 3 } {} (fun _ => none) 0
      [.watch, .idleFire, .countdownTick] (by decide) (by decide)).2⟩

/-- C7, counterexample: in the example, after `watch()`, the idle-timer fire
and an interrupt that resumes, idling is false and the countdown is 2. -/
theorem countdown_nonzero_counterexample :
    (run Platform.simple [.watch, .idleFire, .interrupt] exampleWorld).state.idling = false ∧
    (run Platform.simple [.watch, .idleFire, .interrupt] exampleWorld).state.countdown = some 2 := by
  refine ⟨by rfl, by rfl⟩

/-! ### C8: a rejected configuration value -/

/-- What a rejected value leaves behind in every world: if the service-level
`setIdle(seconds)` throws because seconds ≤ 0, or `setTimeout(seconds)` throws
because seconds is a negative number, the configuration is the same after the
call as before it, but the rest of the world is what `unwatch()` alone
leaves: running = false, idling = false, the idle and countdown timers
cancelled and the persisted expiry removed.  `changeOption` unwatches before
the setter validates and never reaches the `watch()` that its `reset` flag
was kept for. -/
theorem setter_rejected (w : World) (idle : Int) (timeout : Int) (hidle : idle ≤ 0)
    (htimeout : timeout < 0) :
    ((Idle.setIdle idle w).thrown ≠ none ∧
      (Idle.setIdle idle w).world = Idle.unwatch w ∧
      (Idle.setIdle idle w).world.options = w.options ∧
      (Idle.setIdle idle w).world.state.running = false ∧
      (Idle.setIdle idle w).world.state.idling = false ∧
      (Idle.setIdle idle w).world.storage ("ngIdle." ++ "expiry") = none) ∧
    ((Idle.setTimeout (.num timeout) w).thrown ≠ none ∧
      (Idle.setTimeout (.num timeout) w).world = Idle.unwatch w ∧
      (Idle.setTimeout (.num timeout) w).world.options = w.options ∧
      (Idle.setTimeout (.num timeout) w).world.state.running = false ∧
      (Idle.setTimeout (.num timeout) w).world.state.idling = false ∧
      (Idle.setTimeout (.num timeout) w).world.storage ("ngIdle." ++ "expiry") = none) := by
  have h1 : ∃ e, Idle.setIdle idle w = ⟨Idle.unwatch w, some e⟩ := by
    refine ⟨"Idle must be a value in seconds, greater than 0.", ?_⟩
    simp only [Idle.setIdle, Idle.changeOption, IdleProvider.setIdle, hidle, if_true]
  have h2 : ∃ e, Idle.setTimeout (.num timeout) w = ⟨Idle.unwatch w, some e⟩ := by
    refine ⟨"Timeout must be zero or false to disable the feature, or a positive integer (in seconds) to enable it.", ?_⟩
    simp only [Idle.setTimeout, Idle.changeOption, IdleProvider.setTimeout, not_le.mpr htimeout,
      if_false]
  obtain ⟨e1, h1⟩ := h1
  obtain ⟨e2, h2⟩ := h2
  rw [h1, h2]
  exact ⟨⟨by simp, rfl, rfl, rfl, rfl, storage_remove_same w.storage "expiry"⟩,
    ⟨by simp, rfl, rfl, rfl, rfl, storage_remove_same w.storage "expiry"⟩⟩

/-- The running example rejects idle = 0 and timeout = -1 and is left with the
keepalive timer alone. -/
theorem setter_rejected_witness :
    (0 : Int) ≤ 0 ∧ (-1 : Int) < 0 ∧
    (Idle.setIdle 0 (Idle.watch exampleWorld)).world.options = (Idle.watch exampleWorld).options ∧
    (Idle.setIdle 0 (Idle.watch exampleWorld)).world.intervals =
      [pingTimer exampleWorld] :=
  ⟨by decide, by decide,
    (setter_rejected (Idle.watch exampleWorld) 0 (-1) (by decide) (by decide)).1.2.2.1,
    by decide⟩

/-- C8, the code at the failing input: the example is running after
`watch()`, with the expiry stored and two timers armed; `setIdle(0)` throws
and leaves the service stopped, not running, with the idle timer cancelled and
the expiry removed, where a rejected value should leave all of it as it
was. -/
theorem setter_rejected_counterexample :
    (Idle.watch exampleWorld).state.running = true ∧
    (Idle.watch exampleWorld).storage "ngIdle.expiry" ≠ none ∧
    (Idle.watch exampleWorld).intervals.length = 2 ∧
    (Idle.setIdle 0 (Idle.watch exampleWorld)).thrown ≠ none ∧
    (Idle.setIdle 0 (Idle.watch exampleWorld)).world.state.running = false ∧
    (Idle.setIdle 0 (Idle.watch exampleWorld)).world.storage "ngIdle.expiry" = none ∧
    (Idle.setIdle 0 (Idle.watch exampleWorld)).world.intervals.length = 1 := by
  decide

/-! ### C9: a date written to the store and read back -/

theorem DayFromYear_succ (y : Int) : DayFromYear (y + 1) = DayFromYear y + DaysInYear y := by
  unfold DayFromYear DaysInYear
  split_ifs <;> omega

theorem YearFromDay_spec (d : Int) :
    DayFromYear (YearFromDay d) ≤ d ∧ d < DayFromYear (YearFromDay d + 1) := by
  unfold YearFromDay
  simp only
  split_ifs with h1 h2
  · refine ⟨h1, ?_⟩
    unfold DayFromYear at *
    omega
  · refine ⟨?_, ?_⟩
    · unfold DayFromYear at *
      omega
    · simpa using h2
  · exact ⟨by omega, by omega⟩

theorem InLeapYear_cases (y : Int) :
    (InLeapYear y = 0 ∧ DaysInYear y = 365) ∨ (InLeapYear y = 1 ∧ DaysInYear y = 366) := by
  unfold InLeapYear DaysInYear
  split_ifs <;> omega

theorem MonthFromDay_spec (dayInYear leap : Int) (h0 : 0 ≤ dayInYear)
    (h1 : dayInYear < 365 + leap) :
    MonthFromDay dayInYear leap ≤ 11 ∧
    monthStart (MonthFromDay dayInYear leap) leap ≤ dayInYear ∧
    dayInYear < monthStart (MonthFromDay dayInYear leap + 1) leap := by
  unfold MonthFromDay
  by_cases c1 : dayInYear < 31
  · rw [if_pos c1]
    simp only [monthStart]
    omega
  rw [if_neg c1]
  by_cases c2 : dayInYear < 59 + leap
  · rw [if_pos c2]
    simp only [monthStart]
    omega
  rw [if_neg c2]
  by_cases c3 : dayInYear < 90 + leap
  · rw [if_pos c3]
    simp only [monthStart]
    omega
  rw [if_neg c3]
  by_cases c4 : dayInYear < 120 + leap
  · rw [if_pos c4]
    simp only [monthStart]
    omega
  rw [if_neg c4]
  by_cases c5 : dayInYear < 151 + leap
  · rw [if_pos c5]
    simp only [monthStart]
    omega
  rw [if_neg c5]
  by_cases c6 : dayInYear < 181 + leap
  · rw [if_pos c6]
    simp only [monthStart]
    omega
  rw [if_neg c6]
  by_cases c7 : dayInYear < 212 + leap
  · rw [if_pos c7]
    simp only [monthStart]
    omega
  rw [if_neg c7]
  by_cases c8 : dayInYear < 243 + leap
  · rw [if_pos c8]
    simp only [monthStart]
    omega
  rw [if_neg c8]
  by_cases c9 : dayInYear < 273 + leap
  · rw [if_pos c9]
    simp only [monthStart]
    omega
  rw [if_neg c9]
  by_cases c10 : dayInYear < 304 + leap
  · rw [if_pos c10]
    simp only [monthStart]
    omega
  rw [if_neg c10]
  by_cases c11 : dayInYear < 334 + leap
  · rw [if_pos c11]
    simp only [monthStart]
    omega
  rw [if_neg c11]
  simp only [monthStart]
  omega

theorem timeOfDay_recombine (t : Int) :
    t / 3600000 * 3600000 + t / 60000 % 60 * 60000 + t / 1000 % 60 * 1000 + t % 1000 = t := by
  omega

theorem ofTime_toTime (t : Int) : (DateFields.ofTime t).toTime = t := by
  unfold DateFields.ofTime DateFields.toTime
  simp only [add_sub_cancel_right, Int.toNat_ofNat]
  rw [timeOfDay_recombine]
  unfold Day TimeWithinDay msPerDay
  omega

theorem dayInYear_bounds (d : Int) :
    0 ≤ d - DayFromYear (YearFromDay d) ∧
    d - DayFromYear (YearFromDay d) < 365 + InLeapYear (YearFromDay d) := by
  obtain ⟨h1, h2⟩ := YearFromDay_spec d
  rw [DayFromYear_succ] at h2
  rcases InLeapYear_cases (YearFromDay d) with ⟨a, b⟩ | ⟨a, b⟩ <;> omega

theorem ofTime_legal (t : Int) : (DateFields.ofTime t).legal = true := by
  obtain ⟨h0, h1⟩ := dayInYear_bounds (Day t)
  obtain ⟨m1, m2, m3⟩ := MonthFromDay_spec _ _ h0 h1
  have e1 : ((MonthFromDay (Day t - DayFromYear (YearFromDay (Day t)))
      (InLeapYear (YearFromDay (Day t))) : Nat) + 1 : Int).toNat =
      MonthFromDay (Day t - DayFromYear (YearFromDay (Day t)))
        (InLeapYear (YearFromDay (Day t))) + 1 := by
    omega
  have e2 : ((MonthFromDay (Day t - DayFromYear (YearFromDay (Day t)))
      (InLeapYear (YearFromDay (Day t))) : Nat) + 1 - 1 : Int).toNat =
      MonthFromDay (Day t - DayFromYear (YearFromDay (Day t)))
        (InLeapYear (YearFromDay (Day t))) := by
    omega
  simp only [DateFields.legal, DateFields.ofTime, daysInMonth, e1, e2, Bool.and_eq_true,
    decide_eq_true_eq]
  unfold TimeWithinDay msPerDay
  refine ⟨⟨⟨⟨⟨⟨⟨⟨⟨⟨⟨?_, ?_⟩, ?_⟩, ?_⟩, ?_⟩, ?_⟩, ?_⟩, ?_⟩, ?_⟩, ?_⟩, ?_⟩, ?_⟩ <;> omega

theorem ofTime_year_bounds (t : Int) (hlo : -62167219200000 ≤ t) (hhi : t ≤ 253402300799999) :
    0 ≤ (DateFields.ofTime t).year ∧ (DateFields.ofTime t).year ≤ 9999 := by
  obtain ⟨h1, h2⟩ := YearFromDay_spec (Day t)
  have hd : -719528 ≤ Day t ∧ Day t ≤ 2932896 := by
    unfold Day msPerDay; omega
  show 0 ≤ YearFromDay (Day t) ∧ YearFromDay (Day t) ≤ 9999
  generalize YearFromDay (Day t) = y at h1 h2
  unfold DayFromYear at h1 h2
  constructor <;> omega

/-! #### Digits and the ISO string -/

theorem digitChar_facts (n : Nat) :
    isDigit (Nat.digitChar (n % 10)) = true ∧ digitValue (Nat.digitChar (n % 10)) = n % 10 ∧
    plainChar (Nat.digitChar (n % 10)) := by
  have h : n % 10 < 10 := Nat.mod_lt n (by decide)
  generalize n % 10 = k at h
  unfold plainChar
  interval_cases k <;> decide

theorem padDigits_two (n : Nat) :
    padDigits 2 n = [Nat.digitChar (n / 10 % 10), Nat.digitChar (n % 10)] := by
  simp [padDigits]

theorem padDigits_three (n : Nat) :
    padDigits 3 n =
      [Nat.digitChar (n / 10 / 10 % 10), Nat.digitChar (n / 10 % 10), Nat.digitChar (n % 10)] := by
  simp [padDigits]

theorem padDigits_four (n : Nat) :
    padDigits 4 n =
      [Nat.digitChar (n / 10 / 10 / 10 % 10), Nat.digitChar (n / 10 / 10 % 10),
        Nat.digitChar (n / 10 % 10), Nat.digitChar (n % 10)] := by
  simp [padDigits]

theorem isoChars_eq (y m d h n s f : Nat) :
    isoChars y m d h n s f =
      [Nat.digitChar (y / 10 / 10 / 10 % 10), Nat.digitChar (y / 10 / 10 % 10),
        Nat.digitChar (y / 10 % 10), Nat.digitChar (y % 10), '-',
        Nat.digitChar (m / 10 % 10), Nat.digitChar (m % 10), '-',
        Nat.digitChar (d / 10 % 10), Nat.digitChar (d % 10), 'T',
        Nat.digitChar (h / 10 % 10), Nat.digitChar (h % 10), ':',
        Nat.digitChar (n / 10 % 10), Nat.digitChar (n % 10), ':',
        Nat.digitChar (s / 10 % 10), Nat.digitChar (s % 10), '.',
        Nat.digitChar (f / 10 / 10 % 10), Nat.digitChar (f / 10 % 10), Nat.digitChar (f % 10),
        'Z'] := by
  simp [isoChars, padDigits_two, padDigits_three, padDigits_four]

theorem isoPattern_isoChars (y m d h n s f : Nat) : isoPattern (isoChars y m d h n s f) = true := by
  rw [isoChars_eq]
  simp [isoPattern, digitChar_facts]

theorem parseChars_plain (cs rest : List Char) (h : ∀ c ∈ cs, plainChar c) :
    parseChars (cs ++ dq :: rest) = some (cs, rest) := by
  induction cs with
  | nil =>
    show parseChars (dq :: rest) = some ([], rest)
    rw [parseChars.eq_def]
    simp
  | cons c cs ih =>
    obtain ⟨h1, h2, h3⟩ := h c (List.mem_cons_self _ _)
    have := ih (fun x hx => h x (List.mem_cons_of_mem _ hx))
    show parseChars (c :: (cs ++ dq :: rest)) = some (c :: cs, rest)
    rw [parseChars.eq_def]
    simp [h1, h2, h3, this]

theorem plain_isoChars (y m d h n s f : Nat) : ∀ c ∈ isoChars y m d h n s f, plainChar c := by
  have sep : plainChar '-' ∧ plainChar 'T' ∧ plainChar ':' ∧ plainChar '.' ∧ plainChar 'Z' := by
    unfold plainChar; decide
  rw [isoChars_eq]
  simp [digitChar_facts, sep]

theorem digitsValue_two (a b : Nat) :
    digitsValue [Nat.digitChar (a % 10), Nat.digitChar (b % 10)] = 10 * (a % 10) + b % 10 := by
  simp [digitsValue, digitChar_facts]

theorem digitsValue_three (a b c : Nat) :
    digitsValue [Nat.digitChar (a % 10), Nat.digitChar (b % 10), Nat.digitChar (c % 10)] =
      10 * (10 * (a % 10) + b % 10) + c % 10 := by
  simp [digitsValue, digitChar_facts]

theorem digitsValue_four (a b c d : Nat) :
    digitsValue [Nat.digitChar (a % 10), Nat.digitChar (b % 10), Nat.digitChar (c % 10),
      Nat.digitChar (d % 10)] = 10 * (10 * (10 * (a % 10) + b % 10) + c % 10) + d % 10 := by
  simp [digitsValue, digitChar_facts]

theorem Date_parse_isoChars (P : Platform) (y m d h n s f : Nat) (hy : y < 10000)
    (hm : m < 100) (hd : d < 100) (hh : h < 100) (hn : n < 100) (hs : s < 100) (hf : f < 1000)
    (hl : DateFields.legal ⟨y, m, d, h, n, s, f⟩ = true) :
    Date.parse P (isoChars y m d h n s f) = some (DateFields.toTime ⟨y, m, d, h, n, s, f⟩) := by
  have e : isoFields
      [Nat.digitChar (y / 10 / 10 / 10 % 10), Nat.digitChar (y / 10 / 10 % 10),
        Nat.digitChar (y / 10 % 10), Nat.digitChar (y % 10)]
      [Nat.digitChar (m / 10 % 10), Nat.digitChar (m % 10)]
      [Nat.digitChar (d / 10 % 10), Nat.digitChar (d % 10)]
      [Nat.digitChar (h / 10 % 10), Nat.digitChar (h % 10)]
      [Nat.digitChar (n / 10 % 10), Nat.digitChar (n % 10)]
      [Nat.digitChar (s / 10 % 10), Nat.digitChar (s % 10)]
      [Nat.digitChar (f / 10 / 10 % 10), Nat.digitChar (f / 10 % 10), Nat.digitChar (f % 10)] =
      ⟨y, m, d, h, n, s, f⟩ := by
    simp only [isoFields, digitsValue_two, digitsValue_three, digitsValue_four,
      DateFields.mk.injEq, Nat.cast_inj]
    refine ⟨?_, ?_, ?_, ?_, ?_, ?_, ?_⟩ <;> omega
  rw [isoChars_eq]
  simp only [Date.parse, e, hl]
  simp [digitChar_facts]

theorem JSON_parse_quoted (P : Platform) (cs : List Char) (h : ∀ c ∈ cs, plainChar c) :
    JSON.parse P (dq :: (cs ++ [dq])) = some (reviver P (.str cs)) := by
  have hws : isWS dq = false := by decide
  have hfuel : 2 * (dq :: (cs ++ [dq])).length + 2 = (2 * (dq :: (cs ++ [dq])).length + 1) + 1 := rfl
  unfold JSON.parse
  rw [hfuel, parseValue]
  simp only [skipWS, hws, Bool.false_eq_true, if_false, if_true]
  rw [parseChars_plain cs [] h]
  simp [skipWS]

theorem toISOString_eq (t : Int) (h0 : 0 ≤ (DateFields.ofTime t).year)
    (h1 : (DateFields.ofTime t).year ≤ 9999) :
    toISOString t =
      isoChars (DateFields.ofTime t).year.toNat (DateFields.ofTime t).month.toNat
        (DateFields.ofTime t).date.toNat (DateFields.ofTime t).hours.toNat
        (DateFields.ofTime t).minutes.toNat (DateFields.ofTime t).seconds.toNat
        (DateFields.ofTime t).ms.toNat := by
  simp only [toISOString, isoChars, h0, h1, and_self, if_true]

theorem daysInMonth_le (y m : Int) (h1 : 1 ≤ m) (h2 : m ≤ 12) : daysInMonth y m ≤ 31 := by
  unfold daysInMonth
  rcases InLeapYear_cases y with ⟨a, -⟩ | ⟨a, -⟩ <;> rw [a] <;>
    interval_cases m <;> simp [monthStart]

/-- C9, as amended: for every timestamp d from 0000-01-01T00:00:00.000Z to
9999-12-31T23:59:59.999Z (the dates whose ISO form has a four-digit year),
`LocalStorage.set(key, d)` followed by `LocalStorage.get(key)` returns a date
with the same time value d. -/
theorem store_roundtrip (P : Platform) (storage : Storage) (key : String) (d : Int)
    (hlo : -62167219200000 ≤ d) (hhi : d ≤ 253402300799999) :
    LocalStorage.get P (LocalStorage.set storage key (JSDate.ofNumber d)) key =
      .date ⟨some d⟩ := by
  obtain ⟨hy0, hy1⟩ := ofTime_year_bounds d hlo hhi
  have hlegal := ofTime_legal d
  have hl := hlegal
  simp only [DateFields.legal, Bool.and_eq_true, decide_eq_true_eq] at hl
  obtain ⟨⟨⟨⟨⟨⟨⟨⟨⟨⟨⟨l1, l2⟩, l3⟩, l4⟩, l5⟩, l6⟩, l7⟩, l8⟩, l9⟩, l10⟩, l11⟩, l12⟩ := hl
  have hdm := daysInMonth_le (DateFields.ofTime d).year (DateFields.ofTime d).month l1 l2
  have hnum : JSDate.ofNumber d = ⟨some d⟩ := by
    unfold JSDate.ofNumber
    rw [if_pos ⟨by omega, by omega⟩]
  have hfields : (⟨((DateFields.ofTime d).year.toNat : Int), ((DateFields.ofTime d).month.toNat : Int),
      ((DateFields.ofTime d).date.toNat : Int), ((DateFields.ofTime d).hours.toNat : Int),
      ((DateFields.ofTime d).minutes.toNat : Int), ((DateFields.ofTime d).seconds.toNat : Int),
      ((DateFields.ofTime d).ms.toNat : Int)⟩ : DateFields) = DateFields.ofTime d := by
    rw [Int.toNat_of_nonneg hy0, Int.toNat_of_nonneg (by omega : 0 ≤ (DateFields.ofTime d).month),
      Int.toNat_of_nonneg (by omega : 0 ≤ (DateFields.ofTime d).date), Int.toNat_of_nonneg l5,
      Int.toNat_of_nonneg l7, Int.toNat_of_nonneg l9, Int.toNat_of_nonneg l11]
  have hparse : Date.parse P (toISOString d) = some d := by
    rw [toISOString_eq d hy0 hy1,
      Date_parse_isoChars P _ _ _ _ _ _ _ (by omega) (by omega) (by omega) (by omega) (by omega)
        (by omega) (by omega) (by rw [hfields]; exact hlegal),
      hfields, ofTime_toTime]
  have hplain : ∀ c ∈ toISOString d, plainChar c := by
    rw [toISOString_eq d hy0 hy1]; exact plain_isoChars _ _ _ _ _ _ _
  have hpat : isoPattern (toISOString d) = true := by
    rw [toISOString_eq d hy0 hy1]; exact isoPattern_isoChars _ _ _ _ _ _ _
  unfold LocalStorage.get LocalStorage.set tryParseJson
  simp only [Function.update_same, Option.getD_some, hnum, JSON.stringify]
  rw [JSON_parse_quoted P _ hplain]
  simp only [reviver, hpat, if_true, JSDate.ofString, hparse, hnum]

/-- C9, witness: 2024-02-29T00:00:00.123Z written and read back. -/
theorem store_roundtrip_witness :
    (-62167219200000 : Int) ≤ 1709164800123 ∧ (1709164800123 : Int) ≤ 253402300799999 ∧
    (fun _ => none : Storage) "ngIdle.expiry" = none ∧
    LocalStorage.set (fun _ => none) "expiry" (JSDate.ofNumber 1709164800123) "ngIdle.expiry" =
      some (dq :: ("2024-02-29T00:00:00.123Z".toList ++ [dq])) ∧
    LocalStorage.get Platform.simple
      (LocalStorage.set (fun _ => none) "expiry" (JSDate.ofNumber 1709164800123)) "expiry" =
      .date ⟨some 1709164800123⟩ :=
  ⟨by decide, by decide, rfl, by decide,
    store_roundtrip Platform.simple (fun _ => none) "expiry" 1709164800123 (by decide)
      (by decide)⟩

/-- C9, counterexample: the date 10000-01-01T00:00:00.000Z (time value
253402300800000) is stored with the six-digit year of the extended ISO
format, which the pattern of the reviver does not match: `get` returns the
string, not a date. -/
theorem store_roundtrip_counterexample :
    JSDate.ofNumber 253402300800000 = ⟨some 253402300800000⟩ ∧
    LocalStorage.get Platform.simple
      (LocalStorage.set (fun _ => none) "expiry" (JSDate.ofNumber 253402300800000)) "expiry" =
      .str "+010000-01-01T00:00:00.000Z".toList :=
  ⟨by decide, by rfl⟩

/-! ### C18: the events of `watch()` -/

/-- C18: for every world, `watch()` broadcasts exactly one IdleEnd if idling
was true when it was called, whether the service was running (Warning) or not
(TimedOut); the only other event is then the Keepalive ping, broadcast after
it when the keepalive is enabled and the service was running; if idling was
false `watch()` broadcasts no event at all. -/
theorem watch_idle_end (w : World) :
    (w.state.idling = true →
      (Idle.watch w).events = w.events ++
        (w.now, Event.IdleEnd) ::
          (if w.options.keepalive ∧ w.state.running then [(w.now, Event.Keepalive)] else []) ∧
      (((Idle.watch w).events.drop w.events.length).filter
        (fun e => e.2 = Event.IdleEnd)).length = 1) ∧
    (w.state.idling = false → (Idle.watch w).events = w.events) := by
  constructor
  · intro hi
    have h : (Idle.watch w).events = w.events ++
        (w.now, Event.IdleEnd) ::
          (if w.options.keepalive ∧ w.state.running then [(w.now, Event.Keepalive)] else []) := by
      rw [watch_events, if_pos hi]
    refine ⟨h, ?_⟩
    rw [h, List.drop_left]
    split_ifs <;> simp
  · intro hi
    rw [watch_events]
    simp [hi]

/-- C18, witness: in the example `watch()` after the timeout broadcasts
IdleEnd alone, and the first `watch()` broadcasts nothing. -/
theorem watch_idle_end_witness :
    (run Platform.simple [.watch, .idleFire, .countdownTick, .countdownTick, .countdownTick]
      exampleWorld).state.idling = true ∧
    (run Platform.simple [.watch, .idleFire, .countdownTick, .countdownTick, .countdownTick]
      exampleWorld).state.running = false ∧
    (run Platform.simple [.watch, .idleFire, .countdownTick, .countdownTick, .countdownTick, .watch]
      exampleWorld).events =
      [(5000, .IdleStart), (5000, .IdleWarn 3), (6000, .IdleWarn 2), (7000, .IdleWarn 1),
       (8000, .IdleTimeout), (8000, .IdleEnd)] ∧
    exampleWorld.state.idling = false ∧
    (Idle.watch exampleWorld).events = exampleWorld.events :=
  ⟨by decide, by decide, by decide, by decide,
    (watch_idle_end exampleWorld).2 (by decide)⟩

/-! ### C19: an interrupt without autoResume -/

/-- C19: with autoResume disabled, when the persisted expiry is not reached
(`isExpired()` is falsy) or timeoutSeconds is 0, `interrupt()` leaves every
world as it is, a running one included: flags, countdown, timers, stored
expiry and events are unchanged. -/
theorem interrupt_noop (P : Platform) (w : World) (ha : w.options.autoResume = false)
    (h : Idle.isExpired P w = false ∨ w.options.timeout = 0) : Idle.interrupt P w = w := by
  unfold Idle.interrupt
  rcases h with h | h <;> simp [h, ha]

/-- C19, witness: the running example with autoResume disabled, interrupted
at time 4000, keeps its idle timer due at 5000. -/
theorem interrupt_noop_witness :
    (run Platform.simple [.watch, .advance 4000] manualResumeWorld).options.autoResume = false ∧
    Idle.isExpired Platform.simple (run Platform.simple [.watch, .advance 4000] manualResumeWorld) =
      false ∧
    (run Platform.simple [.watch, .advance 4000] manualResumeWorld).state.running = true ∧
    (run Platform.simple [.watch, .advance 4000, .interrupt, .idleFire] manualResumeWorld).events =
      [(5000, .IdleStart), (5000, .IdleWarn 3)] ∧
    Idle.interrupt Platform.simple (run Platform.simple [.watch, .advance 4000] manualResumeWorld) =
      run Platform.simple [.watch, .advance 4000] manualResumeWorld :=
  ⟨by decide, by rfl, by decide, by rfl,
    interrupt_noop Platform.simple (run Platform.simple [.watch, .advance 4000] manualResumeWorld)
      (by decide) (Or.inl (by rfl))⟩

/-! ### C13: the setters of the provider -/

theorem setIdle_valid (s : Int) (o o2 : Options) (hv : o.valid)
    (h : IdleProvider.setIdle s o = .ok o2) : o2.valid := by
  unfold IdleProvider.setIdle at h
  split_ifs at h with hs
  cases h
  exact ⟨by simpa using hs, hv.2⟩

theorem setTimeout_valid (a : TimeoutArg) (o o2 : Options) (hv : o.valid)
    (h : IdleProvider.setTimeout a o = .ok o2) : o2.valid := by
  unfold IdleProvider.setTimeout at h
  split at h
  · cases h; exact ⟨hv.1, le_refl _⟩
  · split_ifs at h with hn
    cases h
    exact ⟨hv.1, hn⟩
  · cases h

theorem apply_valid (c : ProviderCall) (o : Options) (hv : o.valid) : (c.apply o).valid := by
  unfold ProviderCall.apply
  split
  · rename_i o2 h
    cases c with
    | idle s => exact setIdle_valid s o o2 hv h
    | timeout a => exact setTimeout_valid a o o2 hv h
  · exact hv

theorem configure_valid (calls : List ProviderCall) (o : Options) (hv : o.valid) :
    (configure calls o).valid := by
  induction calls generalizing o with
  | nil => exact hv
  | cons c cs ih => exact ih _ (apply_valid c o hv)

/-- The setters on integer numbers and booleans, the values of the state
machine: the idle setter throws for every seconds ≤ 0 and otherwise stores
seconds as `idle`; the timeout setter stores seconds for every number ≥ 0,
stores 0 for `false`, and throws for a negative number and for `true`; a call
that throws leaves the options as they were, so after any sequence of such
calls on the default options idle > 0 and timeout ≥ 0. -/
theorem setter_validation (o : Options) (s : Int) (n : Int) (calls : List ProviderCall) :
    (s ≤ 0 → ∃ e, IdleProvider.setIdle s o = .error e) ∧
    (0 < s → IdleProvider.setIdle s o = .ok { o with idle := s }) ∧
    (0 ≤ n → IdleProvider.setTimeout (.num n) o = .ok { o with timeout := n }) ∧
    IdleProvider.setTimeout (.bool false) o = .ok { o with timeout := 0 } ∧
    (n < 0 → ∃ e, IdleProvider.setTimeout (.num n) o = .error e) ∧
    (∃ e, IdleProvider.setTimeout (.bool true) o = .error e) ∧
    (∀ c : ProviderCall, (∃ e, c.result o = .error e) → c.apply o = o) ∧
    (configure calls {}).valid := by
  refine ⟨?_, ?_, ?_, rfl, ?_, ⟨_, rfl⟩, ?_, ?_⟩
  · intro h
    refine ⟨"Idle must be a value in seconds, greater than 0.", ?_⟩
    simp only [IdleProvider.setIdle, h, if_true]
  · intro h
    simp only [IdleProvider.setIdle, not_le.mpr h, if_false]
  · intro h
    simp only [IdleProvider.setTimeout, h, if_true]
  · intro h
    refine ⟨"Timeout must be zero or false to disable the feature, or a positive integer (in seconds) to enable it.", ?_⟩
    simp only [IdleProvider.setTimeout, not_le.mpr h, if_false]
  · rintro c ⟨e, he⟩
    simp only [ProviderCall.apply, he]
  · exact configure_valid calls {} (by unfold Options.valid; decide)

/-- The typed setters at work: on the default options idle = 0, timeout = -1
and timeout = `true` are rejected, idle = 5 and timeout = `false` are
stored. -/
theorem setter_validation_witness :
    configure [.idle 0, .timeout (.num (-1)), .idle 5, .timeout (.bool true), .timeout (.bool false)]
      {} = { idle := 5, timeout := 0 } ∧
    (configure [.idle 0, .timeout (.num (-1)), .idle 5, .timeout (.bool true),
      .timeout (.bool false)] {}).valid :=
  ⟨by decide,
    (setter_validation {} 0 (-1)
      [.idle 0, .timeout (.num (-1)), .idle 5, .timeout (.bool true),
        .timeout (.bool false)]).2.2.2.2.2.2.2⟩

/-! #### The setters on every value -/

theorem setIdle_agrees (P : Platform) (seconds : Int) (o : Options) :
    IdleProvider.idle P (.num seconds) o.toProvider =
      (IdleProvider.setIdle seconds o).map Options.toProvider := by
  unfold IdleProvider.idle IdleProvider.setIdle
  by_cases h : seconds ≤ 0
  · have : ((seconds : ℚ) ≤ 0) := by exact_mod_cast h
    simp only [Arg.leZero, this, decide_True, if_true, h]
    rfl
  · have : ¬ ((seconds : ℚ) ≤ 0) := by exact_mod_cast h
    simp only [Arg.leZero, this, decide_False, if_false, h, Bool.false_eq_true]
    rfl

theorem setTimeout_agrees (seconds : TimeoutArg) (o : Options) :
    IdleProvider.timeout seconds.toArg o.toProvider =
      (IdleProvider.setTimeout seconds o).map Options.toProvider := by
  unfold IdleProvider.timeout IdleProvider.setTimeout
  cases seconds with
  | bool b =>
    cases b
    · rfl
    · rfl
  | num n =>
    have h0 : TimeoutArg.toArg (.num n) ≠ Arg.bool false := by
      simp [TimeoutArg.toArg]
    rw [if_neg h0]
    by_cases h : 0 ≤ n
    · have : ((0 : ℚ) ≤ n) := by exact_mod_cast h
      simp only [TimeoutArg.toArg, Arg.isNumber, Arg.geZero, this, decide_True, Bool.and_self,
        if_true, h]
      rfl
    · have : ¬ ((0 : ℚ) ≤ n) := by exact_mod_cast h
      simp only [TimeoutArg.toArg, Arg.isNumber, Arg.geZero, this, decide_False, Bool.and_false,
        Bool.false_eq_true, if_false, h]
      rfl

theorem timeout_checked (seconds : Arg) (o o2 : ProviderOptions)
    (h : IdleProvider.timeout seconds o = .ok o2) :
    o2.timeout.isNumber = true ∧ o2.timeout.geZero = true ∧ o2.idle = o.idle := by
  unfold IdleProvider.timeout at h
  split_ifs at h with h1 h2
  · cases h
    exact ⟨rfl, by simp [Arg.geZero], rfl⟩
  · cases h
    simp only [Bool.and_eq_true] at h2
    exact ⟨h2.1, h2.2, rfl⟩

/-- What the setters do on every value: the idle setter throws when
`seconds <= 0` holds and stores the value otherwise, whatever it is; the
timeout setter stores 0 for `false`, stores a number that is not negative,
and throws for every other value; a call that throws leaves the options as
they were; after any sequence of calls the `timeout` option is a number that
is not negative and the `idle` option is a value for which `idle <= 0` is
false, if they were so. -/
theorem provider_setters (P : Platform) (o : ProviderOptions) (seconds : Arg)
    (calls : List SetterCall) :
    (seconds.leZero P = true → ∃ e, IdleProvider.idle P seconds o = .error e) ∧
    (seconds.leZero P = false → IdleProvider.idle P seconds o = .ok { o with idle := seconds }) ∧
    (seconds.isNumber = true → seconds.geZero = true →
      IdleProvider.timeout seconds o = .ok { o with timeout := seconds }) ∧
    IdleProvider.timeout (.bool false) o = .ok { o with timeout := .num 0 } ∧
    (seconds ≠ .bool false → (seconds.isNumber && seconds.geZero) = false →
      ∃ e, IdleProvider.timeout seconds o = .error e) ∧
    (∀ c : SetterCall, (∃ e, c.result P o = .error e) → c.apply P o = o) ∧
    (o.timeout.isNumber = true ∧ o.timeout.geZero = true → o.idle.leZero P = false →
      (configureWith P calls o).timeout.isNumber = true ∧
      (configureWith P calls o).timeout.geZero = true ∧
      (configureWith P calls o).idle.leZero P = false) := by
  refine ⟨?_, ?_, ?_, rfl, ?_, ?_, ?_⟩
  · intro h
    exact ⟨"Idle must be a value in seconds, greater than 0.", by
      simp only [IdleProvider.idle, h, if_true]⟩
  · intro h
    simp only [IdleProvider.idle, h, Bool.false_eq_true, if_false]
  · intro h1 h2
    have h0 : seconds ≠ .bool false := by
      intro e
      rw [e] at h1
      cases h1
    simp only [IdleProvider.timeout, h0, h1, h2, Bool.and_self, if_true, if_false]
  · intro h0 h
    exact ⟨"Timeout must be zero or false to disable the feature, or a positive integer (in seconds) to enable it.", by
      simp only [IdleProvider.timeout, h0, h, Bool.false_eq_true, if_false]⟩
  · rintro c ⟨e, he⟩
    simp only [SetterCall.apply, he]
  · intro hv hi
    induction calls generalizing o with
    | nil => exact ⟨hv.1, hv.2, hi⟩
    | cons c cs ih =>
      have step : (c.apply P o).timeout.isNumber = true ∧ (c.apply P o).timeout.geZero = true ∧
          (c.apply P o).idle.leZero P = false := by
        unfold SetterCall.apply
        split
        · rename_i o2 h
          cases c with
          | idle s =>
            simp only [SetterCall.result, IdleProvider.idle] at h
            split_ifs at h with hs
            cases h
            exact ⟨hv.1, hv.2, by simpa using hs⟩
          | timeout s =>
            obtain ⟨a, b, c⟩ := timeout_checked s o o2 h
            exact ⟨a, b, by rw [c]; exact hi⟩
        · exact ⟨hv.1, hv.2, hi⟩
      exact ih (c.apply P o) ⟨step.1, step.2.1⟩ step.2.2

/-- C13, the code at the failing input: on every platform the idle setter
stores `NaN`, `undefined` and `true` as the `idle` option without throwing,
and a string that is not a number where the platform compares it as `NaN`;
the timeout setter throws on each of these values.  After `timeout(false)`
and `idle(NaN)` the `idle` option is `NaN`, not a number of seconds greater
than 0. -/
theorem idle_setter_unvalidated :
    (∀ P : Platform, IdleProvider.idle P .nan {} = .ok { idle := .nan }) ∧
    (∀ P : Platform, IdleProvider.idle P .undefined {} = .ok { idle := .undefined }) ∧
    (∀ P : Platform, IdleProvider.idle P (.bool true) {} = .ok { idle := .bool true }) ∧
    IdleProvider.idle Platform.decimal (.str ['a', 'b', 'c']) {} =
      .ok { idle := .str ['a', 'b', 'c'] } ∧
    (∀ P : Platform, configureWith P [.timeout (.bool false), .idle .nan] {} =
      { idle := .nan, timeout := .num 0 }) ∧
    (∀ P : Platform, ∀ value : ℚ,
      (configureWith P [.timeout (.bool false), .idle .nan] {}).idle ≠ .num value) ∧
    (∃ e, IdleProvider.timeout .nan {} = .error e) ∧
    (∃ e, IdleProvider.timeout .undefined {} = .error e) ∧
    (∃ e, IdleProvider.timeout (.bool true) {} = .error e) ∧
    (∃ e, IdleProvider.timeout (.str ['a', 'b', 'c']) {} = .error e) :=
  ⟨fun _ => rfl, fun _ => rfl, fun _ => rfl, rfl, fun _ => rfl,
    fun _ _ h => Arg.noConfusion h,
    ⟨_, rfl⟩, ⟨_, rfl⟩, ⟨_, rfl⟩, ⟨_, rfl⟩⟩

/-! ### C12: an accepted configuration value -/

theorem changeOption_ok {α : Type} (fn : α → Options → Except String Options) (value : α)
    (w : World) (o2 : Options) (h : fn value w.options = .ok o2) :
    Idle.changeOption fn value w =
      ⟨if w.state.running then Idle.watch { Idle.unwatch w with options := o2 }
        else { Idle.unwatch w with options := o2 }, none⟩ := by
  have h' : fn value (Idle.unwatch w).options = .ok o2 := h
  simp only [Idle.changeOption, h']

theorem rearm_spec {w : World} (hw : w.WF) (o2 : Options) :
    (w.state.running = true →
      FreshRunning
        (if w.state.running then Idle.watch { Idle.unwatch w with options := o2 }
          else { Idle.unwatch w with options := o2 })) ∧
    (w.state.running = false →
      StoppedClean
        (if w.state.running then Idle.watch { Idle.unwatch w with options := o2 }
          else { Idle.unwatch w with options := o2 })) ∧
    (if w.state.running then Idle.watch { Idle.unwatch w with options := o2 }
      else { Idle.unwatch w with options := o2 }).options = o2 ∧
    (if w.state.running then Idle.watch { Idle.unwatch w with options := o2 }
      else { Idle.unwatch w with options := o2 }).now = w.now := by
  have hu : ({ Idle.unwatch w with options := o2 } : World).WF := WF_options (WF_unwatch hw) o2
  obtain ⟨h1, h2, -, h4, h5, h6⟩ := watch_spec hu
  obtain ⟨f1, f2, -, f4⟩ := watch_frame { Idle.unwatch w with options := o2 }
  refine ⟨?_, ?_, ?_, ?_⟩
  · intro hr
    rw [if_pos hr]
    refine ⟨h1, h2, ⟨_, h4, ?_⟩, h6, ?_⟩
    · rw [h5]; simp only [idleTimer, f1, f2]
    · rw [f4, storage_set_same, f1, f2]
  · intro hr
    rw [if_neg (by simp [hr])]
    exact ⟨rfl, rfl, NoTimer_cancel w.state.timeout (NoTimer_idle_of_cancel hw),
      NoTimer_countdown_of_cancel (WF_cancel w.state.idle hw),
      storage_remove_same w.storage "expiry"⟩
  · split_ifs
    · exact f1
    · rfl
  · split_ifs
    · exact f2
    · rfl

/-- What an accepted value does to the state machine and its two timers, in
every world with consistent timers: for every valid new value (idle v > 0;
timeout a number n ≥ 0, or `false`, which stores 0), the service-level
`setIdle` (resp. `setTimeout`) does not throw and stores the value; called at
time t while running it leaves the service running and not idling with
exactly one idle timer, armed for the new idleSeconds, no countdown timer, and
the expiry written for t + (idleSeconds + timeoutSeconds) seconds under the
new configuration; called while not running it leaves the service not running
and not idling, with no idle or countdown timer armed and no expiry in the
store.  The keepalive timer is not covered. -/
theorem setter_accepted (w : World) (hw : w.WF) (v : Int) (n : Int) (hv : 0 < v)
    (hn : 0 ≤ n) :
    ((Idle.setIdle v w).thrown = none ∧
      (Idle.setIdle v w).world.options = { w.options with idle := v } ∧
      (Idle.setIdle v w).world.now = w.now ∧
      (w.state.running = true → FreshRunning (Idle.setIdle v w).world) ∧
      (w.state.running = false → StoppedClean (Idle.setIdle v w).world)) ∧
    ((Idle.setTimeout (.num n) w).thrown = none ∧
      (Idle.setTimeout (.num n) w).world.options = { w.options with timeout := n } ∧
      (Idle.setTimeout (.num n) w).world.now = w.now ∧
      (w.state.running = true → FreshRunning (Idle.setTimeout (.num n) w).world) ∧
      (w.state.running = false → StoppedClean (Idle.setTimeout (.num n) w).world)) ∧
    ((Idle.setTimeout (.bool false) w).thrown = none ∧
      (Idle.setTimeout (.bool false) w).world.options = { w.options with timeout := 0 } ∧
      (Idle.setTimeout (.bool false) w).world.now = w.now ∧
      (w.state.running = true → FreshRunning (Idle.setTimeout (.bool false) w).world) ∧
      (w.state.running = false → StoppedClean (Idle.setTimeout (.bool false) w).world)) := by
  have e1 : IdleProvider.setIdle v w.options = .ok { w.options with idle := v } := by
    simp only [IdleProvider.setIdle, not_le.mpr hv, if_false]
  have e2 : IdleProvider.setTimeout (.num n) w.options = .ok { w.options with timeout := n } := by
    simp only [IdleProvider.setTimeout, hn, if_true]
  have e3 : IdleProvider.setTimeout (.bool false) w.options =
      .ok { w.options with timeout := 0 } := rfl
  refine ⟨?_, ?_, ?_⟩
  · obtain ⟨r1, r2, r3, r4⟩ := rearm_spec hw { w.options with idle := v }
    unfold Idle.setIdle
    rw [changeOption_ok _ _ _ _ e1]
    exact ⟨rfl, r3, r4, r1, r2⟩
  · obtain ⟨r1, r2, r3, r4⟩ := rearm_spec hw { w.options with timeout := n }
    unfold Idle.setTimeout
    rw [changeOption_ok _ _ _ _ e2]
    exact ⟨rfl, r3, r4, r1, r2⟩
  · obtain ⟨r1, r2, r3, r4⟩ := rearm_spec hw { w.options with timeout := 0 }
    unfold Idle.setTimeout
    rw [changeOption_ok _ _ _ _ e3]
    exact ⟨rfl, r3, r4, r1, r2⟩

/-- In the running example, at time 2000, `setIdle(10)` arms the idle timer
for time 12000 and writes the expiry of time 15000. -/
theorem setter_accepted_witness :
    (run Platform.simple [.watch, .advance 2000] exampleWorld).WF ∧ (0 : Int) < 10 ∧
    (0 : Int) ≤ 7 ∧
    (run Platform.simple [.watch, .advance 2000] exampleWorld).state.running = true ∧
    ((Idle.setIdle 10 (run Platform.simple [.watch, .advance 2000] exampleWorld)).world.intervals.filter
      (fun t => t.fn = .toggleState)).map (fun t => (t.delay, t.due)) = [(10000, 12000)] ∧
    (Idle.setIdle 10 (run Platform.simple [.watch, .advance 2000] exampleWorld)).world.storage
      "ngIdle.expiry" = some (dq :: ("1970-01-01T00:00:15.000Z".toList ++ [dq])) ∧
    FreshRunning (Idle.setIdle 10 (run Platform.simple [.watch, .advance 2000] exampleWorld)).world :=
  ⟨WF_run _ _ (WF_init _ _ _ _), by decide, by decide, by decide, by decide, by decide,
    (setter_accepted (run Platform.simple [.watch, .advance 2000] exampleWorld)
      (WF_run _ _ (WF_init _ _ _ _)) 10 7 (by decide) (by decide)).1.2.2.2.1 (by decide)⟩

/-- C12, the code at the failing input: in the example (keepalive enabled)
the service is not running after `watch(); unwatch()`; `setIdle(10)` and
`setTimeout(7)` then store the value without throwing and leave the service
not running with no expiry stored, but one timer is still armed, the
keepalive timer that `watch()` armed and `unwatch()` did not stop, and at
600000 it broadcasts Keepalive. -/
theorem setter_keepalive_armed :
    exampleWorld.options.keepalive = true ∧
    (run Platform.simple [.watch, .unwatch] exampleWorld).state.running = false ∧
    (Idle.setIdle 10 (run Platform.simple [.watch, .unwatch] exampleWorld)).thrown = none ∧
    (Idle.setIdle 10 (run Platform.simple [.watch, .unwatch] exampleWorld)).world.options.idle =
      10 ∧
    (Idle.setIdle 10 (run Platform.simple [.watch, .unwatch] exampleWorld)).world.state.running =
      false ∧
    (Idle.setIdle 10 (run Platform.simple [.watch, .unwatch] exampleWorld)).world.storage
      "ngIdle.expiry" = none ∧
    (Idle.setIdle 10 (run Platform.simple [.watch, .unwatch] exampleWorld)).world.intervals =
      [pingTimer exampleWorld] ∧
    (Idle.setTimeout (.num 7) (run Platform.simple [.watch, .unwatch] exampleWorld)).thrown =
      none ∧
    (Idle.setTimeout (.num 7)
      (run Platform.simple [.watch, .unwatch] exampleWorld)).world.state.running = false ∧
    (Idle.setTimeout (.num 7) (run Platform.simple [.watch, .unwatch] exampleWorld)).world.intervals =
      [pingTimer exampleWorld] ∧
    (run Platform.simple [.watch, .unwatch, .setIdle 10, .keepaliveTick] exampleWorld).events =
      [(600000, .Keepalive)] := by
  decide

/-! ### C14: a stored text that is not JSON -/

/-- C14, as amended: for every raw stored string that fails to deserialize as
JSON, `LocalStorage.get` does not fail and returns the raw string itself (not
the null that an absent key gives); `isExpired()` is then falsy if the raw
string is empty, and otherwise has the truth value of the comparison of the
raw string with the current date. -/
theorem get_unparsable (P : Platform) (w : World) (raw : List Char)
    (hs : w.storage ("ngIdle." ++ "expiry") = some raw) (hp : JSON.parse P raw = none) :
    LocalStorage.get P w.storage "expiry" = .str raw ∧
    Idle.isExpired P w = (!raw.isEmpty && P.lessEq (.str raw) w.now) ∧
    (raw = [] → Idle.isExpired P w = false) := by
  have hg : LocalStorage.get P w.storage "expiry" = .str raw := by
    simp only [LocalStorage.get, tryParseJson, hs, Option.getD_some, hp]
  have he : Idle.isExpired P w = (!raw.isEmpty && P.lessEq (.str raw) w.now) := by
    simp only [Idle.isExpired, Idle.getExpiry, hg, JSValue.truthy, JSValue.lessEq]
  refine ⟨hg, he, ?_⟩
  intro h
  rw [he, h]
  rfl

/-- C14, witness: the stored text `0010` in a running service. -/
theorem get_unparsable_witness :
    corruptWorld.storage ("ngIdle." ++ "expiry") = some ['0', '0', '1', '0'] ∧
    JSON.parse Platform.decimal ['0', '0', '1', '0'] = none ∧
    LocalStorage.get Platform.decimal corruptWorld.storage "expiry" = .str ['0', '0', '1', '0'] :=
  ⟨by decide, by rfl,
    (get_unparsable Platform.decimal corruptWorld ['0', '0', '1', '0'] (by decide) (by rfl)).1⟩

/-- C14, counterexample: the stored text `0010` is not JSON (a number has no
leading zero); `get` returns the string `0010`, while an absent key gives null;
the string compares as the number 10, so that `isExpired()` is true at time
4000 and the next interrupt times the running service out. -/
theorem get_unparsable_counterexample :
    JSON.parse Platform.decimal ['0', '0', '1', '0'] = none ∧
    LocalStorage.get Platform.decimal corruptWorld.storage "expiry" = .str ['0', '0', '1', '0'] ∧
    LocalStorage.get Platform.decimal (fun _ => none) "expiry" = .null ∧
    Idle.isExpired Platform.decimal corruptWorld = true ∧
    Idle.isExpired Platform.decimal exampleWorld = false ∧
    (Idle.interrupt Platform.decimal corruptWorld).events = [(4000, .IdleTimeout)] :=
  ⟨by rfl, by rfl, by rfl, by rfl, by rfl, by rfl⟩

/-! ### C20: the title of the warning -/

theorem bitLengthAux_le (fuel : Nat) : ∀ (n k : Nat), n < 2 ^ k → bitLengthAux fuel n ≤ k := by
  induction fuel with
  | zero => intro n k _; exact Nat.zero_le _
  | succ fuel ih =>
    intro n k h
    unfold bitLengthAux
    split_ifs with h0
    · exact Nat.zero_le _
    · cases k with
      | zero => simp at h; exact absurd h h0
      | succ k =>
        have : n / 2 < 2 ^ k := by
          rw [Nat.pow_succ] at h
          omega
        have := ih (n / 2) k this
        omega

theorem bitLength_le {n k : Nat} (h : n < 2 ^ k) : bitLength n ≤ k :=
  bitLengthAux_le n n k h

theorem roundHalfEven_one (n : Nat) : roundHalfEven n 1 = n := by
  simp [roundHalfEven, Nat.mod_one]

theorem roundNat_exact (n : Nat) (h : n ≤ 9007199254740992) : roundNat n = n := by
  rcases Nat.lt_or_ge n 9007199254740992 with h1 | h1
  · have hb : bitLength n ≤ 53 := bitLength_le (by norm_num; exact h1)
    unfold roundNat
    rw [Nat.sub_eq_zero_of_le hb, Nat.pow_zero, roundHalfEven_one, Nat.mul_one]
  · have : n = 9007199254740992 := Nat.le_antisymm h h1
    subst this
    decide

theorem roundDouble_exact (n : Int) (h : n.natAbs ≤ 9007199254740992) :
    roundDouble n = some n := by
  unfold roundDouble
  rw [roundNat_exact _ h]
  have : ¬ doubleLimit ≤ n.natAbs := by
    unfold doubleLimit
    omega
  rw [if_neg this]
  congr 1
  split_ifs <;> omega

theorem roundHalfEven_bounds (a b : Nat) (hb : 0 < b) :
    2 * (b * roundHalfEven a b) ≤ 2 * a + b ∧ 2 * a ≤ 2 * (b * roundHalfEven a b) + b := by
  have h1 : b * (a / b) + a % b = a := Nat.div_add_mod a b
  have h2 : a % b < b := Nat.mod_lt a hb
  have h3 : b * (a / b + 1) = b * (a / b) + b := by ring
  unfold roundHalfEven
  split_ifs
  · omega
  · rw [h3]; omega
  · omega
  · rw [h3]; omega

theorem floorQuotient_sixty (c : Nat) (hc : c ≤ 9007199254740992) :
    floorQuotient c 60 = c / 60 := by
  have key : ∀ E : Int, E ≤ 47 →
      roundHalfEven (c * 2 ^ (-(max (E - 52) (-1074))).toNat)
          (60 * 2 ^ (max (E - 52) (-1074)).toNat) *
        2 ^ (max (E - 52) (-1074)).toNat / 2 ^ (-(max (E - 52) (-1074))).toNat = c / 60 := by
    intro E hE
    have he : max (E - 52) (-1074) ≤ -5 := by omega
    generalize max (E - 52) (-1074) = e at he
    obtain ⟨k, hk⟩ : ∃ k : Nat, e = - (k : Int) := ⟨(-e).toNat, by omega⟩
    subst hk
    have hk5 : 5 ≤ k := by omega
    have e1 : (-(-(k : Int))).toNat = k := by simp
    have e2 : (-(k : Int)).toNat = 0 := by simp
    rw [e1, e2, Nat.pow_zero, Nat.mul_one, Nat.mul_one]
    have hP : 32 ≤ 2 ^ k := by
      calc 32 = 2 ^ 5 := by norm_num
        _ ≤ 2 ^ k := Nat.pow_le_pow_right (by norm_num) hk5
    generalize 2 ^ k = p at hP
    obtain ⟨b1, b2⟩ := roundHalfEven_bounds (c * p) 60 (by norm_num)
    generalize roundHalfEven (c * p) 60 = m at b1 b2
    have hc1 : 60 * (c / 60) + c % 60 = c := Nat.div_add_mod c 60
    have hr : c % 60 < 60 := Nat.mod_lt c (by norm_num)
    have hx : c * p = 60 * (c / 60 * p) + c % 60 * p := by
      conv_lhs => rw [← hc1]
      ring
    have hy : c % 60 * p ≤ 59 * p := Nat.mul_le_mul_right p (by omega)
    have hz : (c / 60).succ * p = c / 60 * p + p := by
      rw [Nat.succ_mul]
    apply Nat.div_eq_of_lt_le
    · omega
    · rw [hz]; omega
  unfold floorQuotient
  by_cases h0 : c = 0
  · rw [if_pos h0, h0]
  · rw [if_neg h0]
    by_cases h60 : 60 ≤ c
    · have hb : bitLength (c / 60) ≤ 48 := bitLength_le (by norm_num; omega)
      have := key ((bitLength (c / 60) : Int) - 1) (by omega)
      simp only [if_pos h60]
      exact this
    · have := key (- (bitLength ((60 - 1) / c) : Int)) (by omega)
      simp only [if_neg h60]
      exact this

theorem numberToString_small (s : Nat) (hs : s < 60) :
    numberToString (s : Int) = Nat.toDigits 10 s := by
  unfold numberToString
  have h1 : ¬ ((s : Int) < 0) := by omega
  have h2 : s < 10 ^ 21 := by
    calc s < 60 := hs
      _ < 10 ^ 21 := by norm_num
  simp only [h1, h2, if_true, if_false, Int.natAbs_ofNat, List.nil_append]

theorem toDigits_two : ∀ s : Nat, s < 60 →
    (Nat.toDigits 10 s).length ≤ 2 ∧
    (List.replicate ((2 - ((Nat.toDigits 10 s).length : Int) + 1).toNat - 1) ['0']).flatten ++
      Nat.toDigits 10 s = [Nat.digitChar (s / 10), Nat.digitChar (s % 10)] := by
  decide

theorem padLeft_two (s : Nat) (hs : s < 60) :
    0 ≤ (2 : Int) - (numberToString (s : Int)).length + 1 ∧
    padLeft (s : Int) 2 none = some [Nat.digitChar (s / 10), Nat.digitChar (s % 10)] := by
  obtain ⟨h1, h2⟩ := toDigits_two s hs
  have h3 : ¬ ((2 : Int) - ((Nat.toDigits 10 s).length : Int) + 1 < 0) := by omega
  refine ⟨?_, ?_⟩
  · rw [numberToString_small s hs]; omega
  · unfold padLeft arrayJoin
    simp only [numberToString_small s hs, h3, if_false, Option.map_some', h2]

theorem remaining_eq (c : Nat) (hc : c ≤ 9007199254740992) :
    Title.remaining c = some
      { totalSeconds := c
        minutes := c / 60
        seconds := [Nat.digitChar (c % 60 / 10), Nat.digitChar (c % 60 % 10)] } := by
  have hm : c / 60 * 60 ≤ c := Nat.div_mul_le_self c 60
  have hp : roundDouble (((c / 60 : Nat) : Int) * 60) = some (((c / 60 * 60 : Nat) : Int)) := by
    have := roundDouble_exact (((c / 60 * 60 : Nat) : Int)) (by rw [Int.natAbs_ofNat]; omega)
    rw [← this]
    congr 1
  have hd : (c : Int) - ((c / 60 * 60 : Nat) : Int) = ((c % 60 : Nat) : Int) := by omega
  have hs : roundDouble ((c : Int) - ((c / 60 * 60 : Nat) : Int)) = some ((c % 60 : Nat) : Int) := by
    rw [hd]
    exact roundDouble_exact _ (by rw [Int.natAbs_ofNat]; omega)
  unfold Title.remaining
  simp only [floorQuotient_sixty c hc, hp, hs,
    (padLeft_two (c % 60) (Nat.mod_lt c (by norm_num))).2, Option.map_some']

/-- C20, as amended: for every non-negative integer countdown c up to 2^53
(9007199254740992; up to there every integer is a double and the quotient,
product and difference of the code are exact), `Title.setAsIdle` computes
minutes = floor(c / 60) and, without `padLeft` failing (its repeat count
2 - len + 1 is not negative), a seconds string of exactly two decimal digits
that denotes c - 60 * minutes, a value from 0 to 59, so that
60 * minutes + seconds = c. -/
theorem setAsIdle_remaining (c : Nat) (hc : c ≤ 9007199254740992) :
    0 ≤ (2 : Int) - (numberToString ((c : Int) - ((c / 60 * 60 : Nat) : Int))).length + 1 ∧
    ∃ r, Title.remaining c = some r ∧ r.totalSeconds = c ∧ r.minutes = c / 60 ∧
      r.seconds.length = 2 ∧ r.seconds.all isDigit = true ∧
      digitsValue r.seconds = c - 60 * r.minutes ∧ digitsValue r.seconds < 60 ∧
      60 * r.minutes + digitsValue r.seconds = c := by
  have hs : c % 60 < 60 := Nat.mod_lt c (by norm_num)
  have hd : (c : Int) - ((c / 60 * 60 : Nat) : Int) = ((c % 60 : Nat) : Int) := by omega
  have a := digitChar_facts (c % 60 / 10)
  have b := digitChar_facts (c % 60)
  rw [Nat.mod_eq_of_lt (by omega : c % 60 / 10 < 10)] at a
  have e : digitsValue [Nat.digitChar (c % 60 / 10), Nat.digitChar (c % 60 % 10)] =
      10 * (c % 60 / 10) + c % 60 % 10 := by
    simp [digitsValue, a.2.1, b.2.1]
  refine ⟨?_, _, remaining_eq c hc, rfl, rfl, rfl, ?_, ?_⟩
  · rw [hd]
    exact (padLeft_two (c % 60) hs).1
  · simp [a.1, b.1]
  · simp only [e]
    omega

/-- C20, witness: a countdown of 125 seconds is shown as 2 minutes and the
seconds `05`. -/
theorem setAsIdle_remaining_witness :
    (125 : Nat) ≤ 9007199254740992 ∧
    Title.remaining 125 = some { totalSeconds := 125, minutes := 2, seconds := ['0', '5'] } ∧
    ∃ r, Title.remaining 125 = some r ∧ r.totalSeconds = 125 ∧ r.minutes = 125 / 60 ∧
      r.seconds.length = 2 ∧ r.seconds.all isDigit = true ∧
      digitsValue r.seconds = 125 - 60 * r.minutes ∧ digitsValue r.seconds < 60 ∧
      60 * r.minutes + digitsValue r.seconds = 125 :=
  ⟨by decide, by decide, (setAsIdle_remaining 125 (by decide)).2⟩

/-- C20, counterexample: three integers above 2^53 that are doubles.  For
36028963009686424 the code computes the seconds `08`, where the remainder
of the division by 60 is 4; for 67566063508944776 it computes the seconds
`-8`; for 1080866014228950144 the difference is -128 and `padLeft` throws. -/
theorem setAsIdle_remaining_counterexample :
    roundNat 36028963009686424 = 36028963009686424 ∧
    Title.remaining 36028963009686424 = some
      { totalSeconds := 36028963009686424, minutes := 600482716828107, seconds := ['0', '8'] } ∧
    36028963009686424 % 60 = 4 ∧
    60 * 600482716828107 + 8 ≠ 36028963009686424 ∧
    roundNat 67566063508944776 = 67566063508944776 ∧
    Title.remaining 67566063508944776 = some
      { totalSeconds := 67566063508944776, minutes := 1126101058482413, seconds := ['-', '8'] } ∧
    roundNat 1080866014228950144 = 1080866014228950144 ∧
    Title.remaining 1080866014228950144 = none := by
  decide

/-! ### C16: the timer of the `Keepalive` service -/

theorem Keepalive_start_eq (w : World) :
    Keepalive.start w =
    { w with
      intervals := cancelIn w.keepalive.ping w.intervals ++ [pingTimer w]
      nextId := w.nextId + 1
      keepalive := { ping := some w.nextId } } := rfl

theorem Keepalive_ping_eq (w : World) :
    Keepalive.ping w =
    { w with
      events := w.events ++ [(w.now, .Keepalive)]
      requests :=
        match w.keepaliveOptions.http with
        | some request => w.requests ++ [request]
        | none => w.requests
      pending :=
        match w.keepaliveOptions.http with
        | some request => w.pending ++ [request]
        | none => w.pending } := rfl

theorem WF_Keepalive_start {w : World} (hw : w.WF) : (Keepalive.start w).WF := by
  obtain ⟨h2, h3, h4, h1⟩ := hw
  rw [Keepalive_start_eq]
  refine ⟨?_, ?_, ?_, ?_⟩
  · intro h hh
    have := h2 h hh
    simp only; omega
  · intro h hh
    have := h3 h hh
    simp only; omega
  · intro h hh
    simp only [Option.some.injEq] at hh
    simp only; omega
  · intro t ht
    simp only [mem_cancelIn, List.mem_append, List.mem_singleton] at ht
    rcases ht with hm | rfl
    · have a := h1 t hm.1
      have b := hm.2
      refine Interval.ok_of a (by simp only; omega) ?_ ?_ ?_ <;> intro hf hr <;> simp_all
    · simp [Interval.ok, pingTimer]

theorem pingTimers_cancel {w : World} (hw : w.WF) :
    (cancelIn w.keepalive.ping w.intervals).filter (fun t => t.fn = .ping) = [] := by
  rw [List.filter_eq_nil_iff]
  intro t ht
  obtain ⟨hm, hne⟩ := mem_cancelIn.mp ht
  obtain ⟨-, ⟨f, -, -⟩ | ⟨f, -, -⟩ | ⟨-, r⟩⟩ := hw.2.2.2 t hm
  · simp [f]
  · simp [f]
  · exact absurd r hne

theorem pingTimers_start {w : World} (hw : w.WF) :
    pingTimers (Keepalive.start w) = [pingTimer w] := by
  unfold pingTimers
  rw [Keepalive_start_eq]
  simp only [List.filter_append, pingTimers_cancel hw]
  simp [pingTimer]

theorem pingTimers_stop {w : World} (hw : w.WF) : pingTimers (Keepalive.stop w) = [] :=
  pingTimers_cancel hw

theorem WF_Keepalive_step (op : KeepaliveOp) {w : World} (hw : w.WF) :
    (Keepalive.step op w).WF := by
  cases op with
  | start => exact WF_Keepalive_start hw
  | stop => exact WF_cancel _ hw
  | ping => exact hw

theorem pingTimers_step (op : KeepaliveOp) {w : World} (hw : w.WF)
    (h : (pingTimers w).length ≤ 1) : (pingTimers (Keepalive.step op w)).length ≤ 1 := by
  cases op with
  | start =>
    show (pingTimers (Keepalive.start w)).length ≤ 1
    rw [pingTimers_start hw]; simp
  | stop =>
    show (pingTimers (Keepalive.stop w)).length ≤ 1
    rw [pingTimers_stop hw]; simp
  | ping => exact h

theorem Keepalive_run_spec (ops : List KeepaliveOp) {w : World} (hw : w.WF)
    (h : (pingTimers w).length ≤ 1) :
    (Keepalive.run ops w).WF ∧ (pingTimers (Keepalive.run ops w)).length ≤ 1 := by
  induction ops generalizing w with
  | nil => exact ⟨hw, h⟩
  | cons op ops ih => exact ih (WF_Keepalive_step op hw) (pingTimers_step op hw h)

/-- C16: after every sequence of `start()`, `stop()` and `ping()` calls on a
newly created service (or on any world with consistent timers and at most one
keepalive timer) at most one keepalive timer is armed; a further `start()`
leaves exactly one, the one it arms (so does `start(); start()`), a further
`stop()` leaves none, and a further `ping()` broadcasts one Keepalive event
and leaves the armed timers as they are. -/
theorem keepalive_single_timer (w : World) (hw : w.WF) (h : (pingTimers w).length ≤ 1)
    (ops : List KeepaliveOp) :
    (pingTimers (Keepalive.run ops w)).length ≤ 1 ∧
    pingTimers (Keepalive.start (Keepalive.run ops w)) = [pingTimer (Keepalive.run ops w)] ∧
    (pingTimers (Keepalive.start (Keepalive.start (Keepalive.run ops w)))).length = 1 ∧
    pingTimers (Keepalive.stop (Keepalive.run ops w)) = [] ∧
    (Keepalive.ping (Keepalive.run ops w)).events =
      (Keepalive.run ops w).events ++ [((Keepalive.run ops w).now, .Keepalive)] ∧
    (Keepalive.ping (Keepalive.run ops w)).intervals = (Keepalive.run ops w).intervals := by
  obtain ⟨h1, h2⟩ := Keepalive_run_spec ops hw h
  refine ⟨h2, pingTimers_start h1, ?_, pingTimers_stop h1, rfl, rfl⟩
  rw [pingTimers_start (WF_Keepalive_start h1)]
  rfl

/-- C16, witness: `start(); start(); ping(); start()` on a new service leaves
the one timer of the last `start()`. -/
theorem keepalive_single_timer_witness :
    exampleWorld.WF ∧ (pingTimers exampleWorld).length ≤ 1 ∧
    (Keepalive.run [.start, .start, .ping, .start] exampleWorld).intervals =
      [{ id := 2, fn := .ping, delay := 600000, count := 0, iteration := 0, due := 600000 }] ∧
    (pingTimers (Keepalive.run [.start, .start, .ping, .start] exampleWorld)).length ≤ 1 :=
  ⟨WF_init _ _ _ _, by decide, by decide,
    (keepalive_single_timer exampleWorld (WF_init _ _ _ _) (by decide)
      [.start, .start, .ping, .start]).1⟩

/-! ### C15: the keepalive timer and the state of the service -/

/-- C15, the code at the failing input: in the example (keepalive enabled),
after `watch()` and `unwatch()` the service is not running and the keepalive
timer armed by `watch()` is still armed; `unwatch()` has not called
`stopKeepalive()`, which `timeout()` and the idle start do. -/
theorem keepalive_armed_after_unwatch :
    exampleWorld.options.keepalive = true ∧
    (run Platform.simple [.watch, .unwatch] exampleWorld).state.running = false ∧
    (run Platform.simple [.watch, .unwatch] exampleWorld).state.idling = false ∧
    (run Platform.simple [.watch, .unwatch] exampleWorld).intervals = [pingTimer exampleWorld] ∧
    (run Platform.simple [.watch, .unwatch, .keepaliveTick] exampleWorld).events =
      [(600000, .Keepalive)] ∧
    (run Platform.simple [.watch, .idleFire, .countdownTick, .countdownTick, .countdownTick]
      exampleWorld).intervals = [] ∧
    (run Platform.simple [.watch, .idleFire] exampleWorld).intervals.filter
      (fun t => t.fn = .ping) = [] := by
  decide

/-! ### Distinct timer ids, and keepalive timers only when enabled -/

theorem DistinctIds_cancelIn (h : Option Nat) {l : List Interval} (hd : DistinctIds l) :
    DistinctIds (cancelIn h l) :=
  List.Pairwise.sublist (List.filter_sublist l) hd

theorem DistinctIds_snoc {l : List Interval} {t : Interval} (hd : DistinctIds l)
    (hn : ∀ a ∈ l, a.id ≠ t.id) : DistinctIds (l ++ [t]) := by
  unfold DistinctIds
  rw [List.pairwise_append]
  refine ⟨hd, List.pairwise_singleton _ _, ?_⟩
  intro a ha b hb
  rw [List.mem_singleton] at hb
  rw [hb]
  exact hn a ha

theorem DistinctIds_stopped {w : World} (hd : DistinctIds w.intervals) :
    DistinctIds (stoppedTimers w) := by
  unfold stoppedTimers
  split_ifs
  · exact DistinctIds_cancelIn _ hd
  · exact hd

theorem Tidy_cancel {w : World} (h : Option Nat) (hw : w.Tidy) : (interval.cancel h w).Tidy :=
  ⟨WF_cancel h hw.1, DistinctIds_cancelIn h hw.2.1,
    fun t ht hf => hw.2.2 t (mem_cancelIn.mp ht).1 hf⟩

theorem Tidy_timeout {w : World} (hw : w.Tidy) : (Idle.timeout w).Tidy := by
  refine ⟨WF_timeout hw.1, ?_, ?_⟩
  · rw [timeout_eq]
    exact DistinctIds_cancelIn _ (DistinctIds_cancelIn _ (DistinctIds_stopped hw.2.1))
  · rw [timeout_eq]
    intro t ht hf
    simp only [mem_cancelIn, mem_stoppedTimers] at ht
    exact hw.2.2 t ht.1.1.1 hf

theorem Tidy_countdown {w : World} (hw : w.Tidy) : (Idle.countdown w).Tidy := by
  unfold Idle.countdown
  split
  · exact Tidy_timeout hw
  · split
    · exact Tidy_timeout hw
    · exact hw

theorem Tidy_startKeepalive {w : World} (hw : w.Tidy) : (Idle.startKeepalive w).Tidy := by
  refine ⟨WF_startKeepalive hw.1, ?_, ?_⟩
  · cases hk : w.options.keepalive
    · rw [startKeepalive_off w hk]; exact hw.2.1
    · rw [startKeepalive_on w hk]
      refine DistinctIds_snoc (DistinctIds_cancelIn _ hw.2.1) ?_
      intro a ha
      exact Nat.ne_of_lt (hw.1.2.2.2 a (mem_cancelIn.mp ha).1).1
  · cases hk : w.options.keepalive
    · rw [startKeepalive_off w hk]; exact hw.2.2
    · rw [startKeepalive_on w hk]
      intro t _ _
      exact hk

theorem Tidy_toggleState_start {w : World} (hw : w.Tidy) (hi : w.state.idling = false) :
    (Idle.toggleState w).Tidy := by
  have hlt : ∀ a ∈ stoppedTimers w, a.id ≠ w.nextId := fun a ha =>
    Nat.ne_of_lt (hw.1.2.2.2 a (mem_stoppedTimers.mp ha).1).1
  refine ⟨WF_toggleState_start hw.1 hi, ?_, ?_⟩
  · rcases lt_trichotomy w.options.timeout 0 with ht | ht | ht
    · rw [toggleState_start_neg w hi ht]
      refine DistinctIds_cancelIn _ (DistinctIds_snoc (DistinctIds_cancelIn _
        (DistinctIds_cancelIn _ (DistinctIds_stopped (DistinctIds_stopped hw.2.1)))) ?_)
      intro a ha
      simp only [mem_cancelIn, mem_stoppedTimers] at ha
      exact Nat.ne_of_lt (hw.1.2.2.2 a ha.1.1.1.1).1
    · rw [toggleState_start_zero w hi ht]
      exact DistinctIds_cancelIn _ (DistinctIds_stopped hw.2.1)
    · rw [toggleState_start w hi ht]
      exact DistinctIds_cancelIn _ (DistinctIds_snoc (DistinctIds_stopped hw.2.1) hlt)
  · rcases lt_trichotomy w.options.timeout 0 with ht | ht | ht
    · rw [toggleState_start_neg w hi ht]
      intro t htm hf
      simp only [mem_cancelIn, List.mem_append, mem_stoppedTimers, List.mem_singleton] at htm
      rcases htm.1 with hm | rfl
      · exact hw.2.2 t hm.1.1.1.1 hf
      · simp [countdownTimer] at hf
    · rw [toggleState_start_zero w hi ht]
      intro t htm hf
      simp only [mem_cancelIn, mem_stoppedTimers] at htm
      exact hw.2.2 t htm.1.1 hf
    · rw [toggleState_start w hi ht]
      intro t htm hf
      simp only [mem_cancelIn, List.mem_append, mem_stoppedTimers, List.mem_singleton] at htm
      rcases htm.1 with hm | rfl
      · exact hw.2.2 t hm.1 hf
      · simp [countdownTimer] at hf

theorem Tidy_toggleState_end {w : World} (hw : w.Tidy) (hi : w.state.idling = true)
    (hc : NoTimer .countdown w) : (Idle.toggleState w).Tidy := by
  refine ⟨WF_toggleState_end hw.1 hi hc, ?_⟩
  rw [toggleState_end w hi]
  have h0 : ({ w with
      state := { w.state with idling := false }
      events := w.events ++ [(w.now, .IdleEnd)] } : World).WF := by
    obtain ⟨h2, h3, h4, h1⟩ := hw.1
    refine ⟨h2, h3, h4, ?_⟩
    intro t ht
    have a := h1 t ht
    have b := hc t ht
    refine Interval.ok_of a (by simp only; omega) ?_ ?_ ?_ <;> intro hf hr <;> simp_all
  have h := Tidy_cancel w.state.idle (Tidy_startKeepalive ⟨h0, hw.2.1, hw.2.2⟩)
  exact h.2

theorem Tidy_watchReset {w : World} (hw : w.Tidy) : (watchReset w).Tidy := by
  obtain ⟨-, -, h3⟩ := watchCleared_spec hw.1
  have hc : (watchCleared w).Tidy := Tidy_cancel w.state.timeout (Tidy_cancel w.state.idle hw)
  rw [watchReset_eq]
  split_ifs with hi hr
  · exact Tidy_toggleState_end hc hi h3
  · exact Tidy_startKeepalive hc
  · exact hc

theorem Tidy_watch {w : World} (hw : w.Tidy) : (Idle.watch w).Tidy := by
  have hr := Tidy_watchReset hw
  refine ⟨WF_watch hw.1, ?_, ?_⟩
  · rw [watch_eq]
    refine DistinctIds_snoc hr.2.1 ?_
    intro a ha
    exact Nat.ne_of_lt (hr.1.2.2.2 a ha).1
  · rw [watch_eq]
    intro t ht hf
    simp only [List.mem_append, List.mem_singleton] at ht
    rcases ht with hm | rfl
    · exact hr.2.2 t hm hf
    · simp [idleTimer] at hf

theorem Tidy_unwatch {w : World} (hw : w.Tidy) : (Idle.unwatch w).Tidy := by
  refine ⟨WF_unwatch hw.1, ?_, ?_⟩
  · rw [unwatch_eq]
    exact DistinctIds_cancelIn _ (DistinctIds_cancelIn _ hw.2.1)
  · rw [unwatch_eq]
    intro t ht hf
    exact hw.2.2 t (mem_cancelIn.mp (mem_cancelIn.mp ht).1).1 hf

theorem Tidy_interrupt (P : Platform) {w : World} (hw : w.Tidy) : (Idle.interrupt P w).Tidy := by
  unfold Idle.interrupt
  split_ifs
  · exact hw
  · exact Tidy_timeout hw
  · exact Tidy_watch hw
  · exact hw

theorem Tidy_options {w : World} (hw : w.Tidy) (o : Options)
    (hk : o.keepalive = w.options.keepalive) : ({ w with options := o } : World).Tidy :=
  ⟨hw.1, hw.2.1, fun t ht hf => hk.trans (hw.2.2 t ht hf)⟩

theorem setIdle_keepalive (s : Int) (o o2 : Options) (h : IdleProvider.setIdle s o = .ok o2) :
    o2.keepalive = o.keepalive ∧ o2.timeout = o.timeout := by
  unfold IdleProvider.setIdle at h
  split_ifs at h
  cases h
  exact ⟨rfl, rfl⟩

theorem setTimeout_keepalive (a : TimeoutArg) (o o2 : Options)
    (h : IdleProvider.setTimeout a o = .ok o2) : o2.keepalive = o.keepalive ∧ 0 ≤ o2.timeout := by
  unfold IdleProvider.setTimeout at h
  split at h
  · cases h; exact ⟨rfl, le_refl _⟩
  · split_ifs at h with hn
    cases h
    exact ⟨rfl, hn⟩
  · cases h

theorem Tidy_changeOption {α : Type} (fn : α → Options → Except String Options) (value : α)
    (hfn : ∀ o o2, fn value o = .ok o2 → o2.keepalive = o.keepalive) {w : World}
    (hw : w.Tidy) : (Idle.changeOption fn value w).world.Tidy := by
  unfold Idle.changeOption
  simp only
  split
  · exact Tidy_unwatch hw
  · rename_i o2 h
    have hk := hfn _ _ h
    split_ifs
    · exact Tidy_watch (Tidy_options (Tidy_unwatch hw) _ hk)
    · exact Tidy_options (Tidy_unwatch hw) _ hk

theorem Tidy_firedWorld {w : World} (hw : w.Tidy) (t : Interval) : (firedWorld w t).Tidy := by
  refine ⟨WF_firedWorld hw.1 t, ?_, ?_⟩
  · simp only [firedWorld]
    split_ifs
    · exact DistinctIds_cancelIn _ hw.2.1
    · unfold DistinctIds
      rw [List.pairwise_map]
      refine List.Pairwise.imp ?_ hw.2.1
      intro a b hab
      split_ifs <;> exact hab
  · intro x hx hf
    obtain ⟨y, hy, -, hfn⟩ := mem_firedWorld hx
    exact hw.2.2 y hy (hfn.trans hf)

theorem Tidy_fire {w : World} (hw : w.Tidy) (id : Nat) : (fire id w).Tidy := by
  cases h : w.intervals.find? (fun t => t.id = id) with
  | none => rw [fire_none id w h]; exact hw
  | some t =>
    rw [fire_some id w t h]
    have hm : t ∈ w.intervals := List.mem_of_find?_eq_some h
    have hf := Tidy_firedWorld hw t
    cases hfn : t.fn with
    | toggleState =>
      obtain ⟨-, ⟨-, -, i⟩ | ⟨f, -, -⟩ | ⟨f, -⟩⟩ := hw.1.2.2.2 t hm
      · exact Tidy_toggleState_start hf i
      · rw [hfn] at f; cases f
      · rw [hfn] at f; cases f
    | countdown => exact Tidy_countdown hf
    | ping => exact hf

theorem Tidy_step (P : Platform) (op : Op) {w : World} (hw : w.Tidy) : (step P op w).Tidy := by
  cases op with
  | watch => exact Tidy_watch hw
  | unwatch => exact Tidy_unwatch hw
  | interrupt => exact Tidy_interrupt P hw
  | setIdle s => exact Tidy_changeOption _ _ (fun o o2 h => (setIdle_keepalive s o o2 h).1) hw
  | setTimeout s =>
    exact Tidy_changeOption _ _ (fun o o2 h => (setTimeout_keepalive s o o2 h).1) hw
  | idleFire =>
    simp only [step, idleFire]
    split
    · exact Tidy_fire hw _
    · exact hw
  | countdownTick =>
    simp only [step, countdownTick]
    split
    · exact Tidy_fire hw _
    · exact hw
  | keepaliveTick =>
    simp only [step, keepaliveTick]
    split
    · exact Tidy_fire hw _
    · exact hw
  | advance t => exact hw
  | respond data status =>
    show (respond data status w).Tidy
    unfold respond
    split
    · exact hw
    · exact hw

theorem Tidy_run (P : Platform) (ops : List Op) {w : World} (hw : w.Tidy) :
    (run P ops w).Tidy := by
  induction ops generalizing w with
  | nil => exact hw
  | cons op ops ih => exact ih (Tidy_step P op hw)

theorem Tidy_init (options : Options) (keepaliveOptions : KeepaliveOptions) (storage : Storage)
    (now : Int) : (World.init options keepaliveOptions storage now).Tidy :=
  ⟨WF_init _ _ _ _, List.Pairwise.nil, fun t ht => by simp [World.init] at ht⟩

theorem Reachable.tidy {P : Platform} {w : World} (h : Reachable P w) : w.Tidy := by
  obtain ⟨o, k, s, n, ops, rfl⟩ := h
  exact Tidy_run P ops (Tidy_init o k s n)

/-! ### C11: the timeout is terminal -/

theorem timeout_intervals {w : World} (hw : w.Tidy) : (Idle.timeout w).intervals = [] := by
  rw [timeout_eq]
  rw [List.eq_nil_iff_forall_not_mem]
  intro t ht
  simp only [mem_cancelIn, mem_stoppedTimers] at ht
  obtain ⟨⟨⟨hm, hk⟩, hi⟩, hc⟩ := ht
  obtain ⟨-, ⟨-, r, -⟩ | ⟨-, r, -⟩ | ⟨f, r⟩⟩ := hw.1.2.2.2 t hm
  · exact hi r
  · exact hc r
  · exact hk (hw.2.2 t hm f) r

theorem fire_nil (id : Nat) (w : World) (h : w.intervals = []) : fire id w = w :=
  fire_none id w (by rw [h]; rfl)

theorem quiet_step (P : Platform) (op : Op) (hop : op ≠ .watch) (w : World)
    (hr : w.state.running = false) (hi : w.intervals = []) :
    (step P op w).state.running = false ∧ (step P op w).intervals = [] ∧
    ∃ rs, (step P op w).events = w.events ++ rs ∧
      rs.all (fun e => e.2.isResponse) = true ∧
      rs.length + (step P op w).pending.length = w.pending.length ∧
      rs.length ≤ (if op.isResponse then 1 else 0) := by
  have same : ∀ v : World, v.state.running = false → v.intervals = [] → v.events = w.events →
      v.pending = w.pending → ¬ op.isResponse = true →
      v.state.running = false ∧ v.intervals = [] ∧
      ∃ rs, v.events = w.events ++ rs ∧ rs.all (fun e => e.2.isResponse) = true ∧
        rs.length + v.pending.length = w.pending.length ∧
        rs.length ≤ (if op.isResponse then 1 else 0) := by
    intro v h1 h2 h3 h4 h5
    refine ⟨h1, h2, [], ?_, rfl, ?_, ?_⟩
    · rw [h3, List.append_nil]
    · rw [h4]; simp
    · simp
  have hu : (Idle.unwatch w).state.running = false ∧ (Idle.unwatch w).intervals = [] ∧
      (Idle.unwatch w).events = w.events ∧ (Idle.unwatch w).pending = w.pending := by
    rw [unwatch_eq]
    refine ⟨rfl, ?_, rfl, rfl⟩
    simp only [hi, cancelIn, List.filter_nil]
  have hc : ∀ {α : Type} (fn : α → Options → Except String Options) (value : α),
      (Idle.changeOption fn value w).world.state.running = false ∧
      (Idle.changeOption fn value w).world.intervals = [] ∧
      (Idle.changeOption fn value w).world.events = w.events ∧
      (Idle.changeOption fn value w).world.pending = w.pending := by
    intro α fn value
    unfold Idle.changeOption
    simp only [hr]
    split
    · exact hu
    · exact hu
  cases op with
  | watch => exact absurd rfl hop
  | unwatch => exact same _ hu.1 hu.2.1 hu.2.2.1 hu.2.2.2 (by simp [Op.isResponse])
  | interrupt =>
    have : Idle.interrupt P w = w := by simp [Idle.interrupt, hr]
    refine same _ ?_ ?_ ?_ ?_ (by simp [Op.isResponse])
    · show (Idle.interrupt P w).state.running = false
      rw [this]; exact hr
    · show (Idle.interrupt P w).intervals = []
      rw [this]; exact hi
    · show (Idle.interrupt P w).events = w.events
      rw [this]
    · show (Idle.interrupt P w).pending = w.pending
      rw [this]
  | setIdle s =>
    obtain ⟨a, b, c, d⟩ := hc IdleProvider.setIdle s
    exact same _ a b c d (by simp [Op.isResponse])
  | setTimeout s =>
    obtain ⟨a, b, c, d⟩ := hc IdleProvider.setTimeout s
    exact same _ a b c d (by simp [Op.isResponse])
  | idleFire =>
    have : step P .idleFire w = w := by
      simp only [step, idleFire]
      split
      · exact fire_nil _ w hi
      · rfl
    rw [this]
    exact same w hr hi rfl rfl (by simp [Op.isResponse])
  | countdownTick =>
    have : step P .countdownTick w = w := by
      simp only [step, countdownTick]
      split
      · exact fire_nil _ w hi
      · rfl
    rw [this]
    exact same w hr hi rfl rfl (by simp [Op.isResponse])
  | keepaliveTick =>
    have : step P .keepaliveTick w = w := by
      simp only [step, keepaliveTick]
      split
      · exact fire_nil _ w hi
      · rfl
    rw [this]
    exact same w hr hi rfl rfl (by simp [Op.isResponse])
  | advance t => exact same _ hr hi rfl rfl (by simp [Op.isResponse])
  | respond data status =>
    show (respond data status w).state.running = false ∧ (respond data status w).intervals = [] ∧
      ∃ rs, (respond data status w).events = w.events ++ rs ∧
        rs.all (fun e => e.2.isResponse) = true ∧
        rs.length + (respond data status w).pending.length = w.pending.length ∧
        rs.length ≤ 1
    unfold respond
    cases hp : w.pending with
    | nil =>
      refine ⟨hr, hi, [], ?_, rfl, ?_, ?_⟩
      · simp
      · simp [hp]
      · simp
    | cons r rest =>
      refine ⟨hr, hi, [(w.now, .KeepaliveResponse data status)], rfl, rfl, ?_, ?_⟩
      · simp [Keepalive.handleResponse, broadcast, Nat.add_comm]
      · simp

theorem quiet_run (P : Platform) (ops : List Op) (hops : ∀ op ∈ ops, op ≠ .watch) (w : World)
    (hr : w.state.running = false) (hi : w.intervals = []) :
    ∃ rs, (run P ops w).events = w.events ++ rs ∧
      rs.all (fun e => e.2.isResponse) = true ∧
      rs.length + (run P ops w).pending.length = w.pending.length ∧
      rs.length ≤ (ops.filter Op.isResponse).length := by
  induction ops generalizing w with
  | nil => exact ⟨[], by simp [run], rfl, by simp [run], by simp⟩
  | cons op ops ih =>
    obtain ⟨h1, h2, r1, e1, a1, p1, c1⟩ :=
      quiet_step P op (hops op (List.mem_cons_self _ _)) w hr hi
    obtain ⟨r2, e2, a2, p2, c2⟩ :=
      ih (fun o ho => hops o (List.mem_cons_of_mem _ ho)) (step P op w) h1 h2
    refine ⟨r1 ++ r2, ?_, ?_, ?_, ?_⟩
    · show (run P ops (step P op w)).events = w.events ++ (r1 ++ r2)
      rw [e2, e1, List.append_assoc]
    · rw [List.all_append, a1, a2]; rfl
    · show (r1 ++ r2).length + (run P ops (step P op w)).pending.length = w.pending.length
      rw [List.length_append]
      omega
    · rw [List.length_append, List.filter_cons]
      split_ifs with hq
      · rw [if_pos hq] at c1
        simp only [List.length_cons]
        omega
      · rw [if_neg hq] at c1
        omega

/-- C11, as amended: in every world with tidy timers (every reachable world is
so, `Reachable.tidy`) the timeout path leaves idling = true, running = false
and countdown = 0, leaves no timer armed at all (no idle, countdown or
keepalive timer) and broadcasts exactly one event, IdleTimeout; in every world
with running = false `interrupt()` changes nothing and broadcasts nothing,
whatever autoResume and the stored expiry are; and after the timeout a
sequence of operations without `watch()` broadcasts nothing but
KeepaliveResponse events, one for each response that arrives to a keepalive
request sent before the timeout, so at most as many as requests were waiting
and as responses arrive: none when no response arrives. -/
theorem timeout_terminal (P : Platform) (w : World) (hw : w.Tidy) :
    (Idle.timeout w).state.idling = true ∧
    (Idle.timeout w).state.running = false ∧
    (Idle.timeout w).state.countdown = some 0 ∧
    (Idle.timeout w).intervals = [] ∧
    (Idle.timeout w).events = w.events ++ [(w.now, .IdleTimeout)] ∧
    (∀ v : World, v.state.running = false → Idle.interrupt P v = v) ∧
    (∀ ops : List Op, (∀ op ∈ ops, op ≠ .watch) →
      ∃ rs, (run P ops (Idle.timeout w)).events = (Idle.timeout w).events ++ rs ∧
        rs.all (fun e => e.2.isResponse) = true ∧
        rs.length + (run P ops (Idle.timeout w)).pending.length = w.pending.length ∧
        rs.length ≤ (ops.filter Op.isResponse).length) ∧
    (∀ ops : List Op, (∀ op ∈ ops, op ≠ .watch ∧ op.isResponse = false) →
      (run P ops (Idle.timeout w)).events = (Idle.timeout w).events) := by
  have hi := timeout_intervals hw
  have hq : ∀ ops : List Op, (∀ op ∈ ops, op ≠ .watch) →
      ∃ rs, (run P ops (Idle.timeout w)).events = (Idle.timeout w).events ++ rs ∧
        rs.all (fun e => e.2.isResponse) = true ∧
        rs.length + (run P ops (Idle.timeout w)).pending.length = w.pending.length ∧
        rs.length ≤ (ops.filter Op.isResponse).length := by
    intro ops hops
    have h := quiet_run P ops hops _ (by rw [timeout_eq]) hi
    have hp : (Idle.timeout w).pending = w.pending := by rw [timeout_eq]
    rw [hp] at h
    exact h
  refine ⟨?_, ?_, ?_, hi, ?_, ?_, hq, ?_⟩
  · rw [timeout_eq]
  · rw [timeout_eq]
  · rw [timeout_eq]
  · rw [timeout_eq]
  · intro v hv
    simp [Idle.interrupt, hv]
  · intro ops hops
    obtain ⟨rs, e, -, -, c⟩ := hq ops (fun op h => (hops op h).1)
    have hf : ops.filter Op.isResponse = [] := by
      rw [List.filter_eq_nil_iff]
      intro op h
      rw [(hops op h).2]
      decide
    rw [hf, List.length_nil, Nat.le_zero, List.length_eq_zero] at c
    rw [e, c, List.append_nil]

/-- C11, witness: the example with a keepalive request, timed out by hand in
its second warning phase while the request of the resume waits for its
response; an interrupt, a change of option, the ticks and an `unwatch()` after
the timeout broadcast nothing, and the response that arrives broadcasts
KeepaliveResponse. -/
theorem timeout_terminal_witness :
    (run Platform.simple [.watch, .idleFire, .interrupt, .idleFire] pingWorld).Tidy ∧
    (run Platform.simple [.watch, .idleFire, .interrupt, .idleFire] pingWorld).pending.length = 1 ∧
    ((run Platform.simple [.interrupt, .setIdle 7, .idleFire, .countdownTick, .keepaliveTick,
        .unwatch, .respond "pong" 200, .interrupt, .respond "pong" 200]
      (Idle.timeout (run Platform.simple [.watch, .idleFire, .interrupt, .idleFire]
        pingWorld))).events.drop 2).map (fun e => e.2) =
      [.IdleEnd, .Keepalive, .IdleStart, .IdleWarn 3, .IdleTimeout,
        .KeepaliveResponse "pong" 200] ∧
    (Idle.timeout (run Platform.simple [.watch, .idleFire, .interrupt, .idleFire]
      pingWorld)).intervals = [] :=
  ⟨Tidy_run _ _ (Tidy_init _ _ _ _), by decide, by decide,
    (timeout_terminal Platform.simple
      (run Platform.simple [.watch, .idleFire, .interrupt, .idleFire] pingWorld)
      (Tidy_run _ _ (Tidy_init _ _ _ _))).2.2.2.1⟩

/-- C11, counterexample: in the example with a keepalive request the resume
at 5000 pings, the service times out at 13000 while the request waits, and the
response that arrives then broadcasts KeepaliveResponse after IdleTimeout with
no `watch()` in between. -/
theorem timeout_terminal_counterexample :
    (run Platform.simple
      [.watch, .idleFire, .interrupt, .idleFire, .countdownTick, .countdownTick, .countdownTick]
      pingWorld).events.map (fun e => e.2) =
      [.IdleStart, .IdleWarn 3, .IdleEnd, .Keepalive, .IdleStart, .IdleWarn 3, .IdleWarn 2,
        .IdleWarn 1, .IdleTimeout] ∧
    (run Platform.simple
      [.watch, .idleFire, .interrupt, .idleFire, .countdownTick, .countdownTick, .countdownTick]
      pingWorld).state.running = false ∧
    (∀ op ∈ [Op.respond "pong" 200], op ≠ Op.watch) ∧
    (run Platform.simple [.respond "pong" 200]
      (run Platform.simple
        [.watch, .idleFire, .interrupt, .idleFire, .countdownTick, .countdownTick, .countdownTick]
        pingWorld)).events =
    (run Platform.simple
      [.watch, .idleFire, .interrupt, .idleFire, .countdownTick, .countdownTick, .countdownTick]
      pingWorld).events ++ [(13000, .KeepaliveResponse "pong" 200)] := by
  decide

/-! ### C17: no ghost timers -/

theorem RunningTimers_of_running {w : World} (h0 : 0 ≤ w.options.timeout)
    (hr : w.state.running = true) : RunningTimers w :=
  ⟨h0, fun _ _ _ => hr⟩

theorem RunningTimers_timeout {w : World} (hw : w.Tidy) (h : RunningTimers w) :
    RunningTimers (Idle.timeout w) := by
  refine ⟨by rw [(timeout_frame w).1]; exact h.1, ?_⟩
  rw [timeout_intervals hw]
  intro t ht
  cases ht

theorem RunningTimers_countdown {w : World} (hw : w.Tidy) (h : RunningTimers w) :
    RunningTimers (Idle.countdown w) := by
  unfold Idle.countdown
  split
  · exact RunningTimers_timeout hw h
  · split
    · exact RunningTimers_timeout hw h
    · exact h

theorem RunningTimers_toggleState_start {w : World} (h0 : 0 ≤ w.options.timeout)
    (hi : w.state.idling = false) (hr : w.state.running = true) :
    RunningTimers (Idle.toggleState w) := by
  rcases lt_trichotomy w.options.timeout 0 with ht | ht | ht
  · exact absurd h0 (not_le.mpr ht)
  · rw [toggleState_start_zero w hi ht]
    exact RunningTimers_of_running h0 hr
  · rw [toggleState_start w hi ht]
    exact RunningTimers_of_running h0 hr

theorem RunningTimers_watch {w : World} (hw : w.WF) (h0 : 0 ≤ w.options.timeout) :
    RunningTimers (Idle.watch w) :=
  RunningTimers_of_running (by rw [(watch_frame w).1]; exact h0) (watch_spec hw).1

theorem RunningTimers_unwatch {w : World} (hw : w.WF) (h0 : 0 ≤ w.options.timeout) :
    RunningTimers (Idle.unwatch w) := by
  refine ⟨h0, ?_⟩
  intro t ht hf
  have a := NoTimer_cancel w.state.timeout (NoTimer_idle_of_cancel hw) t ht
  have b := NoTimer_countdown_of_cancel (WF_cancel w.state.idle hw) t ht
  cases hfn : t.fn with
  | toggleState => exact absurd hfn a
  | countdown => exact absurd hfn b
  | ping => exact absurd hfn hf

theorem RunningTimers_changeOption {α : Type} (fn : α → Options → Except String Options)
    (value : α) (hfn : ∀ o o2, fn value o = .ok o2 → 0 ≤ o.timeout → 0 ≤ o2.timeout)
    {w : World} (hw : w.WF) (h : RunningTimers w) :
    RunningTimers (Idle.changeOption fn value w).world := by
  have hu := RunningTimers_unwatch hw h.1
  unfold Idle.changeOption
  simp only
  split
  · exact hu
  · rename_i o2 he
    have h0 : 0 ≤ o2.timeout := hfn _ _ he h.1
    split_ifs
    · exact RunningTimers_watch (WF_options (WF_unwatch hw) o2) h0
    · exact ⟨h0, hu.2⟩

theorem RunningTimers_firedWorld {w : World} (h : RunningTimers w) (t : Interval) :
    RunningTimers (firedWorld w t) := by
  refine ⟨h.1, ?_⟩
  intro x hx hf
  obtain ⟨y, hy, -, hfn⟩ := mem_firedWorld hx
  exact h.2 y hy (by rw [hfn]; exact hf)

theorem RunningTimers_fire {w : World} (hw : w.Tidy) (h : RunningTimers w) (id : Nat) :
    RunningTimers (fire id w) := by
  cases hf : w.intervals.find? (fun t => t.id = id) with
  | none => rw [fire_none id w hf]; exact h
  | some t =>
    rw [fire_some id w t hf]
    have hm : t ∈ w.intervals := List.mem_of_find?_eq_some hf
    have hfw := RunningTimers_firedWorld h t
    cases hfn : t.fn with
    | toggleState =>
      obtain ⟨-, ⟨-, -, i⟩ | ⟨f, -, -⟩ | ⟨f, -⟩⟩ := hw.1.2.2.2 t hm
      · exact RunningTimers_toggleState_start h.1 i (h.2 t hm (by rw [hfn]; decide))
      · rw [hfn] at f; cases f
      · rw [hfn] at f; cases f
    | countdown => exact RunningTimers_countdown (Tidy_firedWorld hw t) hfw
    | ping => exact hfw

theorem RunningTimers_step (P : Platform) (op : Op) {w : World} (hw : w.Tidy)
    (h : RunningTimers w) : RunningTimers (step P op w) := by
  cases op with
  | watch => exact RunningTimers_watch hw.1 h.1
  | unwatch => exact RunningTimers_unwatch hw.1 h.1
  | interrupt =>
    simp only [step, Idle.interrupt]
    split_ifs
    · exact h
    · exact RunningTimers_timeout hw h
    · exact RunningTimers_watch hw.1 h.1
    · exact h
  | setIdle s =>
    exact RunningTimers_changeOption _ _
      (fun o o2 he h0 => by rw [(setIdle_keepalive s o o2 he).2]; exact h0) hw.1 h
  | setTimeout s =>
    exact RunningTimers_changeOption _ _
      (fun o o2 he _ => (setTimeout_keepalive s o o2 he).2) hw.1 h
  | idleFire =>
    simp only [step, idleFire]
    split
    · exact RunningTimers_fire hw h _
    · exact h
  | countdownTick =>
    simp only [step, countdownTick]
    split
    · exact RunningTimers_fire hw h _
    · exact h
  | keepaliveTick =>
    simp only [step, keepaliveTick]
    split
    · exact RunningTimers_fire hw h _
    · exact h
  | advance t => exact h
  | respond data status =>
    show RunningTimers (respond data status w)
    unfold respond
    split
    · exact h
    · exact h

theorem RunningTimers_run (P : Platform) (ops : List Op) {w : World} (hw : w.Tidy)
    (h : RunningTimers w) : RunningTimers (run P ops w) := by
  induction ops generalizing w with
  | nil => exact h
  | cons op ops ih => exact ih (Tidy_step P op hw) (RunningTimers_step P op hw h)

theorem filter_length_le_one (l : List Interval) (p : Interval → Bool) (c : Nat)
    (hd : DistinctIds l) (hc : ∀ t ∈ l, p t = true → t.id = c) : (l.filter p).length ≤ 1 := by
  have hs : DistinctIds (l.filter p) := List.Pairwise.sublist (List.filter_sublist l) hd
  have hall : ∀ t ∈ l.filter p, t.id = c := fun t ht =>
    hc t (List.mem_filter.mp ht).1 (List.mem_filter.mp ht).2
  generalize l.filter p = m at hs hall
  match m, hs, hall with
  | [], _, _ => simp
  | [_], _, _ => simp
  | a :: b :: _, hs, hall =>
    exfalso
    have h1 := hall a (List.mem_cons_self _ _)
    have h2 := hall b (List.mem_cons_of_mem _ (List.mem_cons_self _ _))
    have h3 := (List.pairwise_cons.mp hs).1 b (List.mem_cons_self _ _)
    exact h3 (h1.trans h2.symm)

theorem timers_spec {w : World} (hw : w.Tidy) (h : RunningTimers w) :
    (∀ t ∈ w.intervals, t.fn = .toggleState →
      w.state.idle = some t.id ∧ w.state.running = true ∧ w.state.idling = false) ∧
    (∀ t ∈ w.intervals, t.fn = .countdown →
      w.state.timeout = some t.id ∧ w.state.running = true ∧ w.state.idling = true) ∧
    (w.intervals.filter (fun t => t.fn = .toggleState)).length ≤ 1 ∧
    (w.intervals.filter (fun t => t.fn = .countdown)).length ≤ 1 ∧
    (NoTimer .toggleState w ∨ NoTimer .countdown w) := by
  have h1 : ∀ t ∈ w.intervals, t.fn = .toggleState →
      w.state.idle = some t.id ∧ w.state.running = true ∧ w.state.idling = false := by
    intro t ht hf
    obtain ⟨-, ⟨-, r, i⟩ | ⟨f, -, -⟩ | ⟨f, -⟩⟩ := hw.1.2.2.2 t ht
    · exact ⟨r, h.2 t ht (by rw [hf]; decide), i⟩
    · rw [hf] at f; cases f
    · rw [hf] at f; cases f
  have h2 : ∀ t ∈ w.intervals, t.fn = .countdown →
      w.state.timeout = some t.id ∧ w.state.running = true ∧ w.state.idling = true := by
    intro t ht hf
    obtain ⟨-, ⟨f, -, -⟩ | ⟨-, r, i⟩ | ⟨f, -⟩⟩ := hw.1.2.2.2 t ht
    · rw [hf] at f; cases f
    · exact ⟨r, h.2 t ht (by rw [hf]; decide), i⟩
    · rw [hf] at f; cases f
  refine ⟨h1, h2, ?_, ?_, ?_⟩
  · cases hi : w.state.idle with
    | none =>
      have : w.intervals.filter (fun t => decide (t.fn = .toggleState)) = [] := by
        rw [List.filter_eq_nil_iff]
        intro t ht hf
        have := (h1 t ht (by simpa using hf)).1
        rw [hi] at this; cases this
      rw [this]; simp
    | some c =>
      refine filter_length_le_one _ _ c hw.2.1 ?_
      intro t ht hf
      have := (h1 t ht (by simpa using hf)).1
      rw [hi] at this
      exact (Option.some.inj this).symm
  · cases hi : w.state.timeout with
    | none =>
      have : w.intervals.filter (fun t => decide (t.fn = .countdown)) = [] := by
        rw [List.filter_eq_nil_iff]
        intro t ht hf
        have := (h2 t ht (by simpa using hf)).1
        rw [hi] at this; cases this
      rw [this]; simp
    | some c =>
      refine filter_length_le_one _ _ c hw.2.1 ?_
      intro t ht hf
      have := (h2 t ht (by simpa using hf)).1
      rw [hi] at this
      exact (Option.some.inj this).symm
  · cases hi : w.state.idling
    · right
      intro t ht hf
      have := (h2 t ht hf).2.2
      rw [hi] at this; cases this
    · left
      intro t ht hf
      have := (h1 t ht hf).2.2
      rw [hi] at this; cases this

/-- C17: in every world reached from a newly created service with
timeoutSeconds ≥ 0 by `watch()`, `unwatch()`, `interrupt()`, `setIdle()`,
`setTimeout()`, idle-timer fires and countdown ticks (and keepalive ticks and
the passing of time), every armed idle timer is the one `state.idle` refers
to and every armed countdown timer the one `state.timeout` refers to, there is
at most one of each, an idle timer is armed only when running and not idling,
a countdown timer only when running and idling, and the two are never armed
together. -/
theorem no_ghost_timers (P : Platform) (options : Options)
    (keepaliveOptions : KeepaliveOptions) (storage : Storage) (now : Int) (ops : List Op)
    (w : World) (hv : 0 ≤ options.timeout)
    (hw : w = run P ops (World.init options keepaliveOptions storage now)) :
    (∀ t ∈ w.intervals, t.fn = .toggleState →
      w.state.idle = some t.id ∧ w.state.running = true ∧ w.state.idling = false) ∧
    (∀ t ∈ w.intervals, t.fn = .countdown →
      w.state.timeout = some t.id ∧ w.state.running = true ∧ w.state.idling = true) ∧
    (w.intervals.filter (fun t => t.fn = .toggleState)).length ≤ 1 ∧
    (w.intervals.filter (fun t => t.fn = .countdown)).length ≤ 1 ∧
    (NoTimer .toggleState w ∨ NoTimer .countdown w) := by
  subst hw
  have hi := Tidy_init options keepaliveOptions storage now
  exact timers_spec (Tidy_run P ops hi)
    (RunningTimers_run P ops hi ⟨hv, fun t ht => by simp [World.init] at ht⟩)

/-- C17, witness: the example in its warning phase after a resume and a
second idle start has the one countdown timer that `state.timeout` refers
to. -/
theorem no_ghost_timers_witness :
    (0 : Int) ≤ ({ idle := 5, timeout := 3 } : Options).timeout ∧
    (run Platform.simple [.watch, .idleFire, .interrupt, .idleFire, .countdownTick]
      exampleWorld).intervals =
      [{ id := 5, fn := .countdown, delay := 1000, count := 3, iteration := 1, due := 12000 }] ∧
    (run Platform.simple [.watch, .idleFire, .interrupt, .idleFire, .countdownTick]
      exampleWorld).state.timeout = some 5 ∧
    ((run Platform.simple [.watch, .idleFire, .interrupt, .idleFire, .countdownTick]
      exampleWorld).intervals.filter (fun t => t.fn = .countdown)).length ≤ 1 :=
  ⟨by decide, by decide, by decide,
    (no_ghost_timers Platform.simple { idle := 5, timeout := 3 } {} (fun _ => none) 0
      [.watch, .idleFire, .interrupt, .idleFire, .countdownTick] _ (by decide) rfl).2.2.2.1⟩

end NgIdle
